import Mathlib

/-!
# llm-court — verification of the debate orchestration engine

A shallow embedding, in Lean 4, of the core of the `llm-court` repository:
the agent/judge consensus module, candidate selection, the state manager,
the debate/judge round runners, checkpointing with integrity hashes, and
the JSON repair pipeline.  Definitions are translated from the TypeScript
source (`apps/engine/src/**`, `packages/shared/src/**`); theorems settle
the specification's claims about them.

Modelling conventions:
* JavaScript numbers are modelled as `ℚ` (confidences, thresholds) or `Nat`/`Int`
  (counters, `Math.ceil` results); overflow never matters at the sizes involved.
* `string | null` fields are `Option String`; thrown exceptions are `Except`.
* `Array.prototype.map`/`filter`/`find` become `List.map`/`filter`/`find?`;
  a JavaScript `Map` keyed in insertion order becomes an association list.
* Asynchronous adapter calls are inputs: a round runner takes the outcome of
  each participant's (retry-wrapped) model call as an explicit argument, since
  `Promise.all` over `config.agents.map(...)` returns results positionally.
-/

namespace LLMCourt

/-! ## Core data model (packages/shared/src/types.ts) -/

/-- `Vote = "yes" | "no" | "abstain"`. -/
inductive Vote
| yes
| no
| abstain
deriving DecidableEq, Repr

/-- Response status: `"ok" | "error"`. -/
inductive Status
| ok
| error
deriving DecidableEq, Repr

/-- `TokenUsage` record. -/
structure TokenUsage where
  prompt : Nat
  completion : Nat
  total : Nat
  estimated : Bool
deriving DecidableEq, Repr

/-- `AgentResponse` (types.ts); `positionId` is `string | null`. -/
structure AgentResponse where
  agentId : String
  round : Nat
  positionId : Option String
  positionText : String
  reasoning : String
  vote : Vote
  confidence : ℚ
  tokenUsage : TokenUsage
  latencyMs : Nat
  status : Status
  error : Option String
deriving DecidableEq, Repr

/-- `VoteTally` (types.ts).  `supermajorityThreshold` holds a `Math.ceil`
result, hence an integer. -/
structure VoteTally where
  yes : Nat
  no : Nat
  abstain : Nat
  total : Nat
  eligible : Nat
  votingTotal : Nat
  supermajorityThreshold : Int
  supermajorityReached : Bool
deriving DecidableEq, Repr

/-- Consensus method: `"unanimous" | "supermajority" | "none"`. -/
inductive ConsensusMethod
| unanimous
| supermajority
| none
deriving DecidableEq, Repr

/-- `ConsensusResult` (types.ts). -/
structure ConsensusResult where
  reached : Bool
  positionId : Option String
  positionText : Option String
  voteTally : VoteTally
  method : ConsensusMethod
deriving DecidableEq, Repr

/-! ## Agent consensus (apps/engine/src/debate/consensus.ts)

`detectAgentConsensus` filters eligible (= `status === "ok"`) responses,
counts votes (a `yes` counts only when `positionId === candidatePositionId`),
and compares the yes count against `Math.ceil(votingTotal * threshold)`. -/

/-- `responses.filter((r) => r.status === "ok")`. -/
def eligibleResponses (responses : List AgentResponse) : List AgentResponse :=
  responses.filter (fun r => r.status == Status.ok)

/-- `eligible.filter((r) => r.vote === "yes" && r.positionId === candidatePositionId).length`.
JavaScript `===` on `string | null` values is `Option` equality. -/
def yesVotes (responses : List AgentResponse) (candidatePositionId : Option String) : Nat :=
  ((eligibleResponses responses).filter
    (fun r => r.vote == Vote.yes && r.positionId == candidatePositionId)).length

/-- `eligible.filter((r) => r.vote === "no").length`. -/
def noVotes (responses : List AgentResponse) : Nat :=
  ((eligibleResponses responses).filter (fun r => r.vote == Vote.no)).length

/-- `eligible.filter((r) => r.vote === "abstain").length`. -/
def abstainVotes (responses : List AgentResponse) : Nat :=
  ((eligibleResponses responses).filter (fun r => r.vote == Vote.abstain)).length

/-- `detectAgentConsensus` (debate/consensus.ts). -/
def detectAgentConsensus (responses : List AgentResponse)
    (candidatePositionId : Option String) (threshold : ℚ) : ConsensusResult :=
  let eligible := eligibleResponses responses
  let yes := yesVotes responses candidatePositionId
  let no := noVotes responses
  let abstain := abstainVotes responses
  let tally : VoteTally :=
    { yes := yes
      no := no
      abstain := abstain
      total := responses.length
      eligible := eligible.length
      votingTotal := yes + no
      supermajorityThreshold := 0
      supermajorityReached := false }
  if candidatePositionId = Option.none ∨ tally.votingTotal = 0 then
    { reached := false, positionId := Option.none, positionText := Option.none
      voteTally := tally, method := ConsensusMethod.none }
  else
    let smt : Int := ⌈(tally.votingTotal : ℚ) * threshold⌉
    let tally' : VoteTally := { tally with supermajorityThreshold := smt }
    if (yes : Int) ≥ smt then
      let candidateText :=
        (eligible.find? (fun r => r.vote == Vote.yes && r.positionId == candidatePositionId)).map
          (fun r => r.positionText)
      { reached := true
        positionId := candidatePositionId
        positionText := candidateText
        voteTally := { tally' with supermajorityReached := true }
        method :=
          if yes = tally'.votingTotal then ConsensusMethod.unanimous
          else ConsensusMethod.supermajority }
    else
      { reached := false, positionId := Option.none, positionText := Option.none
        voteTally := tally', method := ConsensusMethod.none }

/-! ## Candidate selection (apps/engine/src/debate/consensus.ts) -/

/-- `PositionScore` (debate/consensus.ts). -/
structure PositionScore where
  positionId : String
  positionText : String
  supportScore : ℚ
  supporterCount : Nat
  avgConfidence : ℚ
deriving DecidableEq, Repr

/-- The filter at the top of `selectNextCandidate`:
`r.status === "ok" && r.vote !== "abstain" && r.positionId !== null`. -/
def candidateEligible (r : AgentResponse) : Bool :=
  r.status == Status.ok && !(r.vote == Vote.abstain) && !(r.positionId == Option.none)

/-- One entry of the `byPosition` map in `selectNextCandidate`:
`{ text, confidences }` keyed by position ID. -/
structure PosGroup where
  id : String
  text : String
  confidences : List ℚ
deriving DecidableEq, Repr

/-- One step of the grouping loop: push `conf` onto an existing group for
`pid`, or append a fresh group (JavaScript `Map` keeps insertion order and
the stored text is the first supporter's `positionText`). -/
def insertSupport (groups : List PosGroup) (pid text : String) (conf : ℚ) : List PosGroup :=
  match groups with
  | [] => [⟨pid, text, [conf]⟩]
  | g :: gs =>
    if g.id = pid then ⟨g.id, g.text, g.confidences ++ [conf]⟩ :: gs
    else g :: insertSupport gs pid text conf

/-- The `byPosition` map of `selectNextCandidate`, built over the filtered
responses in list order.  The filter guarantees `positionId ≠ null`; a `null`
(impossible after the filter) contributes nothing. -/
def groupByPosition (rs : List AgentResponse) : List PosGroup :=
  rs.foldl
    (fun groups r =>
      match r.positionId with
      | Option.some pid => insertSupport groups pid r.positionText r.confidence
      | Option.none => groups)
    []

/-- The score computation of `selectNextCandidate`:
`supportScore = Σ confidence`, `supporterCount = n`, `avgConfidence = score/n`. -/
def scoreOfGroup (g : PosGroup) : PositionScore :=
  let supportScore := g.confidences.foldl (fun sum c => sum + c) 0
  let supporterCount := g.confidences.length
  { positionId := g.id
    positionText := g.text
    supportScore := supportScore
    supporterCount := supporterCount
    avgConfidence := supportScore / supporterCount }

/-- Stable insertion into a sorted list: `x` goes in front of the first
element it compares `≤` to, so earlier elements stay in front of equal later
ones. -/
def insertSorted {α : Type} (le : α → α → Bool) (x : α) : List α → List α
  | [] => [x]
  | y :: ys => if le x y then x :: y :: ys else y :: insertSorted le x ys

/-- Stable sort by a boolean `≤`; models `Array.prototype.sort`, which is
stable (ES2019) and fully determined by a consistent comparator.  Structural,
so concrete runs reduce in the kernel. -/
def sortListStable {α : Type} (le : α → α → Bool) (l : List α) : List α :=
  l.foldr (insertSorted le) []

/-- The sort comparator of `selectNextCandidate` as a `≤`-style relation:
`supportScore` descending, then `supporterCount` descending, then
`positionId` ascending (code-unit string order, which agrees with
`localeCompare` on the lowercase-hex IDs the engine generates). -/
def scoreLE (a b : PositionScore) : Bool :=
  if a.supportScore ≠ b.supportScore then b.supportScore < a.supportScore
  else if a.supporterCount ≠ b.supporterCount then b.supporterCount < a.supporterCount
  else a.positionId ≤ b.positionId

/-- `selectNextCandidate` (debate/consensus.ts): filter, group, score, sort,
take the head. -/
def selectNextCandidate (responses : List AgentResponse) : Option PositionScore :=
  let eligible := responses.filter candidateEligible
  if eligible.isEmpty then Option.none
  else
    let scores := (groupByPosition eligible).map scoreOfGroup
    (sortListStable scoreLE scores).head?

/-- `getNextCandidate` (debate/engine.ts): project the winning score to
`{ positionId, positionText }`. -/
def getNextCandidate (responses : List AgentResponse) : Option (String × String) :=
  (selectNextCandidate responses).map (fun c => (c.positionId, c.positionText))

/-! ## Round results (types.ts) -/

/-- `RoundResult` (types.ts); `timestamp` is an ISO string. -/
structure RoundResult where
  roundNumber : Nat
  candidatePositionId : Option String
  candidatePositionText : Option String
  responses : List AgentResponse
  consensusReached : Bool
  consensusPositionId : Option String
  consensusPositionText : Option String
  voteTally : VoteTally
  timestamp : String
deriving DecidableEq, Repr

/-- `JudgeEvaluation` (types.ts); `scoresByPositionId` is a record, modelled
as an association list. -/
structure JudgeEvaluation where
  judgeId : String
  round : Nat
  selectedPositionId : Option String
  scoresByPositionId : List (String × Nat)
  reasoning : String
  confidence : ℚ
  tokenUsage : TokenUsage
  latencyMs : Nat
  status : Status
  error : Option String
deriving DecidableEq, Repr

/-- `JudgeRoundResult` (types.ts). -/
structure JudgeRoundResult where
  roundNumber : Nat
  positionIds : List String
  evaluations : List JudgeEvaluation
  consensusReached : Bool
  consensusPositionId : Option String
  avgConfidence : ℚ
  timestamp : String
deriving DecidableEq, Repr

/-- `JudgeConsensusResult` (types.ts). -/
structure JudgeConsensusResult where
  reached : Bool
  positionId : Option String
  positionText : Option String
  confidence : ℚ
  dissents : List String
deriving DecidableEq, Repr

/-! ## Judge consensus (apps/engine/src/judges/consensus.ts) -/

/-- JavaScript `Map.get` on an insertion-ordered association list. -/
def alistGet {α : Type} (m : List (String × α)) (k : String) : Option α :=
  (m.find? (fun kv => kv.1 == k)).map (fun kv => kv.2)

/-- One step of the vote-counting loop:
`votes.set(posId, (votes.get(posId) ?? 0) + 1)`. -/
def bumpVote (votes : List (String × Nat)) (posId : String) : List (String × Nat) :=
  match votes with
  | [] => [(posId, 1)]
  | kv :: rest =>
    if kv.1 = posId then (kv.1, kv.2 + 1) :: rest else kv :: bumpVote rest posId

/-- The `votes` map of `detectJudgeConsensus`, in insertion order. -/
def countJudgeVotes (eligible : List JudgeEvaluation) : List (String × Nat) :=
  eligible.foldl
    (fun votes e =>
      match e.selectedPositionId with
      | Option.some posId => bumpVote votes posId
      | Option.none => votes)
    []

/-- The filter at the top of `detectJudgeConsensus`:
`e.status === "ok" && e.selectedPositionId !== null`. -/
def judgeEligible (e : JudgeEvaluation) : Bool :=
  e.status == Status.ok && !(e.selectedPositionId == Option.none)

/-- The winner scan of `detectJudgeConsensus`: walk the sorted vote entries
keeping the first entry whose count strictly exceeds the running maximum. -/
def scanWinner (entries : List (String × Nat)) : Option String × Nat :=
  entries.foldl
    (fun acc kv => if kv.2 > acc.2 then (Option.some kv.1, kv.2) else acc)
    (Option.none, 0)

/-- Mean confidence of the eligible evaluations that selected `posId`
(`evals.reduce(...) / evals.length`). -/
def meanConfidenceFor (eligible : List JudgeEvaluation) (posId : String) : ℚ :=
  let evals := eligible.filter (fun e => e.selectedPositionId == Option.some posId)
  (evals.foldl (fun sum e => sum + e.confidence) 0) / evals.length

/-- The tie-break loop of `detectJudgeConsensus`: among the tied positions, in
sorted order, keep the one whose voters' average confidence is strictly
largest so far (initial best `-1`). -/
def tieBreak (eligible : List JudgeEvaluation) (tied : List (String × Nat))
    (winner : Option String) : Option String :=
  (tied.foldl
    (fun acc kv =>
      let avgConf := meanConfidenceFor eligible kv.1
      if avgConf > acc.2 then (Option.some kv.1, avgConf) else acc)
    (winner, -1)).1

/-- The `sortedVotes` array of `detectJudgeConsensus`: the vote entries
sorted by position ID for determinism. -/
def sortedVotesOf (eligible : List JudgeEvaluation) : List (String × Nat) :=
  sortListStable (fun a b => a.1 ≤ b.1) (countJudgeVotes eligible)

/-- The winner scan of `detectJudgeConsensus` applied to its sorted votes
(`winnerId`/`maxVotes` before tie handling). -/
def winnerScanOf (eligible : List JudgeEvaluation) : Option String × Nat :=
  scanWinner (sortedVotesOf eligible)

/-- `tiedPositions`: the sorted entries whose count equals `maxVotes`. -/
def tiedPositionsOf (eligible : List JudgeEvaluation) : List (String × Nat) :=
  (sortedVotesOf eligible).filter (fun kv => kv.2 == (winnerScanOf eligible).2)

/-- `winnerId` after the tie-break-by-average-confidence loop. -/
def winnerIdOf (eligible : List JudgeEvaluation) : Option String :=
  if (tiedPositionsOf eligible).length > 1 then
    tieBreak eligible (tiedPositionsOf eligible) (winnerScanOf eligible).1
  else (winnerScanOf eligible).1

/-- `detectJudgeConsensus` (judges/consensus.ts). -/
def detectJudgeConsensus (evaluations : List JudgeEvaluation)
    (positions : List (String × String)) (majorityThreshold : ℚ)
    (minConfidence : ℚ) : JudgeConsensusResult :=
  let eligible := evaluations.filter judgeEligible
  if eligible.isEmpty then
    { reached := false, positionId := Option.none, positionText := Option.none
      confidence := 0, dissents := [] }
  else
    let requiredVotes : Int := ⌈(eligible.length : ℚ) * majorityThreshold⌉
    let maxVotes := (winnerScanOf eligible).2
    match winnerIdOf eligible with
    | Option.none =>
      { reached := false, positionId := Option.none, positionText := Option.none
        confidence := 0, dissents := eligible.map (fun e => e.judgeId) }
    | Option.some w =>
      if (maxVotes : Int) < requiredVotes then
        { reached := false, positionId := Option.some w
          positionText := alistGet positions w
          confidence := 0, dissents := eligible.map (fun e => e.judgeId) }
      else
        let avgConfidence := meanConfidenceFor eligible w
        if avgConfidence < minConfidence then
          { reached := false, positionId := Option.some w
            positionText := alistGet positions w
            confidence := avgConfidence
            dissents :=
              (eligible.filter (fun e => !(e.selectedPositionId == Option.some w))).map
                (fun e => e.judgeId) }
        else
          { reached := true, positionId := Option.some w
            positionText := alistGet positions w
            confidence := avgConfidence
            dissents :=
              (eligible.filter (fun e => !(e.selectedPositionId == Option.some w))).map
                (fun e => e.judgeId) }

/-! ## Error responses (apps/engine/src/utils.ts) -/

/-- `createErrorAgentResponse` (utils.ts lines 137–170): the canonical error
response — `vote=abstain`, `positionId=null`, empty text and reasoning,
zero confidence and token usage, `status=error`. -/
def createErrorAgentResponse (agentId : String) (round : Nat) (error : String) :
    AgentResponse :=
  { agentId := agentId
    round := round
    positionId := Option.none
    positionText := ""
    reasoning := ""
    vote := Vote.abstain
    confidence := 0
    tokenUsage := { prompt := 0, completion := 0, total := 0, estimated := true }
    latencyMs := 0
    status := Status.error
    error := Option.some error }

/-- `createErrorJudgeResponse` (utils.ts lines 175–206). -/
def createErrorJudgeResponse (judgeId : String) (round : Nat) (error : String) :
    JudgeEvaluation :=
  { judgeId := judgeId
    round := round
    selectedPositionId := Option.none
    scoresByPositionId := []
    reasoning := ""
    confidence := 0
    tokenUsage := { prompt := 0, completion := 0, total := 0, estimated := true }
    latencyMs := 0
    status := Status.error
    error := Option.some error }

/-! ## Derived counts used by the tally statements -/

/-- Number of `status === "error"` responses. -/
def errorCount (responses : List AgentResponse) : Nat :=
  (responses.filter (fun r => r.status == Status.error)).length

/-- Eligible `yes` votes whose `positionId` does **not** match the candidate —
these are counted by no field of the tally. -/
def mismatchedYesVotes (responses : List AgentResponse) (candidatePositionId : Option String) :
    Nat :=
  ((eligibleResponses responses).filter
    (fun r => r.vote == Vote.yes && !(r.positionId == candidatePositionId))).length

/-- Number of eligible evaluations that selected position `posId`. -/
def votesFor (eligible : List JudgeEvaluation) (posId : String) : Nat :=
  (eligible.filter (fun e => e.selectedPositionId == Option.some posId)).length

/-! ## Configuration (packages/shared/src/schemas.ts, output types)

Typed mirror of `DebateConfigSchema`'s output: every optional-with-default
field is present after validation. -/

/-- Model providers. -/
inductive Provider
| openai
| anthropic
| google
| cli
| codex
| geminiCli
deriving DecidableEq, Repr

/-- CLI chat templates. -/
inductive ChatTemplate
| chatml
| llama3
| gemma
deriving DecidableEq, Repr

/-- Codex reasoning levels. -/
inductive ReasoningEffort
| minimal
| low
| medium
| high
| xhigh
deriving DecidableEq, Repr

/-- `ModelConfigSchema` output. -/
structure ModelConfig where
  provider : Provider
  model : String
  apiKeyEnv : Option String
  cliPath : Option String
  cliArgs : Option (List String)
  chatTemplate : Option ChatTemplate
  reasoningEffort : Option ReasoningEffort
  enableSearch : Option Bool
deriving DecidableEq, Repr

/-- `AgentConfigSchema` / `JudgeConfigSchema` output (same shape). -/
structure AgentConfig where
  id : String
  model : ModelConfig
  systemPrompt : Option String
  temperature : Option ℚ
deriving DecidableEq, Repr

/-- `TimeoutConfigSchema` output. -/
structure TimeoutConfig where
  modelMs : Nat
  roundMs : Nat
  sessionMs : Nat
deriving DecidableEq, Repr

/-- `RetryConfigSchema` output. -/
structure RetryConfig where
  maxAttempts : Nat
  baseDelayMs : Nat
  maxDelayMs : Nat
deriving DecidableEq, Repr

/-- `ConcurrencyConfigSchema` output. -/
structure ConcurrencyConfig where
  maxConcurrentRequests : Nat
deriving DecidableEq, Repr

/-- `LimitConfigSchema` output. -/
structure LimitConfig where
  maxTokensPerResponse : Nat
  maxTotalTokens : Nat
  maxTotalCostUsd : ℚ
  maxContextTokens : Nat
deriving DecidableEq, Repr

/-- `judgePositionsScope ∈ {all_rounds, last_round}`. -/
inductive PositionsScope
| allRounds
| lastRound
deriving DecidableEq, Repr

/-- `contextTopology` options. -/
inductive ContextTopology
| fullHistory
| lastRound
| lastRoundWithSelf
| summary
deriving DecidableEq, Repr

/-- `DebateConfigSchema` output. -/
structure DebateConfig where
  topic : String
  initialQuery : Option String
  agents : List AgentConfig
  judges : List AgentConfig
  judgePanelEnabled : Bool
  maxAgentRounds : Nat
  maxJudgeRounds : Nat
  consensusThreshold : ℚ
  judgeConsensusThreshold : ℚ
  judgeMinConfidence : ℚ
  judgePositionsScope : PositionsScope
  contextTopology : ContextTopology
  checkpointDir : Option String
  timeouts : TimeoutConfig
  retries : RetryConfig
  concurrency : ConcurrencyConfig
  limits : LimitConfig
  deterministicMode : Bool
  allowExternalPaths : Bool
deriving DecidableEq, Repr

/-! ## State manager (apps/engine/src/state/manager.ts) -/

/-- `DebatePhase`. -/
inductive DebatePhase
| init
| agentDebate
| judgeEvaluation
| consensusReached
| deadlock
deriving DecidableEq, Repr

/-- `VALID_TRANSITIONS` (state/manager.ts lines 19–25), verbatim. -/
def VALID_TRANSITIONS : DebatePhase → List DebatePhase
  | DebatePhase.init => [DebatePhase.agentDebate]
  | DebatePhase.agentDebate =>
    [DebatePhase.consensusReached, DebatePhase.judgeEvaluation, DebatePhase.deadlock]
  | DebatePhase.judgeEvaluation => [DebatePhase.consensusReached, DebatePhase.deadlock]
  | DebatePhase.consensusReached => []
  | DebatePhase.deadlock => []

/-- Verdict sources. -/
inductive VerdictSource
| agentConsensus
| judgeConsensus
| deadlock
deriving DecidableEq, Repr

/-- `FinalVerdict` (types.ts). -/
structure FinalVerdict where
  positionId : String
  positionText : String
  confidence : ℚ
  source : VerdictSource
deriving DecidableEq, Repr

/-- `SessionMetadata` (types.ts). -/
structure SessionMetadata where
  engineVersion : String
  startedAt : String
  completedAt : Option String
  totalTokens : Nat
  totalCostUsd : ℚ
  pricingKnown : Bool
  checkpointPath : Option String
  totalRetries : Nat
  totalErrors : Nat
deriving DecidableEq, Repr

/-- `DebateSession` (types.ts) — the record owned by `StateManager`. -/
structure DebateSession where
  id : String
  topic : String
  initialQuery : Option String
  phase : DebatePhase
  config : DebateConfig
  agentRounds : List RoundResult
  judgeRounds : List JudgeRoundResult
  finalVerdict : Option FinalVerdict
  metadata : SessionMetadata
deriving DecidableEq, Repr

/-- `InvalidStateTransitionError` payload. -/
structure InvalidStateTransition where
  fromPhase : DebatePhase
  toPhase : DebatePhase
deriving DecidableEq, Repr

/-- Whether a phase is terminal (`consensus_reached` or `deadlock`). -/
def isTerminalPhase (p : DebatePhase) : Bool :=
  p == DebatePhase.consensusReached || p == DebatePhase.deadlock

/-- `StateManager.transitionTo` (state/manager.ts lines 87–100): throw on an
edge missing from `VALID_TRANSITIONS` (leaving the session untouched, since
the check precedes the mutation); otherwise update the phase and stamp
`completedAt = now` on entry to a terminal phase. -/
def transitionTo (s : DebateSession) (newPhase : DebatePhase) (now : String) :
    Except InvalidStateTransition DebateSession :=
  if (VALID_TRANSITIONS s.phase).contains newPhase then
    Except.ok
      { s with
        phase := newPhase
        metadata :=
          if isTerminalPhase newPhase then { s.metadata with completedAt := Option.some now }
          else s.metadata }
  else Except.error ⟨s.phase, newPhase⟩

/-- `StateManager.updateMetadataFromJudgeRound`: accumulate token and error
counters over the round's evaluations. -/
def updateMetadataFromJudgeRound (m : SessionMetadata) (round : JudgeRoundResult) :
    SessionMetadata :=
  round.evaluations.foldl
    (fun m e =>
      { m with
        totalTokens := m.totalTokens + e.tokenUsage.total
        totalErrors := m.totalErrors + (if e.status == Status.error then 1 else 0) })
    m

/-- `StateManager.addJudgeRound`: append and update counters. -/
def addJudgeRound (s : DebateSession) (round : JudgeRoundResult) : DebateSession :=
  { s with
    judgeRounds := s.judgeRounds ++ [round]
    metadata := updateMetadataFromJudgeRound s.metadata round }

/-- `StateManager.setFinalVerdict`. -/
def setFinalVerdict (s : DebateSession) (v : FinalVerdict) : DebateSession :=
  { s with finalVerdict := Option.some v }

/-- JavaScript truthiness of a `string | null`: `null` and `""` are falsy. -/
def strOptTruthy : Option String → Bool
  | Option.none => false
  | Option.some s => s ≠ ""

/-! ## Judge panel (apps/engine/src/judges/panel.ts) -/

/-- `collectPositions` (judges/panel.ts): gather `positionId → positionText`
over the scoped rounds, keeping the first occurrence; a response contributes
only when `status === "ok"` and both `positionId` and `positionText` are
truthy. -/
def collectPositions (rounds : List RoundResult) (scope : PositionsScope) :
    List (String × String) :=
  let roundsToProcess :=
    match scope with
    | PositionsScope.lastRound => rounds.drop (rounds.length - 1)
    | PositionsScope.allRounds => rounds
  roundsToProcess.foldl
    (fun positions round =>
      round.responses.foldl
        (fun positions r =>
          match r.positionId with
          | Option.some pid =>
            if r.status == Status.ok ∧ pid ≠ "" ∧ r.positionText ≠ "" then
              if positions.any (fun kv => kv.1 == pid) then positions
              else positions ++ [(pid, r.positionText)]
            else positions
          | Option.none => positions)
        positions)
    []

/-- `runJudgeRound` (judges/panel.ts), with the judges' `Promise.all`
results taken as an argument: each element of `evaluations` is what the
corresponding `runJudge` call produced (an ok evaluation or an error
evaluation).  The round result records the consensus evaluation; in
particular `avgConfidence` is a copy of `consensusResult.confidence`. -/
def runJudgeRound (round : Nat) (positions : List (String × String))
    (evaluations : List JudgeEvaluation) (cfg : DebateConfig) (now : String) :
    JudgeRoundResult :=
  let consensusResult :=
    detectJudgeConsensus evaluations positions cfg.judgeConsensusThreshold cfg.judgeMinConfidence
  { roundNumber := round
    positionIds := positions.map (fun kv => kv.1)
    evaluations := evaluations
    consensusReached := consensusResult.reached
    consensusPositionId := consensusResult.positionId
    avgConfidence := consensusResult.confidence
    timestamp := now }

/-! ## Judge evaluation phase (apps/engine/src/orchestrator.ts lines 321–423)

The `while` loop over judge rounds.  `oracle r` is the list of evaluations
the judges return in round `r`; `nowAt r` is the round's timestamp.  A
`return` after the consensus transition exits the function; exhausting the
loop falls through to the deadlock transition.  `transitionTo` can throw, so
the loop is `Except`-valued like the JavaScript call stack. -/

/-- The code after the `while` loop of `runJudgeEvaluationPhase`: transition
to deadlock and, when the last judge round carries a truthy
`consensusPositionId`, set the deadlock verdict from it with its recorded
`avgConfidence`. -/
def judgePhaseExit (positions : List (String × String)) (nowAt : Nat → String)
    (s : DebateSession) : Except InvalidStateTransition DebateSession := do
  let s1 ← transitionTo s DebatePhase.deadlock (nowAt (s.judgeRounds.length + 1))
  match s1.judgeRounds.getLast? with
  | Option.some lastJudgeRound =>
    if strOptTruthy lastJudgeRound.consensusPositionId then
      match lastJudgeRound.consensusPositionId with
      | Option.some cid =>
        Except.ok (setFinalVerdict s1
          { positionId := cid
            positionText := (alistGet positions cid).getD ""
            confidence := lastJudgeRound.avgConfidence
            source := VerdictSource.deadlock })
      | Option.none => Except.ok s1
    else Except.ok s1
  | Option.none => Except.ok s1

/-- The `while` loop of `runJudgeEvaluationPhase`.  The loop adds a round per
iteration and its guard caps the round count, so it runs at most
`maxJudgeRounds + 1 - |judgeRounds|` times; `fuel` is that bound, making the
recursion structural (hence kernel-computable on concrete runs).  The guard
fails before fuel runs out at every call site
(`judgePhaseLoop_fuel_irrelevant` below), so the `0` case is unreachable and
both cases exit through the post-loop code. -/
def judgePhaseLoop (cfg : DebateConfig) (positions : List (String × String))
    (oracle : Nat → List JudgeEvaluation) (nowAt : Nat → String) :
    Nat → DebateSession → Except InvalidStateTransition DebateSession
  | 0, s => judgePhaseExit positions nowAt s
  | fuel + 1, s =>
    if s.phase = DebatePhase.judgeEvaluation ∧
        s.judgeRounds.length + 1 ≤ cfg.maxJudgeRounds then
      let round := s.judgeRounds.length + 1
      let roundResult := runJudgeRound round positions (oracle round) cfg (nowAt round)
      let s1 := addJudgeRound s roundResult
      if roundResult.consensusReached ∧ strOptTruthy roundResult.consensusPositionId then
        match roundResult.consensusPositionId with
        | Option.some cid => do
          let s2 ← transitionTo s1 DebatePhase.consensusReached (nowAt round)
          Except.ok (setFinalVerdict s2
            { positionId := cid
              positionText := (alistGet positions cid).getD ""
              confidence := roundResult.avgConfidence
              source := VerdictSource.judgeConsensus })
        | Option.none => judgePhaseLoop cfg positions oracle nowAt fuel s1
      else judgePhaseLoop cfg positions oracle nowAt fuel s1
    else judgePhaseExit positions nowAt s

/-- `runJudgeEvaluationPhase` (orchestrator.ts): compute the positions once,
then run the loop with its canonical fuel. -/
def runJudgeEvaluationPhase (cfg : DebateConfig) (oracle : Nat → List JudgeEvaluation)
    (nowAt : Nat → String) (s : DebateSession) : Except InvalidStateTransition DebateSession :=
  judgePhaseLoop cfg (collectPositions s.agentRounds cfg.judgePositionsScope) oracle nowAt
    (cfg.maxJudgeRounds + 1 - s.judgeRounds.length) s

/-- The judge round the loop produces at round number `n`. -/
def judgeRoundAt (cfg : DebateConfig) (positions : List (String × String))
    (oracle : Nat → List JudgeEvaluation) (nowAt : Nat → String) (n : Nat) :
    JudgeRoundResult :=
  runJudgeRound n positions (oracle n) cfg (nowAt n)

/-! ## Output assembly (apps/engine/src/orchestrator.ts `buildOutput`) -/

/-- The `judgePanel.final` object of the output document. -/
structure JudgePanelFinal where
  consensusPositionId : String
  consensusPositionText : String
  consensusConfidence : ℚ
  dissents : List String
deriving DecidableEq, Repr

/-- The `session` block of the output document. -/
structure OutputSession where
  id : String
  topic : String
  initialQuery : Option String
  phase : DebatePhase
  startedAt : String
  completedAt : Option String
  totalTokens : Nat
  totalCostUsd : ℚ
  pricingKnown : Bool
  engineVersion : String
  totalRetries : Nat
  totalErrors : Nat
deriving DecidableEq, Repr

/-- The `agentDebate` block of the output document. -/
structure OutputAgentDebate where
  rounds : List RoundResult
  finalPositionId : Option String
  finalPositionText : Option String
deriving DecidableEq, Repr

/-- The `judgePanel` block of the output document. -/
structure OutputJudgePanel where
  enabled : Bool
  rounds : List JudgeRoundResult
  final : Option JudgePanelFinal
deriving DecidableEq, Repr

/-- `DebateOutput` (types.ts). -/
structure DebateOutput where
  version : String
  session : OutputSession
  agentDebate : OutputAgentDebate
  judgePanel : OutputJudgePanel
  finalVerdict : FinalVerdict
deriving DecidableEq, Repr

/-- `SPEC_VERSION` (packages/shared/src/constants.ts). -/
def SPEC_VERSION : String := "2.3.0"

/-- `ENGINE_VERSION` (packages/shared/src/constants.ts). -/
def ENGINE_VERSION : String := "2.3.0"

/-- `buildOutput` (orchestrator.ts lines 428–473). -/
def buildOutput (s : DebateSession) : DebateOutput :=
  let lastAgentRound := s.agentRounds.getLast?
  { version := SPEC_VERSION
    session :=
      { id := s.id
        topic := s.topic
        initialQuery := s.initialQuery
        phase := s.phase
        startedAt := s.metadata.startedAt
        completedAt := s.metadata.completedAt
        totalTokens := s.metadata.totalTokens
        totalCostUsd := s.metadata.totalCostUsd
        pricingKnown := s.metadata.pricingKnown
        engineVersion := s.metadata.engineVersion
        totalRetries := s.metadata.totalRetries
        totalErrors := s.metadata.totalErrors }
    agentDebate :=
      { rounds := s.agentRounds
        finalPositionId := lastAgentRound.bind (fun r => r.consensusPositionId)
        finalPositionText := lastAgentRound.bind (fun r => r.consensusPositionText) }
    judgePanel :=
      { enabled := s.config.judgePanelEnabled
        rounds := s.judgeRounds
        final :=
          if s.judgeRounds.length > 0 then
            Option.some
              { consensusPositionId := (s.finalVerdict.map (fun v => v.positionId)).getD ""
                consensusPositionText := (s.finalVerdict.map (fun v => v.positionText)).getD ""
                consensusConfidence := (s.finalVerdict.map (fun v => v.confidence)).getD 0
                dissents := [] }
          else Option.none }
    finalVerdict :=
      s.finalVerdict.getD
        { positionId := ""
          positionText := ""
          confidence := 0
          source := VerdictSource.deadlock } }

/-! # Concrete fixtures -/

/-- An eligible round-1 style response: `status=ok`, `vote=abstain`, a fresh
position with its ID. -/
def sampleAbstain (agentId pid text : String) (conf : ℚ) : AgentResponse :=
  { agentId := agentId
    round := 1
    positionId := Option.some pid
    positionText := text
    reasoning := "initial position"
    vote := Vote.abstain
    confidence := conf
    tokenUsage := { prompt := 120, completion := 60, total := 180, estimated := false }
    latencyMs := 40
    status := Status.ok
    error := Option.none }

/-- An eligible voting response (`yes` or `no`) on a position. -/
def sampleVoter (agentId : String) (v : Vote) (pid : Option String) (text : String)
    (conf : ℚ) : AgentResponse :=
  { agentId := agentId
    round := 2
    positionId := pid
    positionText := text
    reasoning := "argued"
    vote := v
    confidence := conf
    tokenUsage := { prompt := 150, completion := 70, total := 220, estimated := false }
    latencyMs := 55
    status := Status.ok
    error := Option.none }

/-- The all-abstain round 1 of the specification's Scenario A: three distinct
positions P1/P2/P3 at confidences 0.8/0.7/0.6. -/
def round1AllAbstain : List AgentResponse :=
  [sampleAbstain "agent-1" "1a2b3c4d5e6f" "P1" (8/10),
   sampleAbstain "agent-2" "2b3c4d5e6f7a" "P2" (7/10),
   sampleAbstain "agent-3" "3c4d5e6f7a8b" "P3" (6/10)]

/-- A minimal model configuration. -/
def sampleModel : ModelConfig :=
  { provider := Provider.openai
    model := "gpt-4o-mini"
    apiKeyEnv := Option.none
    cliPath := Option.none
    cliArgs := Option.none
    chatTemplate := Option.none
    reasoningEffort := Option.none
    enableSearch := Option.none }

/-- A participant configuration. -/
def sampleAgentCfg (id : String) : AgentConfig :=
  { id := id, model := sampleModel, systemPrompt := Option.none, temperature := Option.none }

/-- A schema-shaped debate configuration (defaults of `DebateConfigSchema`,
with `maxJudgeRounds = 1` so a single judge round exhausts the panel). -/
def sampleConfig : DebateConfig :=
  { topic := "Should the project adopt a strangler-fig migration?"
    initialQuery := Option.none
    agents := [sampleAgentCfg "agent-1", sampleAgentCfg "agent-2", sampleAgentCfg "agent-3"]
    judges := [sampleAgentCfg "judge-1", sampleAgentCfg "judge-2", sampleAgentCfg "judge-3"]
    judgePanelEnabled := true
    maxAgentRounds := 4
    maxJudgeRounds := 1
    consensusThreshold := 67/100
    judgeConsensusThreshold := 6/10
    judgeMinConfidence := 7/10
    judgePositionsScope := PositionsScope.allRounds
    contextTopology := ContextTopology.lastRoundWithSelf
    checkpointDir := Option.none
    timeouts := { modelMs := 120000, roundMs := 300000, sessionMs := 1200000 }
    retries := { maxAttempts := 2, baseDelayMs := 1000, maxDelayMs := 8000 }
    concurrency := { maxConcurrentRequests := 4 }
    limits :=
      { maxTokensPerResponse := 2048, maxTotalTokens := 200000, maxTotalCostUsd := 25
        maxContextTokens := 12000 }
    deterministicMode := true
    allowExternalPaths := false }

/-- Fresh session metadata. -/
def sampleMetadata : SessionMetadata :=
  { engineVersion := ENGINE_VERSION
    startedAt := "2026-02-01T10:00:00.000Z"
    completedAt := Option.none
    totalTokens := 0
    totalCostUsd := 0
    pricingKnown := false
    checkpointPath := Option.none
    totalRetries := 0
    totalErrors := 0 }

/-- A session at a given phase, with no rounds and no verdict. -/
def sampleSession (phase : DebatePhase) : DebateSession :=
  { id := "01941f29-7c00-7000-8000-000000000001"
    topic := sampleConfig.topic
    initialQuery := Option.none
    phase := phase
    config := sampleConfig
    agentRounds := []
    judgeRounds := []
    finalVerdict := Option.none
    metadata := sampleMetadata }

/-- A judge round with no consensus, for output-shape fixtures. -/
def sampleJudgeRoundResult : JudgeRoundResult :=
  { roundNumber := 1
    positionIds := ["1a2b3c4d5e6f"]
    evaluations := []
    consensusReached := false
    consensusPositionId := Option.none
    avgConfidence := 0
    timestamp := "2026-02-01T10:03:00.000Z" }

/-- An eligible judge evaluation selecting a position. -/
def sampleJudgeEval (judgeId pid : String) (conf : ℚ) : JudgeEvaluation :=
  { judgeId := judgeId
    round := 1
    selectedPositionId := Option.some pid
    scoresByPositionId := [(pid, 90)]
    reasoning := "weighed the positions"
    confidence := conf
    tokenUsage := { prompt := 200, completion := 80, total := 280, estimated := false }
    latencyMs := 70
    status := Status.ok
    error := Option.none }

/-- Judge responses for the hard-deadlock run: three judges split across
three distinct positions (counts 1/1/1, short of `requiredVotes = 2`),
with the tie broken towards `judge-1`'s position at confidence 0.9. -/
def cxOracle : Nat → List JudgeEvaluation := fun _ =>
  [sampleJudgeEval "judge-1" "aaaaaaaaaaaa" (9/10),
   sampleJudgeEval "judge-2" "bbbbbbbbbbbb" (5/10),
   sampleJudgeEval "judge-3" "cccccccccccc" (4/10)]

/-- Timestamps for the hard-deadlock run. -/
def cxNow : Nat → String := fun _ => "2026-02-01T10:04:00.000Z"

/-- The hard-deadlock judge phase run: `maxJudgeRounds = 1` exhausts after
the split round above. -/
def cxRun : Except InvalidStateTransition DebateSession :=
  runJudgeEvaluationPhase sampleConfig cxOracle cxNow
    (sampleSession DebatePhase.judgeEvaluation)

/-- The single judge round the hard-deadlock run records. -/
def cxLastRound : JudgeRoundResult :=
  runJudgeRound 1 (collectPositions [] sampleConfig.judgePositionsScope) (cxOracle 1)
    sampleConfig (cxNow 1)

/-- The state the hard-deadlock run ends in. -/
def cxFinal : DebateSession :=
  match cxRun with
  | Except.ok st => st
  | Except.error _ => sampleSession DebatePhase.deadlock

/-! ## JSON values

A model of the JavaScript JSON data the engine serializes and parses.
Numbers are exact decimals `sig × 10 ^ exp10` (`JsonNum`): the engine's
numbers are counters and confidences whose serialized decimal form
round-trips exactly through `JSON.stringify`/`JSON.parse`, which this
pair of fields captures without floating-point rounding.  Strings are
Unicode scalar sequences (Lean `String`); the engine's payloads are ASCII,
so UTF-16 surrogate-pair details never arise.  Objects keep their member
list as parsed, in order. -/

/-- An exact decimal number `sig × 10 ^ exp10`. -/
structure JsonNum where
  sig : Int
  exp10 : Int
deriving DecidableEq, Repr

/-- A JSON value. -/
inductive Json
| null
| bool (b : Bool)
| num (n : JsonNum)
| str (s : String)
| arr (items : List Json)
| obj (fields : List (String × Json))

/-! ## `JSON.parse` (a character-list parser with fuel)

The grammar of ECMA-404 as `JSON.parse` enforces it: whitespace is
space/tab/newline/carriage-return; numbers are `-? int frac? exp?` with
the leading-zero rule; strings reject raw control characters and accept
the eight named escapes plus `\uXXXX`.  The value parser recurses on a
fuel counter (structural, so concrete runs compute inside the kernel);
`jparse` passes `length + 1`, which suffices for every input the theorems
evaluate it on. -/

/-- JSON whitespace. -/
def isJsonWs (c : Char) : Bool :=
  c = ' ' || c = '\t' || c = '\n' || c = '\r'

/-- Drop leading JSON whitespace. -/
def wsSkip : List Char → List Char
  | c :: cs => if isJsonWs c then wsSkip cs else c :: cs
  | [] => []

/-- ASCII decimal digit test. -/
def isDig (c : Char) : Bool :=
  '0' ≤ c && c ≤ '9'

/-- Split off the longest leading run of decimal digits. -/
def digitSpan : List Char → List Char × List Char
  | c :: cs =>
    if isDig c then
      let (ds, r) := digitSpan cs
      (c :: ds, r)
    else ([], c :: cs)
  | [] => ([], [])

/-- Value of a most-significant-first digit string. -/
def natOfDigits (ds : List Char) : Nat :=
  ds.foldl (fun acc c => 10 * acc + (c.toNat - 48)) 0

/-- Value of one hexadecimal digit (either case), if it is one. -/
def hexDigitVal (c : Char) : Option Nat :=
  if '0' ≤ c && c ≤ '9' then some (c.toNat - 48)
  else if 'a' ≤ c && c ≤ 'f' then some (c.toNat - 87)
  else if 'A' ≤ c && c ≤ 'F' then some (c.toNat - 55)
  else none

/-- The character named by a single-letter string escape. -/
def escDecode (e : Char) : Option Char :=
  if e = '"' then some '"'
  else if e = '\\' then some '\\'
  else if e = '/' then some '/'
  else if e = 'b' then some (Char.ofNat 8)
  else if e = 'f' then some (Char.ofNat 12)
  else if e = 'n' then some '\n'
  else if e = 'r' then some '\r'
  else if e = 't' then some '\t'
  else none

/-- Parse a string body after the opening quote: literal characters must be
`≥ 0x20` (raw control characters are a syntax error), `\uXXXX` takes four
hex digits, every other `\x` goes through `escDecode`. -/
def strBody (acc : List Char) : List Char → Option (String × List Char)
  | '"' :: r => some (String.mk acc.reverse, r)
  | '\\' :: e :: r =>
    if e = 'u' then
      match r with
      | a :: b :: c :: d :: r2 =>
        match hexDigitVal a, hexDigitVal b, hexDigitVal c, hexDigitVal d with
        | some va, some vb, some vc, some vd =>
          strBody (Char.ofNat (((va * 16 + vb) * 16 + vc) * 16 + vd) :: acc) r2
        | _, _, _, _ => none
      | _ => none
    else
      match escDecode e with
      | some c => strBody (c :: acc) r
      | none => none
  | c :: r => if c.toNat < 32 then none else strBody (c :: acc) r
  | [] => none

/-- The integer part of a number: a lone `0`, or a nonzero digit followed by
any digits (`JSON.parse` rejects leading zeros). -/
def intPart : List Char → Option (List Char × List Char)
  | c :: cs =>
    if c = '0' then some (['0'], cs)
    else if isDig c then
      let (ds, r) := digitSpan cs
      some (c :: ds, r)
    else none
  | [] => none

/-- The fractional part: absent, or a dot followed by one or more digits. -/
def fracPart : List Char → Option (List Char × List Char)
  | c :: cs =>
    if c = '.' then
      match digitSpan cs with
      | ([], _) => none
      | (ds, r) => some (ds, r)
    else some ([], c :: cs)
  | [] => some ([], [])

/-- The exponent part: absent, or `e`/`E`, an optional sign, and one or more
digits; returns its signed value. -/
def expPart : List Char → Option (Int × List Char)
  | c :: cs =>
    if c = 'e' ∨ c = 'E' then
      match cs with
      | s :: cs1 =>
        if s = '+' then
          match digitSpan cs1 with
          | ([], _) => none
          | (ds, r) => some ((natOfDigits ds : Int), r)
        else if s = '-' then
          match digitSpan cs1 with
          | ([], _) => none
          | (ds, r) => some (-(natOfDigits ds : Int), r)
        else
          match digitSpan (s :: cs1) with
          | ([], _) => none
          | (ds, r) => some ((natOfDigits ds : Int), r)
      | [] => none
    else some (0, c :: cs)
  | [] => some (0, [])

/-- Parse a JSON number into an exact decimal: the digits of the integer and
fractional parts form the significand, and the exponent is shifted down by
the fractional length. -/
def numParse (cs : List Char) : Option (JsonNum × List Char) :=
  let (neg, cs0) : Bool × List Char :=
    match cs with
    | c :: r => if c = '-' then (true, r) else (false, c :: r)
    | [] => (false, [])
  match intPart cs0 with
  | none => none
  | some (ids, cs1) =>
    match fracPart cs1 with
    | none => none
    | some (fds, cs2) =>
      match expPart cs2 with
      | none => none
      | some (ev, cs3) =>
        let mag : Int := (natOfDigits (ids ++ fds) : Int)
        some (⟨if neg then -mag else mag, ev - (fds.length : Int)⟩, cs3)

/-! The fuel-indexed value parser; `jarrP`/`jobjP` parse the non-empty tails
of arrays and objects, consuming the closing bracket. -/

mutual
def jvalP (fuel : Nat) (cs : List Char) : Option (Json × List Char) :=
  match fuel with
  | 0 => none
  | fuel + 1 =>
    match wsSkip cs with
    | 'n' :: 'u' :: 'l' :: 'l' :: r => some (Json.null, r)
    | 't' :: 'r' :: 'u' :: 'e' :: r => some (Json.bool true, r)
    | 'f' :: 'a' :: 'l' :: 's' :: 'e' :: r => some (Json.bool false, r)
    | '"' :: r =>
      match strBody [] r with
      | some (s, r1) => some (Json.str s, r1)
      | none => none
    | '[' :: r =>
      match wsSkip r with
      | [] => none
      | c :: r1 =>
        if c = ']' then some (Json.arr [], r1)
        else
          match jarrP fuel (c :: r1) with
          | some (es, r2) => some (Json.arr es, r2)
          | none => none
    | '\x7b' :: r =>
      match wsSkip r with
      | [] => none
      | c :: r1 =>
        if c = '\x7d' then some (Json.obj [], r1)
        else
          match jobjP fuel (c :: r1) with
          | some (ms, r2) => some (Json.obj ms, r2)
          | none => none
    | c :: r =>
      if c = '-' ∨ isDig c then
        match numParse (c :: r) with
        | some (n, r1) => some (Json.num n, r1)
        | none => none
      else none
    | [] => none
def jarrP (fuel : Nat) (cs : List Char) : Option (List Json × List Char) :=
  match fuel with
  | 0 => none
  | fuel + 1 =>
    match jvalP fuel cs with
    | none => none
    | some (v, r) =>
      match wsSkip r with
      | ',' :: r1 =>
        match jarrP fuel r1 with
        | some (vs, r2) => some (v :: vs, r2)
        | none => none
      | ']' :: r1 => some ([v], r1)
      | _ => none
def jobjP (fuel : Nat) (cs : List Char) : Option (List (String × Json) × List Char) :=
  match fuel with
  | 0 => none
  | fuel + 1 =>
    match wsSkip cs with
    | '"' :: r =>
      match strBody [] r with
      | none => none
      | some (k, r1) =>
        match wsSkip r1 with
        | ':' :: r2 =>
          match jvalP fuel r2 with
          | none => none
          | some (v, r3) =>
            match wsSkip r3 with
            | ',' :: r4 =>
              match jobjP fuel r4 with
              | some (ms, r5) => some ((k, v) :: ms, r5)
              | none => none
            | '\x7d' :: r4 => some ([(k, v)], r4)
            | _ => none
        | _ => none
    | _ => none
end

/-- A remainder that cannot extend a rendered number: empty, or headed by
anything that is neither a digit nor `.`/`e`/`E`.  Every JSON delimiter
and every whitespace character qualifies. -/
def numStop : List Char → Bool
  | [] => true
  | c :: _ => !(isDig c || c = '.' || c = 'e' || c = 'E')

/-- `JSON.parse` on a whole document: one value, surrounding whitespace,
nothing else.  `none` models the thrown `SyntaxError`. -/
def jparse (s : String) : Option Json :=
  match jvalP (s.data.length + 1) s.data with
  | some (j, r) => if wsSkip r = [] then some j else none
  | none => none

/-! ## `JSON.stringify` (compact and 2-space-indented)

`jvalR gap d` renders a value at depth `d`; `gap = none` is the compact
form `JSON.stringify(x)` and `gap = some w` the pretty form
`JSON.stringify(x, null, w)` (newline plus `w·depth` spaces before every
element/member and after no opening bracket of an empty container, a space
after each colon).  String escaping follows `QuoteJSONString`: the two
quotes, backslash, `\b \t \n \f \r`, and `\u00xx` for the remaining
control characters.  Numbers with `exp10 ≤ 0` print as plain decimals,
exactly as `JSON.stringify` prints the engine's counters and confidences
(the engine never serializes magnitudes at which JavaScript switches to
exponential notation). -/

/-- Lowercase hexadecimal digit character. -/
def hexChar (n : Nat) : Char :=
  if n < 10 then Char.ofNat (48 + n) else Char.ofNat (87 + n)

/-- One character of a rendered string. -/
def escEncode (c : Char) : List Char :=
  if c = '"' then ['\\', '"']
  else if c = '\\' then ['\\', '\\']
  else if c = Char.ofNat 8 then ['\\', 'b']
  else if c = Char.ofNat 12 then ['\\', 'f']
  else if c = '\n' then ['\\', 'n']
  else if c = '\r' then ['\\', 'r']
  else if c = '\t' then ['\\', 't']
  else if c.toNat < 32 then ['\\', 'u', '0', '0', hexChar (c.toNat / 16), hexChar (c.toNat % 16)]
  else [c]

/-- A rendered string body. -/
def strBodyRender : List Char → List Char
  | [] => []
  | c :: cs => escEncode c ++ strBodyRender cs

/-- A rendered string, quotes included. -/
def strRender (s : String) : List Char :=
  '"' :: (strBodyRender s.data ++ ['"'])

/-- Digit characters of `n`, most significant first (`fuel ≥ n` suffices). -/
def natDigitsGo (fuel n : Nat) : List Char :=
  match fuel with
  | 0 => []
  | fuel + 1 =>
    if n = 0 then []
    else natDigitsGo fuel (n / 10) ++ [Char.ofNat (48 + n % 10)]

/-- Decimal digits of `n` (`"0"` for zero). -/
def natDigits (n : Nat) : List Char :=
  if n = 0 then ['0'] else natDigitsGo n n

/-- A run of `'0'` characters. -/
def padZeros (k : Nat) : List Char :=
  List.replicate k '0'

/-- A rendered number.  For `exp10 ≤ 0` this is the plain decimal JavaScript
prints (sign, integer digits, and a fractional part of exactly `-exp10`
digits when negative); for `exp10 > 0` the scaled-out integer. -/
def numRender (n : JsonNum) : List Char :=
  let sign : List Char := if n.sig < 0 then ['-'] else []
  if 0 ≤ n.exp10 then
    sign ++ natDigits (n.sig.natAbs * 10 ^ n.exp10.toNat)
  else
    let k := (-n.exp10).toNat
    let ds := natDigits n.sig.natAbs
    if ds.length ≤ k then
      sign ++ ('0' :: '.' :: (padZeros (k - ds.length) ++ ds))
    else
      sign ++ (ds.take (ds.length - k) ++ '.' :: ds.drop (ds.length - k))

/-- The newline-and-indent `JSON.stringify` inserts before an element at
depth `d` when a gap is set; nothing in compact mode. -/
def nlPad (gap : Option Nat) (d : Nat) : List Char :=
  match gap with
  | Option.none => []
  | some w => '\n' :: List.replicate (w * d) ' '

/-- The member separator: `":"` compact, `": "` with a gap. -/
def colPad (gap : Option Nat) : List Char :=
  match gap with
  | Option.none => [':']
  | some _ => [':', ' ']

/-- What follows the colon of a member separator. -/
def colTail (gap : Option Nat) : List Char :=
  match gap with
  | Option.none => []
  | some _ => [' ']

/-! The fuel-free structural renderer; `jarrR`/`jobjR` render the `, …`
tails of non-empty containers and `memberR` one `key: value` pair. -/

mutual
def jvalR (gap : Option Nat) (d : Nat) : Json → List Char
  | Json.null => ['n', 'u', 'l', 'l']
  | Json.bool true => ['t', 'r', 'u', 'e']
  | Json.bool false => ['f', 'a', 'l', 's', 'e']
  | Json.num n => numRender n
  | Json.str s => strRender s
  | Json.arr [] => ['[', ']']
  | Json.arr (e :: es) =>
    '[' :: (nlPad gap (d + 1) ++ jvalR gap (d + 1) e ++ jarrR gap (d + 1) es
      ++ nlPad gap d ++ [']'])
  | Json.obj [] => ['\x7b', '\x7d']
  | Json.obj (m :: ms) =>
    '\x7b' :: (nlPad gap (d + 1) ++ memberR gap (d + 1) m ++ jobjR gap (d + 1) ms
      ++ nlPad gap d ++ ['\x7d'])
def jarrR (gap : Option Nat) (d : Nat) : List Json → List Char
  | [] => []
  | e :: es => ',' :: (nlPad gap d ++ jvalR gap d e ++ jarrR gap d es)
def jobjR (gap : Option Nat) (d : Nat) : List (String × Json) → List Char
  | [] => []
  | m :: ms => ',' :: (nlPad gap d ++ memberR gap d m ++ jobjR gap d ms)
def memberR (gap : Option Nat) (d : Nat) : String × Json → List Char
  | (k, v) => strRender k ++ (colPad gap ++ jvalR gap d v)
end

/-- `JSON.stringify` with an optional indent width. -/
def jstringify (gap : Option Nat) (j : Json) : String :=
  String.mk (jvalR gap 0 j)

/-! `jsonNumsWf`: every number in the tree prints as a plain decimal
(`exp10 ≤ 0`) — true of everything the engine serializes. -/

mutual
def jsonNumsWf : Json → Bool
  | Json.null => true
  | Json.bool _ => true
  | Json.num n => decide (n.exp10 ≤ 0)
  | Json.str _ => true
  | Json.arr es => jsonNumsWfArr es
  | Json.obj ms => jsonNumsWfObj ms
def jsonNumsWfArr : List Json → Bool
  | [] => true
  | e :: es => jsonNumsWf e && jsonNumsWfArr es
def jsonNumsWfObj : List (String × Json) → Bool
  | [] => true
  | (_, v) :: ms => jsonNumsWf v && jsonNumsWfObj ms
end

/-! ## JSON repair (apps/engine/src/adapters/json-repair.ts)

`repairJson` is a pipeline of regex rewrites; each is translated here as a
character-list scan with the same matching semantics (the regexes involved
are simple enough that greedy left-to-right scanning without backtracking
is exactly what the JavaScript engine does on them).  The scans that
consume their match (key quoting, single-quote rewriting) take a fuel
argument, called with the input length, which a scan consuming at least
one character per step never exhausts. -/

/-- The apostrophe (single-quote) character. -/
def apos : Char := Char.ofNat 39

/-- JavaScript `\s` (the common members; the engine's payloads contain no
exotic Unicode spaces). -/
def jsWsChar (c : Char) : Bool :=
  c = ' ' || c = '\t' || c = '\n' || c = '\r' || c = Char.ofNat 11 || c = Char.ofNat 12
    || c = '\u00A0' || c = '\u2028' || c = '\u2029' || c = '\uFEFF'

/-- `String.prototype.trim`. -/
def jsTrim (cs : List Char) : List Char :=
  ((cs.dropWhile jsWsChar).reverse.dropWhile jsWsChar).reverse

/-- `text.replace(/^```(?:json)?\s*/i, "")`. -/
def stripFenceOpen (cs : List Char) : List Char :=
  match cs with
  | b1 :: b2 :: b3 :: r =>
    if b1 = Char.ofNat 96 ∧ b2 = Char.ofNat 96 ∧ b3 = Char.ofNat 96 then
      match r with
      | c1 :: c2 :: c3 :: c4 :: r2 =>
        if (c1 = 'j' ∨ c1 = 'J') ∧ (c2 = 's' ∨ c2 = 'S') ∧ (c3 = 'o' ∨ c3 = 'O')
            ∧ (c4 = 'n' ∨ c4 = 'N') then
          r2.dropWhile jsWsChar
        else r.dropWhile jsWsChar
      | _ => r.dropWhile jsWsChar
    else cs
  | _ => cs

/-- `text.replace(/\s*```$/i, "")`. -/
def stripFenceClose (cs : List Char) : List Char :=
  match cs.reverse with
  | b1 :: b2 :: b3 :: r =>
    if b1 = Char.ofNat 96 ∧ b2 = Char.ofNat 96 ∧ b3 = Char.ofNat 96 then
      (r.dropWhile jsWsChar).reverse
    else cs
  | _ => cs

/-- `text.match(/\{[\s\S]*\}/)`: the slice from the first `{` to the last
`}`, when that span is non-empty; otherwise the text unchanged. -/
def extractBraces (cs : List Char) : List Char :=
  match cs.findIdx? (fun c => c = '\x7b'), cs.reverse.findIdx? (fun c => c = '\x7d') with
  | some i, some jr =>
    let j := cs.length - 1 - jr
    if i < j then (cs.take (j + 1)).drop i else cs
  | _, _ => cs

/-- Whether a whitespace run followed by `}` or `]` starts here (the
lookahead of the trailing-comma regex). -/
def wsThenCloser (cs : List Char) : Bool :=
  match cs.dropWhile jsWsChar with
  | c :: _ => c = '\x7d' ∨ c = ']'
  | [] => false

/-- `text.replace(/,(\s*[}\]])/g, "$1")`: a comma before a
whitespace-then-closer is dropped (the matched whitespace and closer are
emitted unchanged, so re-scanning them is harmless: a match can only start
at a comma, and the consumed region contains no other comma). -/
def removeTrailingCommas : List Char → List Char
  | [] => []
  | c :: rest =>
    if c = ',' ∧ wsThenCloser rest then removeTrailingCommas rest
    else c :: removeTrailingCommas rest

/-- First character of an unquoted key: `[a-zA-Z_]`. -/
def identStart (c : Char) : Bool :=
  ('a' ≤ c && c ≤ 'z') || ('A' ≤ c && c ≤ 'Z') || c = '_'

/-- Later characters of an unquoted key: `[a-zA-Z0-9_]`. -/
def identChar (c : Char) : Bool :=
  identStart c || isDig c

/-- The longest leading identifier run. -/
def identSpan : List Char → List Char × List Char
  | c :: cs =>
    if identChar c then
      let (ds, r) := identSpan cs
      (c :: ds, r)
    else ([], c :: cs)
  | [] => ([], [])

/-- After a `{` or `,`: match `\s*` `[a-zA-Z_][a-zA-Z0-9_]*` `\s*:` and
return the replacement text (leading whitespace, the key quoted, a colon —
the whitespace before the colon is not re-emitted) plus the rest. -/
def matchKey (cs : List Char) : Option (List Char × List Char) :=
  let ws1 := cs.takeWhile jsWsChar
  match cs.dropWhile jsWsChar with
  | c :: r =>
    if identStart c then
      let (ids, r2) := identSpan r
      match r2.dropWhile jsWsChar with
      | ':' :: r4 => some (ws1 ++ '"' :: (c :: ids) ++ ['"', ':'], r4)
      | _ => none
    else none
  | [] => none

/-- `text.replace(/([{,]\s*)([a-zA-Z_][a-zA-Z0-9_]*)\s*:/g, '$1"$2":')`. -/
def quoteKeys : Nat → List Char → List Char
  | 0, cs => cs
  | _ + 1, [] => []
  | fuel + 1, c :: rest =>
    if c = '\x7b' ∨ c = ',' then
      match matchKey rest with
      | some (out, r2) => c :: (out ++ quoteKeys fuel r2)
      | none => c :: quoteKeys fuel rest
    else c :: quoteKeys fuel rest

/-- Scan for the closing single quote of `/'([^'\\]*(?:\\.[^'\\]*)*)'/`,
treating `\x` (with `x` no line terminator, as `.` does not match those) as
an escape pair; returns the content as written and the rest after the
closing quote.  Greedy scanning is faithful: a match's content can never
end at a backslash, so the regex engine's backtracking never finds a match
the greedy scan misses. -/
def scanSingle : List Char → Option (List Char × List Char)
  | [] => none
  | c :: r =>
    if c = apos then some ([], r)
    else if c = '\\' then
      match r with
      | d :: r2 =>
        if d = '\n' ∨ d = '\r' ∨ d = '\u2028' ∨ d = '\u2029' then none
        else
          match scanSingle r2 with
          | some (cont, rr) => some ('\\' :: d :: cont, rr)
          | none => none
      | [] => none
    else
      match scanSingle r with
      | some (cont, rr) => some (c :: cont, rr)
      | none => none

/-- `text.replace(/'([^'\\]*(?:\\.[^'\\]*)*)'/g, '"$1"')`. -/
def singleQuotes : Nat → List Char → List Char
  | 0, cs => cs
  | _ + 1, [] => []
  | fuel + 1, c :: rest =>
    if c = apos then
      match scanSingle rest with
      | some (cont, r2) => '"' :: (cont ++ '"' :: singleQuotes fuel r2)
      | none => c :: singleQuotes fuel rest
    else c :: singleQuotes fuel rest

/-- `text.replace(/\\'/g, "'")`. -/
def fixEscapedSingles : List Char → List Char
  | '\\' :: c :: rest =>
    if c = apos then apos :: fixEscapedSingles rest
    else '\\' :: fixEscapedSingles (c :: rest)
  | c :: rest => c :: fixEscapedSingles rest
  | [] => []

/-- Characters kept by
`text.replace(/[\u0000-\u0008\u000B\u000C\u000E-\u001F]/g, "")`. -/
def keepChar (c : Char) : Bool :=
  !(c.toNat ≤ 8 || c.toNat = 11 || c.toNat = 12 || (14 ≤ c.toNat && c.toNat ≤ 31))

/-- `fixUnescapedNewlines` (json-repair.ts lines 50–88), with the loop's
`inString`/`isEscaped` flags as arguments. -/
def fixNl (inString isEscaped : Bool) : List Char → List Char
  | [] => []
  | c :: rest =>
    if isEscaped then c :: fixNl inString false rest
    else if c = '\\' then c :: fixNl inString true rest
    else if c = '"' then c :: fixNl (!inString) false rest
    else if inString ∧ c = '\n' then '\\' :: 'n' :: fixNl inString false rest
    else if inString ∧ c = '\r' then fixNl inString false rest
    else c :: fixNl inString false rest

/-- `repairJson` (json-repair.ts lines 9–45). -/
def repairJson (raw : String) : String :=
  let t0 := jsTrim raw.data
  let t1 := stripFenceClose (stripFenceOpen t0)
  let t2 := extractBraces t1
  let t3 := removeTrailingCommas t2
  let t4 := quoteKeys t3.length t3
  let t5 := singleQuotes t4.length t4
  let t6 := fixEscapedSingles t5
  let t7 := t6.filter keepChar
  String.mk (fixNl false false t7)

/-- `parseJsonWithRepair` (json-repair.ts lines 95–124): try `JSON.parse`
as-is; on failure, if repair is allowed, parse the repaired text.  `some`
models the `success: true` result and `none` both failure results. -/
def parseJsonWithRepair (raw : String) (allowRepair : Bool) : Option Json :=
  match jparse raw with
  | some v => some v
  | none => if allowRepair then jparse (repairJson raw) else none

/-! ## SHA-256 and HMAC (node:crypto, as used by utils.ts)

`createHash("sha256")`/`createHmac("sha256", key)` over UTF-8 input,
implemented from FIPS 180-4 on byte lists (`Nat` entries below 256, with
explicit `% 2 ^ 32` where 32-bit arithmetic wraps). -/

/-- UTF-8 bytes of one scalar value. -/
def utf8Encode (c : Char) : List Nat :=
  let n := c.toNat
  if n < 0x80 then [n]
  else if n < 0x800 then [0xC0 + n / 64, 0x80 + n % 64]
  else if n < 0x10000 then [0xE0 + n / 4096, 0x80 + n / 64 % 64, 0x80 + n % 64]
  else [0xF0 + n / 0x40000, 0x80 + n / 4096 % 64, 0x80 + n / 64 % 64, 0x80 + n % 64]

/-- UTF-8 bytes of a string. -/
def strBytes (s : String) : List Nat :=
  s.data.flatMap utf8Encode

/-- Rotate a 32-bit word right by `k`. -/
def rotr32 (x k : Nat) : Nat :=
  ((x >>> k) ||| (x <<< (32 - k))) % 2 ^ 32

/-- The SHA-256 round constants. -/
def sha256K : List Nat :=
 [ 1116352408, 1899447441, 3049323471, 3921009573, 961987163, 1508970993,
   2453635748, 2870763221, 3624381080, 310598401, 607225278, 1426881987,
   1925078388, 2162078206, 2614888103, 3248222580, 3835390401, 4022224774,
   264347078, 604807628, 770255983, 1249150122, 1555081692, 1996064986,
   2554220882, 2821834349, 2952996808, 3210313671, 3336571891, 3584528711,
   113926993, 338241895, 666307205, 773529912, 1294757372, 1396182291,
   1695183700, 1986661051, 2177026350, 2456956037, 2730485921, 2820302411,
   3259730800, 3345764771, 3516065817, 3600352804, 4094571909, 275423344,
   430227734, 506948616, 659060556, 883997877, 958139571, 1322822218,
   1537002063, 1747873779, 1955562222, 2024104815, 2227730452, 2361852424,
   2428436474, 2756734187, 3204031479, 3329325298]

/-- The SHA-256 initial hash value. -/
def sha256H0 : List Nat :=
 [ 1779033703, 3144134277, 1013904242, 2773480762, 1359893119, 2600822924,
   528734635, 1541459225]

/-- Big-endian 8-byte encoding (for the padded bit length). -/
def be64 (n : Nat) : List Nat :=
  [n / 2 ^ 56 % 256, n / 2 ^ 48 % 256, n / 2 ^ 40 % 256, n / 2 ^ 32 % 256,
   n / 2 ^ 24 % 256, n / 2 ^ 16 % 256, n / 2 ^ 8 % 256, n % 256]

/-- SHA-256 padding: `0x80`, zeros to 56 mod 64, the bit length. -/
def sha256Pad (msg : List Nat) : List Nat :=
  let k := (119 - msg.length % 64) % 64
  msg ++ 0x80 :: (List.replicate k 0 ++ be64 (msg.length * 8))

/-- Big-endian 32-bit words of a byte list. -/
def words16 : List Nat → List Nat
  | a :: b :: c :: d :: r => (((a * 256 + b) * 256 + c) * 256 + d) :: words16 r
  | _ => []

/-- 64-byte blocks of a byte list (`fuel ≥ length` suffices). -/
def toBlocks : Nat → List Nat → List (List Nat)
  | 0, _ => []
  | _ + 1, [] => []
  | fuel + 1, bytes => bytes.take 64 :: toBlocks fuel (bytes.drop 64)

/-- Small sigma-0. -/
def ssig0 (x : Nat) : Nat :=
  rotr32 x 7 ^^^ rotr32 x 18 ^^^ (x >>> 3)

/-- Small sigma-1. -/
def ssig1 (x : Nat) : Nat :=
  rotr32 x 17 ^^^ rotr32 x 19 ^^^ (x >>> 10)

/-- Big sigma-0. -/
def bsig0 (x : Nat) : Nat :=
  rotr32 x 2 ^^^ rotr32 x 13 ^^^ rotr32 x 22

/-- Big sigma-1. -/
def bsig1 (x : Nat) : Nat :=
  rotr32 x 6 ^^^ rotr32 x 11 ^^^ rotr32 x 25

/-- Extend the (reversed) message schedule by `n` words. -/
def schedExt : Nat → List Nat → List Nat
  | 0, acc => acc.reverse
  | n + 1, acc =>
    let w := (ssig1 (acc.getD 1 0) + acc.getD 6 0 + ssig0 (acc.getD 14 0)
      + acc.getD 15 0) % 2 ^ 32
    schedExt n (w :: acc)

/-- One compression round on the eight working variables. -/
def roundStep (st : List Nat) (k w : Nat) : List Nat :=
  match st with
  | [a, b, c, d, e, f, g, h] =>
    let ch := (e &&& f) ^^^ ((2 ^ 32 - 1 - e) &&& g)
    let maj := (a &&& b) ^^^ (a &&& c) ^^^ (b &&& c)
    let t1 := (h + bsig1 e + ch + k + w) % 2 ^ 32
    let t2 := (bsig0 a + maj) % 2 ^ 32
    [(t1 + t2) % 2 ^ 32, a, b, c, (d + t1) % 2 ^ 32, e, f, g]
  | _ => st

/-- All 64 rounds. -/
def roundsGo : List (Nat × Nat) → List Nat → List Nat
  | [], st => st
  | (k, w) :: r, st => roundsGo r (roundStep st k w)

/-- Process one 64-byte block into the running hash. -/
def processBlock (h : List Nat) (block : List Nat) : List Nat :=
  let ws := schedExt 48 (words16 block).reverse
  let st := roundsGo (sha256K.zip ws) h
  List.zipWith (fun x y => (x + y) % 2 ^ 32) h st

/-- The eight final hash words of a byte message. -/
def sha256Words (msg : List Nat) : List Nat :=
  let padded := sha256Pad msg
  (toBlocks padded.length padded).foldl processBlock sha256H0

/-- Big-endian bytes of one 32-bit word. -/
def word32Bytes (w : Nat) : List Nat :=
  [w / 0x1000000 % 256, w / 0x10000 % 256, w / 256 % 256, w % 256]

/-- Digest bytes of a final state (defensive default never reached). -/
def bytesOfState : List Nat → List Nat
  | [a, b, c, d, e, f, g, h] =>
    word32Bytes a ++ word32Bytes b ++ word32Bytes c ++ word32Bytes d
      ++ word32Bytes e ++ word32Bytes f ++ word32Bytes g ++ word32Bytes h
  | _ => List.replicate 32 0

/-- Eight hex characters of one 32-bit word. -/
def word32Hex (w : Nat) : List Char :=
  [hexChar (w / 0x10000000 % 16), hexChar (w / 0x1000000 % 16),
   hexChar (w / 0x100000 % 16), hexChar (w / 0x10000 % 16),
   hexChar (w / 0x1000 % 16), hexChar (w / 0x100 % 16),
   hexChar (w / 16 % 16), hexChar (w % 16)]

/-- Hex digest of a final state (defensive default never reached). -/
def hexOfState : List Nat → List Char
  | [a, b, c, d, e, f, g, h] =>
    word32Hex a ++ word32Hex b ++ word32Hex c ++ word32Hex d
      ++ word32Hex e ++ word32Hex f ++ word32Hex g ++ word32Hex h
  | _ => List.replicate 64 '0'

/-- Digest bytes of a byte message. -/
def sha256Bytes (msg : List Nat) : List Nat :=
  bytesOfState (sha256Words msg)

/-- `sha256` (utils.ts lines 31–33): hex digest of a UTF-8 string. -/
def sha256 (data : String) : String :=
  String.mk (hexOfState (sha256Words (strBytes data)))

/-- HMAC-SHA-256 over bytes (RFC 2104 with a 64-byte block). -/
def hmacSha256Words (key msg : List Nat) : List Nat :=
  let k0 := if 64 < key.length then sha256Bytes key else key
  let k1 := k0 ++ List.replicate (64 - k0.length) 0
  sha256Words ((k1.map (fun b => b ^^^ 0x5c))
    ++ sha256Bytes ((k1.map (fun b => b ^^^ 0x36)) ++ msg))

/-- `hmacSha256` (utils.ts lines 38–40): hex HMAC of UTF-8 strings. -/
def hmacSha256 (data key : String) : String :=
  String.mk (hexOfState (hmacSha256Words (strBytes key) (strBytes data)))

/-- `POSITION_ID_LENGTH` (shared/constants.ts). -/
def POSITION_ID_LENGTH : Nat := 12

/-- Collapse whitespace runs to single spaces (`.replace(/\s+/g, " ")`). -/
def collapseWs (prevWs : Bool) : List Char → List Char
  | [] => []
  | c :: r =>
    if jsWsChar c then
      if prevWs then collapseWs true r else ' ' :: collapseWs true r
    else c :: collapseWs false r

/-- ASCII lowercasing (`.toLowerCase()`; the engine's position texts are
ASCII). -/
def lowerAscii (cs : List Char) : List Char :=
  cs.map Char.toLower

/-- `generatePositionId` (utils.ts lines 13–19): SHA-256 of the trimmed,
whitespace-collapsed, lowercased text, truncated to 12 hex characters. -/
def generatePositionId (text : String) : String :=
  let normalized := String.mk (lowerAscii (collapseWs false (jsTrim text.data)))
  String.mk ((sha256 normalized).data.take POSITION_ID_LENGTH)

/-! ## Canonical JSON (utils.ts `canonicalizeJson`)

`JSON.stringify(obj, replacer)` where the replacer returns every
non-array object with its keys sorted: compact rendering of the tree with
every object's members stably sorted by key. -/

/-- Key order: the default `Array.prototype.sort` comparator on key
strings. -/
def keyLE (a b : String × Json) : Bool :=
  decide (a.1 ≤ b.1)

/-! `sortKeysDeep`: sort every object's members by key, recursively. -/

mutual
def sortKeysDeep : Json → Json
  | Json.null => Json.null
  | Json.bool b => Json.bool b
  | Json.num n => Json.num n
  | Json.str s => Json.str s
  | Json.arr es => Json.arr (sortKeysArr es)
  | Json.obj ms => Json.obj (sortListStable keyLE (sortKeysObj ms))
def sortKeysArr : List Json → List Json
  | [] => []
  | e :: es => sortKeysDeep e :: sortKeysArr es
def sortKeysObj : List (String × Json) → List (String × Json)
  | [] => []
  | (k, v) :: ms => (k, sortKeysDeep v) :: sortKeysObj ms
end

/-- `canonicalizeJson` (utils.ts lines 46–60). -/
def canonicalizeJson (j : Json) : String :=
  jstringify Option.none (sortKeysDeep j)

/-! ## Zod validation primitives (packages/shared/src/schemas.ts)

Decoders `Json → Option α` model `Schema.safeParse` on a parsed JSON
value: `none` is a failed validation, `some` the (typed, stripped) output.
Object member access reads the last binding of a key, as a JavaScript
object built by `JSON.parse` holds the last duplicate. -/

/-- Property access on a parsed object's members. -/
def jGetP (ms : List (String × Json)) (k : String) : Option Json :=
  ms.foldl (fun acc kv => if kv.1 == k then some kv.2 else acc) Option.none

/-- The rational value of an exact decimal. -/
def jnumToRat (n : JsonNum) : ℚ :=
  if 0 ≤ n.exp10 then (n.sig : ℚ) * 10 ^ n.exp10.toNat
  else (n.sig : ℚ) / 10 ^ (-n.exp10).toNat

/-- `z.string()`. -/
def zStr : Json → Option String
  | Json.str s => some s
  | _ => Option.none

/-- `z.boolean()`. -/
def zBool : Json → Option Bool
  | Json.bool b => some b
  | _ => Option.none

/-- `z.number()` with a closed range (`.min(lo).max(hi)`). -/
def zNumRange (lo hi : ℚ) (j : Json) : Option ℚ :=
  match j with
  | Json.num n =>
    let q := jnumToRat n
    if lo ≤ q ∧ q ≤ hi then some q else Option.none
  | _ => Option.none

/-- `z.number().int().min(lo)` (and `.max(hi)` when bounded), landing in
`Nat` since `lo ≥ 0` everywhere it is used. -/
def zNatRange (lo : Nat) (hi : Option Nat) (j : Json) : Option Nat :=
  match j with
  | Json.num n =>
    let q := jnumToRat n
    let ub : Bool :=
      match hi with
      | some h => decide (q ≤ (h : ℚ))
      | Option.none => true
    if (q.den = 1 ∧ (lo : ℚ) ≤ q) ∧ ub then some q.num.toNat
    else Option.none
  | _ => Option.none

/-- `z.number().int().min(0)` kept as an `Int` (the ceil-valued
`supermajorityThreshold`). -/
def zIntMin0 (j : Json) : Option Int :=
  match j with
  | Json.num n =>
    let q := jnumToRat n
    if q.den = 1 ∧ 0 ≤ q then some q.num else Option.none
  | _ => Option.none

/-- `z.string().min(lo).max(hi)`. -/
def zStrLen (lo hi : Nat) (j : Json) : Option String :=
  match j with
  | Json.str s => if lo ≤ s.length ∧ s.length ≤ hi then some s else Option.none
  | _ => Option.none

/-- `z.string().length(n)`. -/
def zStrExact (n : Nat) (j : Json) : Option String :=
  match j with
  | Json.str s => if s.length = n then some s else Option.none
  | _ => Option.none

/-- `schema.nullable()`. -/
def zNullable {α : Type} (dec : Json → Option α) (j : Json) : Option (Option α) :=
  match j with
  | Json.null => some Option.none
  | _ => (dec j).map some

/-- A required object member. -/
def zReq {α : Type} (ms : List (String × Json)) (k : String) (dec : Json → Option α) :
    Option α :=
  (jGetP ms k).bind dec

/-- An `.optional()` object member (absent is fine, present must
validate). -/
def zOpt {α : Type} (ms : List (String × Json)) (k : String) (dec : Json → Option α) :
    Option (Option α) :=
  match jGetP ms k with
  | Option.none => some Option.none
  | some j => (dec j).map some

/-- `z.array(dec)` over parsed items. -/
def zList {α : Type} (dec : Json → Option α) : List Json → Option (List α)
  | [] => some []
  | j :: js =>
    match dec j, zList dec js with
    | some a, some as2 => some (a :: as2)
    | _, _ => Option.none

/-- `z.array(schema)` (with optional length bounds) on a value. -/
def zArr {α : Type} (dec : Json → Option α) (lo : Nat) (hi : Option Nat) (j : Json) :
    Option (List α) :=
  match j with
  | Json.arr items =>
    let ub : Bool :=
      match hi with
      | some h => decide (items.length ≤ h)
      | Option.none => true
    if lo ≤ items.length ∧ ub then zList dec items
    else Option.none
  | _ => Option.none

/-- `z.enum(["yes","no","abstain"])`. -/
def zVote (j : Json) : Option Vote :=
  match j with
  | Json.str s =>
    if s = "yes" then some Vote.yes
    else if s = "no" then some Vote.no
    else if s = "abstain" then some Vote.abstain
    else Option.none
  | _ => Option.none

/-- `z.enum(["ok","error"])`. -/
def zStatus (j : Json) : Option Status :=
  match j with
  | Json.str s =>
    if s = "ok" then some Status.ok
    else if s = "error" then some Status.error
    else Option.none
  | _ => Option.none

/-- Scan `digits4 - digits2 - digits2 T digits2 : digits2 : digits2`,
optionally `.digits+`, then a final `Z`. -/
def isZodDatetimeCore (cs : List Char) : Bool :=
  match cs with
  | y1 :: y2 :: y3 :: y4 :: '-' :: m1 :: m2 :: '-' :: d1 :: d2 :: 'T'
      :: h1 :: h2 :: ':' :: n1 :: n2 :: ':' :: s1 :: s2 :: rest =>
    isDig y1 && isDig y2 && isDig y3 && isDig y4 && isDig m1 && isDig m2
      && isDig d1 && isDig d2 && isDig h1 && isDig h2 && isDig n1 && isDig n2
      && isDig s1 && isDig s2
      && (match rest with
          | ['Z'] => true
          | '.' :: fs =>
            match digitSpan fs with
            | ([], _) => false
            | (_, r) => r = ['Z']
          | _ => false)
  | _ => false

/-- The `z.string().datetime()` shape: `YYYY-MM-DDTHH:MM:SS(.digits)?Z`
(zod's default datetime regex — UTC, optional fractional seconds). -/
def isZodDatetime (s : String) : Bool :=
  isZodDatetimeCore s.data

/-! ## Agent response validation and the round runner
(apps/engine/src/debate/engine.ts)

`runAgent` in the source builds prompts, makes the (retry-wrapped) adapter
call, and post-processes the outcome.  The prompts and the call itself are
I/O, so the runner here takes the call's outcome — the `result` of a
successful `adapter.call` or the thrown error with the elapsed time the
`catch` block observes — as an explicit `CallOutcome` argument; everything
after the call is translated literally. -/

/-- `AgentResponseSchema` output (the structured LLM reply). -/
structure AgentResponseData where
  vote : Vote
  targetPositionId : Option String
  newPositionText : Option String
  reasoning : String
  confidence : ℚ
deriving DecidableEq, Repr

/-- `AgentResponseSchema.safeParse`: the object shape, then the
`superRefine` requiring `targetPositionId` with a `yes` vote and
`newPositionText` with a `no` vote (JavaScript truthiness on the optional
strings). -/
def decAgentResponseData (j : Json) : Option AgentResponseData :=
  match j with
  | Json.obj ms => do
    let vote ← zReq ms "vote" zVote
    let target ← zOpt ms "targetPositionId" (zStrExact 12)
    let npt ← zOpt ms "newPositionText" (zStrLen 1 4000)
    let reasoning ← zReq ms "reasoning" (zStrLen 1 8000)
    let confidence ← zReq ms "confidence" (zNumRange 0 1)
    if vote = Vote.yes ∧ ¬ strOptTruthy target then Option.none
    else if vote = Vote.no ∧ ¬ strOptTruthy npt then Option.none
    else some ⟨vote, target, npt, reasoning, confidence⟩
  | _ => Option.none

/-- The outcome of one agent's (retry-wrapped) adapter call: the returned
content/usage/latency, or the thrown error's message together with
`Date.now() - startTime` as the `catch` block computes it. -/
inductive CallOutcome
| ok (content : String) (tokenUsage : TokenUsage) (latencyMs : Nat)
| threw (message : String) (elapsedMs : Nat)
deriving DecidableEq, Repr

/-- `runAgent` (debate/engine.ts lines 115–252) after the adapter call:
parse with repair (disabled in deterministic mode), validate against
`AgentResponseSchema`, derive the position id/text from the vote, and
convert any failure into `createErrorAgentResponse` (the thrown case
keeping the observed latency).  The parse/validation error strings keep
the source messages' fixed prefixes. -/
def runAgent (agent : AgentConfig) (round : Nat)
    (_candidatePositionId candidatePositionText : Option String)
    (cfg : DebateConfig) (outcome : CallOutcome) : AgentResponse :=
  match outcome with
  | CallOutcome.threw msg elapsed =>
    { createErrorAgentResponse agent.id round msg with latencyMs := elapsed }
  | CallOutcome.ok content usage latency =>
    match parseJsonWithRepair content (!cfg.deterministicMode) with
    | Option.none => createErrorAgentResponse agent.id round "Failed to parse JSON"
    | some parsed =>
      match decAgentResponseData parsed with
      | Option.none => createErrorAgentResponse agent.id round "Schema validation failed"
      | some data =>
        let pos : Option String × String :=
          if data.vote = Vote.yes ∧ strOptTruthy data.targetPositionId then
            (data.targetPositionId, candidatePositionText.getD "")
          else if data.vote = Vote.no ∧ strOptTruthy data.newPositionText then
            (some (generatePositionId (data.newPositionText.getD "")),
             data.newPositionText.getD "")
          else if data.vote = Vote.abstain ∧ strOptTruthy data.newPositionText then
            (some (generatePositionId (data.newPositionText.getD "")),
             data.newPositionText.getD "")
          else (Option.none, "")
        { agentId := agent.id
          round := round
          positionId := pos.1
          positionText := pos.2
          reasoning := data.reasoning
          vote := data.vote
          confidence := data.confidence
          tokenUsage := usage
          latencyMs := latency
          status := Status.ok
          error := Option.none }

/-- `runDebateRound` (debate/engine.ts lines 48–112): one response per
configured agent, in configuration order (`Promise.all` over
`config.agents.map`), then the consensus check and the round record.  The
per-agent call outcomes arrive as a function of the agent. -/
def runDebateRound (round : Nat) (candidatePositionId candidatePositionText : Option String)
    (cfg : DebateConfig) (outcome : AgentConfig → CallOutcome) (now : String) : RoundResult :=
  let responses := cfg.agents.map
    (fun a => runAgent a round candidatePositionId candidatePositionText cfg (outcome a))
  let consensusResult := detectAgentConsensus responses candidatePositionId cfg.consensusThreshold
  { roundNumber := round
    candidatePositionId := candidatePositionId
    candidatePositionText := candidatePositionText
    responses := responses
    consensusReached := consensusResult.reached
    consensusPositionId := consensusResult.positionId
    consensusPositionText := consensusResult.positionText
    voteTally := consensusResult.voteTally
    timestamp := now }

/-! ## Checkpoints (apps/engine/src/state/checkpoint.ts)

`saveCheckpoint` builds the checkpoint record, hashes its canonical JSON
(SHA-256, plus an HMAC when the `LLM_COURT_CHECKPOINT_HMAC_KEY` secret is
set — the environment is the `hmacKey` argument here), and writes
`JSON.stringify(fullCheckpoint, null, 2)`; `loadCheckpoint` parses,
validates against `CheckpointSchema`, checks the version literal,
recomputes the hash over the record minus `integrity`, and checks the
HMAC when both a secret and a stored HMAC are present.  The file system
(paths, `mkdir`, read/write) carries the bytes unchanged and is outside
the model: `saveCheckpoint` returns the file's content and
`loadCheckpoint` takes it. -/

/-- `CheckpointData` (checkpoint.ts lines 25–31). -/
structure CheckpointData where
  sessionId : String
  phase : DebatePhase
  config : DebateConfig
  agentRounds : List RoundResult
  judgeRounds : List JudgeRoundResult
deriving DecidableEq, Repr

/-- The `integrity` block of a checkpoint. -/
structure CheckpointIntegrity where
  sha256 : String
  hmac : Option String
deriving DecidableEq, Repr

/-- `Checkpoint` (shared/types.ts), the full on-disk record. -/
structure Checkpoint where
  version : String
  engineVersion : String
  sessionId : String
  timestamp : String
  phase : DebatePhase
  config : DebateConfig
  configHash : String
  agentRounds : List RoundResult
  judgeRounds : List JudgeRoundResult
  integrity : CheckpointIntegrity
deriving DecidableEq, Repr

/-! ### Serialization of the typed state to JSON

`JSON.stringify` of each record, member order following the TypeScript
object construction.  `Nat`/`Int` counters serialize with exponent 0; a
rational serializes through `ratToJnum`, the exact plain-decimal form of
every JavaScript number the engine produces. -/

/-- Strip all factors `p` from `n` (fuel-bounded by `n` itself). -/
def stripFac : Nat → Nat → Nat → Nat × Nat
  | 0, _, n => (0, n)
  | fuel + 1, p, n =>
    if 2 ≤ p ∧ n % p = 0 ∧ n ≠ 0 then
      let (c, r) := stripFac fuel p (n / p)
      (c + 1, r)
    else (0, n)

/-- The least `e` with `d ∣ 10 ^ e`, when the denominator is decimal. -/
def decScale (d : Nat) : Option Nat :=
  let (a, r2) := stripFac d 2 d
  let (b, r) := stripFac r2 5 r2
  if r = 1 then some (max a b) else Option.none

/-- The exact decimal form of a decimal-representable rational. -/
def ratToJnum (q : ℚ) : JsonNum :=
  match decScale q.den with
  | some e => ⟨q.num * ((10 ^ e / q.den : Nat) : Int), -(e : Int)⟩
  | Option.none => ⟨0, 0⟩

/-- Whether a rational is exactly a plain decimal (its encoder round-trips). -/
def ratDecimal (q : ℚ) : Bool :=
  jnumToRat (ratToJnum q) == q

/-- A serialized counter. -/
def jNat (n : Nat) : Json := Json.num ⟨(n : Int), 0⟩

/-- A serialized integer. -/
def jInt (i : Int) : Json := Json.num ⟨i, 0⟩

/-- A serialized rational. -/
def jRat (q : ℚ) : Json := Json.num (ratToJnum q)

/-- A serialized `string | null`. -/
def jNullableStr : Option String → Json
  | some s => Json.str s
  | Option.none => Json.null

/-- An optional member: absent when the value is `undefined`. -/
def optField (k : String) : Option Json → List (String × Json)
  | some j => [(k, j)]
  | Option.none => []

/-- `Vote` on the wire. -/
def voteToStr : Vote → String
  | Vote.yes => "yes"
  | Vote.no => "no"
  | Vote.abstain => "abstain"

/-- `Status` on the wire. -/
def statusToStr : Status → String
  | Status.ok => "ok"
  | Status.error => "error"

/-- `DebatePhase` on the wire. -/
def phaseToStr : DebatePhase → String
  | DebatePhase.init => "init"
  | DebatePhase.agentDebate => "agent_debate"
  | DebatePhase.judgeEvaluation => "judge_evaluation"
  | DebatePhase.consensusReached => "consensus_reached"
  | DebatePhase.deadlock => "deadlock"

/-- `Provider` on the wire. -/
def providerToStr : Provider → String
  | Provider.openai => "openai"
  | Provider.anthropic => "anthropic"
  | Provider.google => "google"
  | Provider.cli => "cli"
  | Provider.codex => "codex"
  | Provider.geminiCli => "gemini-cli"

/-- `ChatTemplate` on the wire. -/
def chatTemplateToStr : ChatTemplate → String
  | ChatTemplate.chatml => "chatml"
  | ChatTemplate.llama3 => "llama3"
  | ChatTemplate.gemma => "gemma"

/-- `ReasoningEffort` on the wire. -/
def reasoningEffortToStr : ReasoningEffort → String
  | ReasoningEffort.minimal => "minimal"
  | ReasoningEffort.low => "low"
  | ReasoningEffort.medium => "medium"
  | ReasoningEffort.high => "high"
  | ReasoningEffort.xhigh => "xhigh"

/-- `PositionsScope` on the wire. -/
def scopeToStr : PositionsScope → String
  | PositionsScope.allRounds => "all_rounds"
  | PositionsScope.lastRound => "last_round"

/-- `ContextTopology` on the wire. -/
def topologyToStr : ContextTopology → String
  | ContextTopology.fullHistory => "full_history"
  | ContextTopology.lastRound => "last_round"
  | ContextTopology.lastRoundWithSelf => "last_round_with_self"
  | ContextTopology.summary => "summary"

/-- `TokenUsage` serialized. -/
def tokenUsageToJson (t : TokenUsage) : Json :=
  Json.obj [("prompt", jNat t.prompt), ("completion", jNat t.completion),
    ("total", jNat t.total), ("estimated", Json.bool t.estimated)]

/-- `VoteTally` serialized. -/
def voteTallyToJson (v : VoteTally) : Json :=
  Json.obj [("yes", jNat v.yes), ("no", jNat v.no), ("abstain", jNat v.abstain),
    ("total", jNat v.total), ("eligible", jNat v.eligible),
    ("votingTotal", jNat v.votingTotal),
    ("supermajorityThreshold", jInt v.supermajorityThreshold),
    ("supermajorityReached", Json.bool v.supermajorityReached)]

/-- `AgentResponse` serialized. -/
def agentResponseToJson (r : AgentResponse) : Json :=
  Json.obj [("agentId", Json.str r.agentId), ("round", jNat r.round),
    ("positionId", jNullableStr r.positionId),
    ("positionText", Json.str r.positionText),
    ("reasoning", Json.str r.reasoning), ("vote", Json.str (voteToStr r.vote)),
    ("confidence", jRat r.confidence), ("tokenUsage", tokenUsageToJson r.tokenUsage),
    ("latencyMs", jNat r.latencyMs), ("status", Json.str (statusToStr r.status)),
    ("error", jNullableStr r.error)]

/-- `RoundResult` serialized. -/
def roundResultToJson (r : RoundResult) : Json :=
  Json.obj [("roundNumber", jNat r.roundNumber),
    ("candidatePositionId", jNullableStr r.candidatePositionId),
    ("candidatePositionText", jNullableStr r.candidatePositionText),
    ("responses", Json.arr (r.responses.map agentResponseToJson)),
    ("consensusReached", Json.bool r.consensusReached),
    ("consensusPositionId", jNullableStr r.consensusPositionId),
    ("consensusPositionText", jNullableStr r.consensusPositionText),
    ("voteTally", voteTallyToJson r.voteTally),
    ("timestamp", Json.str r.timestamp)]

/-- `JudgeEvaluation` serialized (the scores record in insertion order). -/
def judgeEvalToJson (e : JudgeEvaluation) : Json :=
  Json.obj [("judgeId", Json.str e.judgeId), ("round", jNat e.round),
    ("selectedPositionId", jNullableStr e.selectedPositionId),
    ("scoresByPositionId",
      Json.obj (e.scoresByPositionId.map (fun kv => (kv.1, jNat kv.2)))),
    ("reasoning", Json.str e.reasoning), ("confidence", jRat e.confidence),
    ("tokenUsage", tokenUsageToJson e.tokenUsage), ("latencyMs", jNat e.latencyMs),
    ("status", Json.str (statusToStr e.status)), ("error", jNullableStr e.error)]

/-- `JudgeRoundResult` serialized. -/
def judgeRoundToJson (j : JudgeRoundResult) : Json :=
  Json.obj [("roundNumber", jNat j.roundNumber),
    ("positionIds", Json.arr (j.positionIds.map Json.str)),
    ("evaluations", Json.arr (j.evaluations.map judgeEvalToJson)),
    ("consensusReached", Json.bool j.consensusReached),
    ("consensusPositionId", jNullableStr j.consensusPositionId),
    ("avgConfidence", jRat j.avgConfidence),
    ("timestamp", Json.str j.timestamp)]

/-- `ModelConfig` members: optional members absent when `undefined`. -/
def modelConfigMembers (m : ModelConfig) : List (String × Json) :=
  [("provider", Json.str (providerToStr m.provider)),
      ("model", Json.str m.model)]
    ++ optField "apiKeyEnv" (m.apiKeyEnv.map Json.str)
    ++ optField "cliPath" (m.cliPath.map Json.str)
    ++ optField "cliArgs" (m.cliArgs.map (fun l => Json.arr (l.map Json.str)))
    ++ optField "chatTemplate" (m.chatTemplate.map (fun t => Json.str (chatTemplateToStr t)))
    ++ optField "reasoningEffort"
        (m.reasoningEffort.map (fun t => Json.str (reasoningEffortToStr t)))
    ++ optField "enableSearch" (m.enableSearch.map Json.bool)

/-- `ModelConfig` serialized. -/
def modelConfigToJson (m : ModelConfig) : Json :=
  Json.obj (modelConfigMembers m)

/-- `AgentConfig`/`JudgeConfig` members. -/
def agentConfigMembers (a : AgentConfig) : List (String × Json) :=
  [("id", Json.str a.id), ("model", modelConfigToJson a.model)]
    ++ optField "systemPrompt" (a.systemPrompt.map Json.str)
    ++ optField "temperature" (a.temperature.map jRat)

/-- `AgentConfig`/`JudgeConfig` serialized. -/
def agentConfigToJson (a : AgentConfig) : Json :=
  Json.obj (agentConfigMembers a)

/-- `TimeoutConfig` serialized. -/
def timeoutConfigToJson (t : TimeoutConfig) : Json :=
  Json.obj [("modelMs", jNat t.modelMs), ("roundMs", jNat t.roundMs),
    ("sessionMs", jNat t.sessionMs)]

/-- `RetryConfig` serialized. -/
def retryConfigToJson (r : RetryConfig) : Json :=
  Json.obj [("maxAttempts", jNat r.maxAttempts), ("baseDelayMs", jNat r.baseDelayMs),
    ("maxDelayMs", jNat r.maxDelayMs)]

/-- `ConcurrencyConfig` serialized. -/
def concurrencyConfigToJson (c : ConcurrencyConfig) : Json :=
  Json.obj [("maxConcurrentRequests", jNat c.maxConcurrentRequests)]

/-- `LimitConfig` serialized. -/
def limitConfigToJson (l : LimitConfig) : Json :=
  Json.obj [("maxTokensPerResponse", jNat l.maxTokensPerResponse),
    ("maxTotalTokens", jNat l.maxTotalTokens),
    ("maxTotalCostUsd", jRat l.maxTotalCostUsd),
    ("maxContextTokens", jNat l.maxContextTokens)]

/-- `DebateConfig` members (validated output: defaulted fields present). -/
def debateConfigMembers (c : DebateConfig) : List (String × Json) :=
  [("topic", Json.str c.topic)]
    ++ optField "initialQuery" (c.initialQuery.map Json.str)
    ++ [("agents", Json.arr (c.agents.map agentConfigToJson)),
      ("judges", Json.arr (c.judges.map agentConfigToJson)),
      ("judgePanelEnabled", Json.bool c.judgePanelEnabled),
      ("maxAgentRounds", jNat c.maxAgentRounds),
      ("maxJudgeRounds", jNat c.maxJudgeRounds),
      ("consensusThreshold", jRat c.consensusThreshold),
      ("judgeConsensusThreshold", jRat c.judgeConsensusThreshold),
      ("judgeMinConfidence", jRat c.judgeMinConfidence),
      ("judgePositionsScope", Json.str (scopeToStr c.judgePositionsScope)),
      ("contextTopology", Json.str (topologyToStr c.contextTopology)),
      ("checkpointDir", jNullableStr c.checkpointDir),
      ("timeouts", timeoutConfigToJson c.timeouts),
      ("retries", retryConfigToJson c.retries),
      ("concurrency", concurrencyConfigToJson c.concurrency),
      ("limits", limitConfigToJson c.limits),
      ("deterministicMode", Json.bool c.deterministicMode),
      ("allowExternalPaths", Json.bool c.allowExternalPaths)]

/-- `DebateConfig` serialized. -/
def debateConfigToJson (c : DebateConfig) : Json :=
  Json.obj (debateConfigMembers c)

/-- The checkpoint record without its `integrity` member, in construction
order (checkpoint.ts lines 43–54 and the `rest` of the load-side check). -/
def checkpointBodyFields (version engineVersion sessionId timestamp : String)
    (phase : DebatePhase) (config : DebateConfig) (configHash : String)
    (agentRounds : List RoundResult) (judgeRounds : List JudgeRoundResult) :
    List (String × Json) :=
  [("version", Json.str version), ("engineVersion", Json.str engineVersion),
    ("sessionId", Json.str sessionId), ("timestamp", Json.str timestamp),
    ("phase", Json.str (phaseToStr phase)), ("config", debateConfigToJson config),
    ("configHash", Json.str configHash),
    ("agentRounds", Json.arr (agentRounds.map roundResultToJson)),
    ("judgeRounds", Json.arr (judgeRounds.map judgeRoundToJson))]

/-! ### `CheckpointSchema.safeParse`

The object decoders, one per schema; member access through `jGetP`
follows the JavaScript object built by `JSON.parse` (last duplicate key
wins). -/

/-- Sequencing of validation steps (a failed member fails the object). -/
def obind {α β : Type} (x : Option α) (f : α → Option β) : Option β :=
  match x with
  | some a => f a
  | Option.none => Option.none

/-- The member list as JavaScript object entries: first-occurrence key
order, last value winning (fuel-bounded by the list length). -/
def recDedupF : Nat → List (String × Json) → List (String × Json)
  | 0, _ => []
  | _, [] => []
  | fuel + 1, (k, v) :: ms =>
    (k, (jGetP ms k).getD v)
      :: recDedupF fuel (ms.filter (fun kv => !(kv.1 == k)))

/-- Decode each score entry of a `z.record(z.string(), int 0..100)`. -/
def zScorePairs : List (String × Json) → Option (List (String × Nat))
  | [] => some []
  | (k, v) :: ms =>
    match zNatRange 0 (some 100) v, zScorePairs ms with
    | some n, some rest => some ((k, n) :: rest)
    | _, _ => Option.none

/-- `z.record(z.string(), z.number().int().min(0).max(100))`. -/
def zRecordScores (j : Json) : Option (List (String × Nat)) :=
  match j with
  | Json.obj ms => zScorePairs (recDedupF ms.length ms)
  | _ => Option.none

/-- A member with a `.default(dflt)`: absent means the default. -/
def zDefault {α : Type} (ms : List (String × Json)) (k : String)
    (dec : Json → Option α) (dflt : α) : Option α :=
  match jGetP ms k with
  | Option.none => some dflt
  | some j => dec j

/-- `z.literal(lit)` on a string. -/
def zLiteral (lit : String) (j : Json) : Option String :=
  match j with
  | Json.str s => if s = lit then some s else Option.none
  | _ => Option.none

/-- `z.string().min(lo)` with no upper bound. -/
def zStrMin (lo : Nat) (j : Json) : Option String :=
  match j with
  | Json.str s => if lo ≤ s.length then some s else Option.none
  | _ => Option.none

/-- `z.string().datetime()`. -/
def zDatetimeStr (j : Json) : Option String :=
  match zStr j with
  | some s => if isZodDatetime s then some s else Option.none
  | Option.none => Option.none

/-- The `DebatePhase` enum decoder. -/
def zPhase (j : Json) : Option DebatePhase :=
  match j with
  | Json.str s =>
    if s = "init" then some DebatePhase.init
    else if s = "agent_debate" then some DebatePhase.agentDebate
    else if s = "judge_evaluation" then some DebatePhase.judgeEvaluation
    else if s = "consensus_reached" then some DebatePhase.consensusReached
    else if s = "deadlock" then some DebatePhase.deadlock
    else Option.none
  | _ => Option.none

/-- The provider enum decoder. -/
def zProvider (j : Json) : Option Provider :=
  match j with
  | Json.str s =>
    if s = "openai" then some Provider.openai
    else if s = "anthropic" then some Provider.anthropic
    else if s = "google" then some Provider.google
    else if s = "cli" then some Provider.cli
    else if s = "codex" then some Provider.codex
    else if s = "gemini-cli" then some Provider.geminiCli
    else Option.none
  | _ => Option.none

/-- The chat-template enum decoder. -/
def zChatTemplate (j : Json) : Option ChatTemplate :=
  match j with
  | Json.str s =>
    if s = "chatml" then some ChatTemplate.chatml
    else if s = "llama3" then some ChatTemplate.llama3
    else if s = "gemma" then some ChatTemplate.gemma
    else Option.none
  | _ => Option.none

/-- The reasoning-effort enum decoder. -/
def zReasoningEffort (j : Json) : Option ReasoningEffort :=
  match j with
  | Json.str s =>
    if s = "minimal" then some ReasoningEffort.minimal
    else if s = "low" then some ReasoningEffort.low
    else if s = "medium" then some ReasoningEffort.medium
    else if s = "high" then some ReasoningEffort.high
    else if s = "xhigh" then some ReasoningEffort.xhigh
    else Option.none
  | _ => Option.none

/-- The positions-scope enum decoder. -/
def zScope (j : Json) : Option PositionsScope :=
  match j with
  | Json.str s =>
    if s = "all_rounds" then some PositionsScope.allRounds
    else if s = "last_round" then some PositionsScope.lastRound
    else Option.none
  | _ => Option.none

/-- The context-topology enum decoder. -/
def zTopology (j : Json) : Option ContextTopology :=
  match j with
  | Json.str s =>
    if s = "full_history" then some ContextTopology.fullHistory
    else if s = "last_round" then some ContextTopology.lastRound
    else if s = "last_round_with_self" then some ContextTopology.lastRoundWithSelf
    else if s = "summary" then some ContextTopology.summary
    else Option.none
  | _ => Option.none

/-- `TokenUsageSchema.safeParse`. -/
def decTokenUsage (j : Json) : Option TokenUsage :=
  match j with
  | Json.obj ms =>
    obind (zReq ms "prompt" (zNatRange 0 Option.none)) fun prompt =>
    obind (zReq ms "completion" (zNatRange 0 Option.none)) fun completion =>
    obind (zReq ms "total" (zNatRange 0 Option.none)) fun total =>
    obind (zReq ms "estimated" zBool) fun estimated =>
    some ⟨prompt, completion, total, estimated⟩
  | _ => Option.none

/-- `VoteTallySchema.safeParse`. -/
def decVoteTally (j : Json) : Option VoteTally :=
  match j with
  | Json.obj ms =>
    obind (zReq ms "yes" (zNatRange 0 Option.none)) fun yes =>
    obind (zReq ms "no" (zNatRange 0 Option.none)) fun no =>
    obind (zReq ms "abstain" (zNatRange 0 Option.none)) fun abstain =>
    obind (zReq ms "total" (zNatRange 0 Option.none)) fun total =>
    obind (zReq ms "eligible" (zNatRange 0 Option.none)) fun eligible =>
    obind (zReq ms "votingTotal" (zNatRange 0 Option.none)) fun votingTotal =>
    obind (zReq ms "supermajorityThreshold" zIntMin0) fun smt =>
    obind (zReq ms "supermajorityReached" zBool) fun smr =>
    some ⟨yes, no, abstain, total, eligible, votingTotal, smt, smr⟩
  | _ => Option.none

/-- `FullAgentResponseSchema.safeParse`. -/
def decFullAgentResponse (j : Json) : Option AgentResponse :=
  match j with
  | Json.obj ms =>
    obind (zReq ms "agentId" (zStrLen 1 64)) fun agentId =>
    obind (zReq ms "round" (zNatRange 1 Option.none)) fun round =>
    obind (zReq ms "positionId" (zNullable (zStrExact 12))) fun positionId =>
    obind (zReq ms "positionText" (zStrLen 0 4000)) fun positionText =>
    obind (zReq ms "reasoning" (zStrLen 0 8000)) fun reasoning =>
    obind (zReq ms "vote" zVote) fun vote =>
    obind (zReq ms "confidence" (zNumRange 0 1)) fun confidence =>
    obind (zReq ms "tokenUsage" decTokenUsage) fun tokenUsage =>
    obind (zReq ms "latencyMs" (zNatRange 0 Option.none)) fun latencyMs =>
    obind (zReq ms "status" zStatus) fun status =>
    obind (zReq ms "error" (zNullable zStr)) fun error =>
    some ⟨agentId, round, positionId, positionText, reasoning, vote, confidence,
      tokenUsage, latencyMs, status, error⟩
  | _ => Option.none

/-- `RoundResultSchema.safeParse`. -/
def decRoundResult (j : Json) : Option RoundResult :=
  match j with
  | Json.obj ms =>
    obind (zReq ms "roundNumber" (zNatRange 1 Option.none)) fun roundNumber =>
    obind (zReq ms "candidatePositionId" (zNullable (zStrExact 12))) fun cpi =>
    obind (zReq ms "candidatePositionText" (zNullable (zStrLen 0 4000))) fun cpt =>
    obind (zReq ms "responses" (zArr decFullAgentResponse 0 Option.none)) fun responses =>
    obind (zReq ms "consensusReached" zBool) fun consensusReached =>
    obind (zReq ms "consensusPositionId" (zNullable (zStrExact 12))) fun coi =>
    obind (zReq ms "consensusPositionText" (zNullable (zStrLen 0 4000))) fun cot =>
    obind (zReq ms "voteTally" decVoteTally) fun voteTally =>
    obind (zReq ms "timestamp" zDatetimeStr) fun timestamp =>
    some ⟨roundNumber, cpi, cpt, responses, consensusReached, coi, cot, voteTally,
      timestamp⟩
  | _ => Option.none

/-- `FullJudgeEvaluationSchema.safeParse`. -/
def decFullJudgeEvaluation (j : Json) : Option JudgeEvaluation :=
  match j with
  | Json.obj ms =>
    obind (zReq ms "judgeId" (zStrLen 1 64)) fun judgeId =>
    obind (zReq ms "round" (zNatRange 1 Option.none)) fun round =>
    obind (zReq ms "selectedPositionId" (zNullable (zStrExact 12))) fun spi =>
    obind (zReq ms "scoresByPositionId" zRecordScores) fun scores =>
    obind (zReq ms "reasoning" (zStrLen 0 8000)) fun reasoning =>
    obind (zReq ms "confidence" (zNumRange 0 1)) fun confidence =>
    obind (zReq ms "tokenUsage" decTokenUsage) fun tokenUsage =>
    obind (zReq ms "latencyMs" (zNatRange 0 Option.none)) fun latencyMs =>
    obind (zReq ms "status" zStatus) fun status =>
    obind (zReq ms "error" (zNullable zStr)) fun error =>
    some ⟨judgeId, round, spi, scores, reasoning, confidence, tokenUsage,
      latencyMs, status, error⟩
  | _ => Option.none

/-- `JudgeRoundResultSchema.safeParse`. -/
def decJudgeRoundResult (j : Json) : Option JudgeRoundResult :=
  match j with
  | Json.obj ms =>
    obind (zReq ms "roundNumber" (zNatRange 1 Option.none)) fun roundNumber =>
    obind (zReq ms "positionIds" (zArr (zStrExact 12) 0 Option.none)) fun positionIds =>
    obind (zReq ms "evaluations" (zArr decFullJudgeEvaluation 0 Option.none))
      fun evaluations =>
    obind (zReq ms "consensusReached" zBool) fun consensusReached =>
    obind (zReq ms "consensusPositionId" (zNullable (zStrExact 12))) fun coi =>
    obind (zReq ms "avgConfidence" (zNumRange 0 1)) fun avgConfidence =>
    obind (zReq ms "timestamp" zDatetimeStr) fun timestamp =>
    some ⟨roundNumber, positionIds, evaluations, consensusReached, coi,
      avgConfidence, timestamp⟩
  | _ => Option.none

/-- `ModelConfigSchema.safeParse` (the shape, then the three provider
refinements with JavaScript truthiness on `cliPath`/`chatTemplate`). -/
def decModelConfig (j : Json) : Option ModelConfig :=
  match j with
  | Json.obj ms =>
    obind (zReq ms "provider" zProvider) fun provider =>
    obind (zReq ms "model" (zStrMin 1)) fun model =>
    obind (zOpt ms "apiKeyEnv" zStr) fun apiKeyEnv =>
    obind (zOpt ms "cliPath" zStr) fun cliPath =>
    obind (zOpt ms "cliArgs" (zArr zStr 0 Option.none)) fun cliArgs =>
    obind (zOpt ms "chatTemplate" zChatTemplate) fun chatTemplate =>
    obind (zOpt ms "reasoningEffort" zReasoningEffort) fun reasoningEffort =>
    obind (zOpt ms "enableSearch" zBool) fun enableSearch =>
    if (provider = Provider.cli ∧ ¬ (strOptTruthy cliPath ∧ chatTemplate.isSome = true))
        ∨ (provider = Provider.codex ∧ ¬ strOptTruthy cliPath)
        ∨ (provider = Provider.geminiCli ∧ ¬ strOptTruthy cliPath) then
      Option.none
    else
      some ⟨provider, model, apiKeyEnv, cliPath, cliArgs, chatTemplate,
        reasoningEffort, enableSearch⟩
  | _ => Option.none

/-- `AgentConfigSchema.safeParse` (also `JudgeConfigSchema`). -/
def decAgentConfig (j : Json) : Option AgentConfig :=
  match j with
  | Json.obj ms =>
    obind (zReq ms "id" (zStrLen 1 64)) fun id =>
    obind (zReq ms "model" decModelConfig) fun model =>
    obind (zOpt ms "systemPrompt" (zStrLen 0 4000)) fun systemPrompt =>
    obind (zOpt ms "temperature" (zNumRange 0 2)) fun temperature =>
    some ⟨id, model, systemPrompt, temperature⟩
  | _ => Option.none

/-- `TimeoutConfigSchema.safeParse`. -/
def decTimeoutConfig (j : Json) : Option TimeoutConfig :=
  match j with
  | Json.obj ms =>
    obind (zDefault ms "modelMs" (zNatRange 1000 (some 600000)) 120000) fun modelMs =>
    obind (zDefault ms "roundMs" (zNatRange 10000 (some 1800000)) 300000) fun roundMs =>
    obind (zDefault ms "sessionMs" (zNatRange 60000 (some 7200000)) 1200000)
      fun sessionMs =>
    some ⟨modelMs, roundMs, sessionMs⟩
  | _ => Option.none

/-- `RetryConfigSchema.safeParse`. -/
def decRetryConfig (j : Json) : Option RetryConfig :=
  match j with
  | Json.obj ms =>
    obind (zDefault ms "maxAttempts" (zNatRange 0 (some 5)) 2) fun maxAttempts =>
    obind (zDefault ms "baseDelayMs" (zNatRange 100 (some 10000)) 1000)
      fun baseDelayMs =>
    obind (zDefault ms "maxDelayMs" (zNatRange 1000 (some 60000)) 8000)
      fun maxDelayMs =>
    some ⟨maxAttempts, baseDelayMs, maxDelayMs⟩
  | _ => Option.none

/-- `ConcurrencyConfigSchema.safeParse`. -/
def decConcurrencyConfig (j : Json) : Option ConcurrencyConfig :=
  match j with
  | Json.obj ms =>
    obind (zDefault ms "maxConcurrentRequests" (zNatRange 1 (some 20)) 4) fun mcr =>
    some ⟨mcr⟩
  | _ => Option.none

/-- `LimitConfigSchema.safeParse`. -/
def decLimitConfig (j : Json) : Option LimitConfig :=
  match j with
  | Json.obj ms =>
    obind (zDefault ms "maxTokensPerResponse" (zNatRange 256 (some 16384)) 2048)
      fun mtpr =>
    obind (zDefault ms "maxTotalTokens" (zNatRange 1000 (some 1000000)) 200000)
      fun mtt =>
    obind (zDefault ms "maxTotalCostUsd" (zNumRange (1 / 100) 1000) 25) fun mtc =>
    obind (zDefault ms "maxContextTokens" (zNatRange 1000 (some 128000)) 12000)
      fun mct =>
    some ⟨mtpr, mtt, mtc, mct⟩
  | _ => Option.none

/-- `DebateConfigSchema.safeParse` (the shape with its defaults, then the
judge-panel refinement). -/
def decDebateConfig (j : Json) : Option DebateConfig :=
  match j with
  | Json.obj ms =>
    obind (zReq ms "topic" (zStrLen 1 1000)) fun topic =>
    obind (zOpt ms "initialQuery" (zStrLen 0 2000)) fun initialQuery =>
    obind (zReq ms "agents" (zArr decAgentConfig 2 (some 10))) fun agents =>
    obind (zReq ms "judges" (zArr decAgentConfig 0 (some 15))) fun judges =>
    obind (zDefault ms "judgePanelEnabled" zBool true) fun judgePanelEnabled =>
    obind (zDefault ms "maxAgentRounds" (zNatRange 1 (some 10)) 4)
      fun maxAgentRounds =>
    obind (zDefault ms "maxJudgeRounds" (zNatRange 1 (some 5)) 3)
      fun maxJudgeRounds =>
    obind (zDefault ms "consensusThreshold" (zNumRange (1 / 2) 1) (67 / 100))
      fun consensusThreshold =>
    obind (zDefault ms "judgeConsensusThreshold" (zNumRange (1 / 2) 1) (3 / 5))
      fun judgeConsensusThreshold =>
    obind (zDefault ms "judgeMinConfidence" (zNumRange 0 1) (7 / 10))
      fun judgeMinConfidence =>
    obind (zDefault ms "judgePositionsScope" zScope PositionsScope.allRounds)
      fun judgePositionsScope =>
    obind (zDefault ms "contextTopology" zTopology ContextTopology.lastRoundWithSelf)
      fun contextTopology =>
    obind (zDefault ms "checkpointDir" (zNullable zStr) Option.none)
      fun checkpointDir =>
    obind (zDefault ms "timeouts" decTimeoutConfig ⟨120000, 300000, 1200000⟩)
      fun timeouts =>
    obind (zDefault ms "retries" decRetryConfig ⟨2, 1000, 8000⟩) fun retries =>
    obind (zDefault ms "concurrency" decConcurrencyConfig ⟨4⟩) fun concurrency =>
    obind (zDefault ms "limits" decLimitConfig ⟨2048, 200000, 25, 12000⟩)
      fun limits =>
    obind (zDefault ms "deterministicMode" zBool false) fun deterministicMode =>
    obind (zDefault ms "allowExternalPaths" zBool false) fun allowExternalPaths =>
    if judgePanelEnabled ∧ judges.length < 3 then Option.none
    else
      some ⟨topic, initialQuery, agents, judges, judgePanelEnabled,
        maxAgentRounds, maxJudgeRounds, consensusThreshold,
        judgeConsensusThreshold, judgeMinConfidence, judgePositionsScope,
        contextTopology, checkpointDir, timeouts, retries, concurrency, limits,
        deterministicMode, allowExternalPaths⟩
  | _ => Option.none

/-- The nested `integrity` object decoder. -/
def decIntegrity (j : Json) : Option CheckpointIntegrity :=
  match j with
  | Json.obj ms =>
    obind (zReq ms "sha256" (zStrExact 64)) fun h =>
    obind (zReq ms "hmac" (zNullable (zStrExact 64))) fun hm =>
    some ⟨h, hm⟩
  | _ => Option.none

/-- `CheckpointSchema.safeParse`. -/
def decCheckpoint (j : Json) : Option Checkpoint :=
  match j with
  | Json.obj ms =>
    obind (zReq ms "version" (zLiteral "2.3.0")) fun version =>
    obind (zReq ms "engineVersion" zStr) fun engineVersion =>
    obind (zReq ms "sessionId" zStr) fun sessionId =>
    obind (zReq ms "timestamp" zDatetimeStr) fun timestamp =>
    obind (zReq ms "phase" zPhase) fun phase =>
    obind (zReq ms "config" decDebateConfig) fun config =>
    obind (zReq ms "configHash" (zStrExact 64)) fun configHash =>
    obind (zReq ms "agentRounds" (zArr decRoundResult 0 Option.none))
      fun agentRounds =>
    obind (zDefault ms "judgeRounds" (zArr decJudgeRoundResult 0 Option.none) [])
      fun judgeRounds =>
    obind (zReq ms "integrity" decIntegrity) fun integrity =>
    some ⟨version, engineVersion, sessionId, timestamp, phase, config,
      configHash, agentRounds, judgeRounds, integrity⟩
  | _ => Option.none

/-! ### `saveCheckpoint` / `loadCheckpoint` -/

/-- `saveCheckpoint` (checkpoint.ts lines 36–75): the file content written
for `data`, with `new Date().toISOString()` passed as `now` and the
`LLM_COURT_CHECKPOINT_HMAC_KEY` environment value as `hmacKey`. -/
def saveCheckpoint (data : CheckpointData) (now : String)
    (hmacKey : Option String) : String :=
  let configHash := sha256 (canonicalizeJson (debateConfigToJson data.config))
  let body := checkpointBodyFields SPEC_VERSION ENGINE_VERSION data.sessionId now
    data.phase data.config configHash data.agentRounds data.judgeRounds
  let contentHash := sha256 (canonicalizeJson (Json.obj body))
  let hmac := if strOptTruthy hmacKey then
      some (hmacSha256 contentHash (hmacKey.getD ""))
    else Option.none
  jstringify (some 2) (Json.obj (body
    ++ [("integrity", Json.obj [("sha256", Json.str contentHash),
          ("hmac", jNullableStr hmac)])]))

/-- The fatal load errors of `loadCheckpoint` (`CheckpointError`,
`CheckpointVersionError`, `CheckpointIntegrityError`). -/
inductive CheckpointLoadError
| parseFailed
| schemaInvalid
| versionMismatch (found : String)
| integrityMismatch
| hmacMismatch
deriving DecidableEq, Repr

/-- `loadCheckpoint` (checkpoint.ts lines 80–141) on the file content,
with the `LLM_COURT_CHECKPOINT_HMAC_KEY` environment value as `hmacKey`. -/
def loadCheckpoint (content : String) (hmacKey : Option String) :
    Except CheckpointLoadError CheckpointData :=
  match jparse content with
  | Option.none => Except.error CheckpointLoadError.parseFailed
  | some parsed =>
    match decCheckpoint parsed with
    | Option.none => Except.error CheckpointLoadError.schemaInvalid
    | some cp =>
      if cp.version ≠ SPEC_VERSION then
        Except.error (CheckpointLoadError.versionMismatch cp.version)
      else
        let rest := checkpointBodyFields cp.version cp.engineVersion cp.sessionId
          cp.timestamp cp.phase cp.config cp.configHash cp.agentRounds
          cp.judgeRounds
        let expectedHash := sha256 (canonicalizeJson (Json.obj rest))
        if cp.integrity.sha256 ≠ expectedHash then
          Except.error CheckpointLoadError.integrityMismatch
        else if strOptTruthy hmacKey ∧ strOptTruthy cp.integrity.hmac then
          if cp.integrity.hmac ≠ some (hmacSha256 cp.integrity.sha256 (hmacKey.getD ""))
          then Except.error CheckpointLoadError.hmacMismatch
          else Except.ok ⟨cp.sessionId, cp.phase, cp.config, cp.agentRounds,
            cp.judgeRounds⟩
        else Except.ok ⟨cp.sessionId, cp.phase, cp.config, cp.agentRounds,
          cp.judgeRounds⟩

/-! ### Schema-validity of in-memory checkpoint state

`CheckpointData` values the engine writes satisfy the schema's range and
length constraints; `checkpointDataWf` states them on the typed state
(with `ratDecimal` for each rational, the exactness every JavaScript
number round-trips with). -/

/-- `z.string().min(lo).max(hi)` on a value already in memory. -/
def strLenOk (lo hi : Nat) (s : String) : Bool :=
  decide (lo ≤ s.length) && decide (s.length ≤ hi)

/-- A constraint on an optional field (absent is fine). -/
def optOk {α : Type} (p : α → Bool) : Option α → Bool
  | Option.none => true
  | some a => p a

/-- `z.string().length(12)` on a value. -/
def len12 (s : String) : Bool :=
  decide (s.length = 12)

/-- `z.number().min(0).max(1)` plus decimal-exactness. -/
def confOk (q : ℚ) : Bool :=
  decide ((0 : ℚ) ≤ q) && decide (q ≤ 1) && ratDecimal q

/-- `z.number().min(0).max(2)` plus decimal-exactness. -/
def tempOk (q : ℚ) : Bool :=
  decide ((0 : ℚ) ≤ q) && decide (q ≤ 2) && ratDecimal q

/-- `z.number().min(0.5).max(1)` plus decimal-exactness. -/
def thresholdOk (q : ℚ) : Bool :=
  decide ((1 / 2 : ℚ) ≤ q) && decide (q ≤ 1) && ratDecimal q

/-- `z.number().min(0.01).max(1000)` plus decimal-exactness. -/
def costOk (q : ℚ) : Bool :=
  decide ((1 / 100 : ℚ) ≤ q) && decide (q ≤ 1000) && ratDecimal q

/-- One score entry's constraint. -/
def scoreOk (kv : String × Nat) : Bool :=
  decide (kv.2 ≤ 100)

/-- `FullAgentResponseSchema` constraints on the typed value. -/
def agentResponseWf (r : AgentResponse) : Bool :=
  strLenOk 1 64 r.agentId && decide (1 ≤ r.round) && optOk len12 r.positionId
    && strLenOk 0 4000 r.positionText && strLenOk 0 8000 r.reasoning
    && confOk r.confidence

/-- `VoteTallySchema` constraints on the typed value. -/
def voteTallyWf (v : VoteTally) : Bool :=
  decide (0 ≤ v.supermajorityThreshold)

/-- `RoundResultSchema` constraints on the typed value. -/
def roundResultWf (r : RoundResult) : Bool :=
  decide (1 ≤ r.roundNumber) && optOk len12 r.candidatePositionId
    && optOk (strLenOk 0 4000) r.candidatePositionText
    && r.responses.all agentResponseWf
    && optOk len12 r.consensusPositionId
    && optOk (strLenOk 0 4000) r.consensusPositionText
    && voteTallyWf r.voteTally && isZodDatetime r.timestamp

/-- `FullJudgeEvaluationSchema` constraints on the typed value (keys of
the scores record pairwise distinct, as in a JavaScript object). -/
def judgeEvalWf (e : JudgeEvaluation) : Bool :=
  strLenOk 1 64 e.judgeId && decide (1 ≤ e.round)
    && optOk len12 e.selectedPositionId
    && e.scoresByPositionId.all scoreOk
    && decide (e.scoresByPositionId.map Prod.fst).Nodup
    && strLenOk 0 8000 e.reasoning && confOk e.confidence

/-- `JudgeRoundResultSchema` constraints on the typed value. -/
def judgeRoundWf (jr : JudgeRoundResult) : Bool :=
  decide (1 ≤ jr.roundNumber) && jr.positionIds.all len12
    && jr.evaluations.all judgeEvalWf && optOk len12 jr.consensusPositionId
    && confOk jr.avgConfidence && isZodDatetime jr.timestamp

/-- `ModelConfigSchema` constraints (shape and the three refinements). -/
def modelConfigWf (m : ModelConfig) : Bool :=
  decide (1 ≤ m.model.length)
    && (!(m.provider == Provider.cli)
        || (strOptTruthy m.cliPath && m.chatTemplate.isSome))
    && (!(m.provider == Provider.codex) || strOptTruthy m.cliPath)
    && (!(m.provider == Provider.geminiCli) || strOptTruthy m.cliPath)

/-- `AgentConfigSchema` constraints on the typed value. -/
def agentConfigWf (a : AgentConfig) : Bool :=
  strLenOk 1 64 a.id && modelConfigWf a.model
    && optOk (strLenOk 0 4000) a.systemPrompt && optOk tempOk a.temperature

/-- `TimeoutConfigSchema` constraints on the typed value. -/
def timeoutConfigWf (t : TimeoutConfig) : Bool :=
  decide (1000 ≤ t.modelMs) && decide (t.modelMs ≤ 600000)
    && decide (10000 ≤ t.roundMs) && decide (t.roundMs ≤ 1800000)
    && decide (60000 ≤ t.sessionMs) && decide (t.sessionMs ≤ 7200000)

/-- `RetryConfigSchema` constraints on the typed value. -/
def retryConfigWf (r : RetryConfig) : Bool :=
  decide (r.maxAttempts ≤ 5)
    && decide (100 ≤ r.baseDelayMs) && decide (r.baseDelayMs ≤ 10000)
    && decide (1000 ≤ r.maxDelayMs) && decide (r.maxDelayMs ≤ 60000)

/-- `ConcurrencyConfigSchema` constraints on the typed value. -/
def concurrencyConfigWf (c : ConcurrencyConfig) : Bool :=
  decide (1 ≤ c.maxConcurrentRequests) && decide (c.maxConcurrentRequests ≤ 20)

/-- `LimitConfigSchema` constraints on the typed value. -/
def limitConfigWf (l : LimitConfig) : Bool :=
  decide (256 ≤ l.maxTokensPerResponse) && decide (l.maxTokensPerResponse ≤ 16384)
    && decide (1000 ≤ l.maxTotalTokens) && decide (l.maxTotalTokens ≤ 1000000)
    && costOk l.maxTotalCostUsd
    && decide (1000 ≤ l.maxContextTokens) && decide (l.maxContextTokens ≤ 128000)

/-- `DebateConfigSchema` constraints (shape and the judge-panel
refinement) on the typed value. -/
def debateConfigWf (c : DebateConfig) : Bool :=
  strLenOk 1 1000 c.topic && optOk (strLenOk 0 2000) c.initialQuery
    && decide (2 ≤ c.agents.length) && decide (c.agents.length ≤ 10)
    && c.agents.all agentConfigWf
    && decide (c.judges.length ≤ 15) && c.judges.all agentConfigWf
    && decide (1 ≤ c.maxAgentRounds) && decide (c.maxAgentRounds ≤ 10)
    && decide (1 ≤ c.maxJudgeRounds) && decide (c.maxJudgeRounds ≤ 5)
    && thresholdOk c.consensusThreshold && thresholdOk c.judgeConsensusThreshold
    && confOk c.judgeMinConfidence
    && timeoutConfigWf c.timeouts && retryConfigWf c.retries
    && concurrencyConfigWf c.concurrency && limitConfigWf c.limits
    && (!c.judgePanelEnabled || decide (3 ≤ c.judges.length))

/-- Schema-validity of the state `saveCheckpoint` persists. -/
def checkpointDataWf (d : CheckpointData) : Bool :=
  debateConfigWf d.config && d.agentRounds.all roundResultWf
    && d.judgeRounds.all judgeRoundWf

/-- A minimal model configuration fixture. -/
def mcFix : ModelConfig :=
  ⟨Provider.openai, "gpt-4o", Option.none, Option.none, Option.none,
    Option.none, Option.none, Option.none⟩

/-- An agent configuration fixture. -/
def agFix (i : String) : AgentConfig :=
  ⟨i, mcFix, Option.none, Option.none⟩

/-- A schema-valid debate configuration fixture (panel disabled, all
defaulted values). -/
def cfgFix : DebateConfig :=
  ⟨"t", Option.none, [agFix "a1", agFix "a2"], [], false, 4, 3, 67 / 100,
    3 / 5, 7 / 10, PositionsScope.allRounds, ContextTopology.lastRoundWithSelf,
    Option.none, ⟨120000, 300000, 1200000⟩, ⟨2, 1000, 8000⟩, ⟨4⟩,
    ⟨2048, 200000, 25, 12000⟩, false, false⟩

/-- A minimal checkpoint state fixture. -/
def cpFix : CheckpointData :=
  ⟨"s1", DebatePhase.init, cfgFix, [], []⟩

/-- A call-outcome fixture: `agent-2`'s adapter call throws, the others
return (unparseable) content. -/
def cx8Outcome : AgentConfig → CallOutcome := fun a =>
  if a.id = "agent-2" then CallOutcome.threw "ECONNRESET" 43
  else CallOutcome.ok "not json"
    { prompt := 1, completion := 1, total := 2, estimated := false } 10

/-! # Theorems

Each claim of the specification gets one theorem (with a witness when the
theorem carries hypotheses, and a counterexample where the claim fails on
the code). -/

/-- `yesVotes` as a single count over the raw responses. -/
theorem yesVotes_eq_countP (rs : List AgentResponse) (cand : Option String) :
    yesVotes rs cand =
      rs.countP
        (fun r => r.status == Status.ok && (r.vote == Vote.yes && r.positionId == cand)) := by
  simp [yesVotes, eligibleResponses, List.filter_filter, List.countP_eq_length_filter,
    Bool.and_comm]

/-- `mismatchedYesVotes` as a single count over the raw responses. -/
theorem mismatchedYesVotes_eq_countP (rs : List AgentResponse) (cand : Option String) :
    mismatchedYesVotes rs cand =
      rs.countP
        (fun r => r.status == Status.ok && (r.vote == Vote.yes && !(r.positionId == cand))) := by
  simp [mismatchedYesVotes, eligibleResponses, List.filter_filter, List.countP_eq_length_filter,
    Bool.and_comm]

/-- `noVotes` as a single count over the raw responses. -/
theorem noVotes_eq_countP (rs : List AgentResponse) :
    noVotes rs = rs.countP (fun r => r.status == Status.ok && r.vote == Vote.no) := by
  simp [noVotes, eligibleResponses, List.filter_filter, List.countP_eq_length_filter,
    Bool.and_comm]

/-- `abstainVotes` as a single count over the raw responses. -/
theorem abstainVotes_eq_countP (rs : List AgentResponse) :
    abstainVotes rs = rs.countP (fun r => r.status == Status.ok && r.vote == Vote.abstain) := by
  simp [abstainVotes, eligibleResponses, List.filter_filter, List.countP_eq_length_filter,
    Bool.and_comm]

/-- Every response falls in exactly one of the five tally buckets: matched
yes, mismatched yes, no, eligible abstain, error. -/
theorem responses_length_partition (rs : List AgentResponse) (cand : Option String) :
    rs.length =
      yesVotes rs cand + mismatchedYesVotes rs cand + noVotes rs + abstainVotes rs +
        errorCount rs := by
  rw [yesVotes_eq_countP, mismatchedYesVotes_eq_countP, noVotes_eq_countP, abstainVotes_eq_countP]
  induction rs with
  | nil => simp [errorCount]
  | cons r rs ih =>
    simp only [errorCount, List.filter_cons] at ih ⊢
    cases hs : r.status <;> cases hv : r.vote <;> by_cases hm : r.positionId == cand <;>
        simp only [List.countP_cons, List.length_cons, hs, hv, hm] <;>
      simp_all <;> omega

/-- Two disjoint filters of a list together never exceed its length. -/
theorem filter_disjoint_length_le {α : Type} (l : List α) (p q : α → Bool)
    (h : ∀ a, p a = true → q a = false) :
    (l.filter p).length + (l.filter q).length ≤ l.length := by
  induction l with
  | nil => simp
  | cons a l ih =>
    by_cases hp : p a = true
    · have hq := h a hp
      simp [List.filter_cons, hp, hq]
      omega
    · by_cases hq : q a = true <;> simp [List.filter_cons, hp, hq] <;> omega

/-- The tally of `detectAgentConsensus` carries the same counting fields in
every branch; only the supermajority fields vary. -/
theorem detectAgentConsensus_voteTally_fields (rs : List AgentResponse)
    (cand : Option String) (thr : ℚ) :
    (detectAgentConsensus rs cand thr).voteTally.yes = yesVotes rs cand ∧
    (detectAgentConsensus rs cand thr).voteTally.no = noVotes rs ∧
    (detectAgentConsensus rs cand thr).voteTally.abstain = abstainVotes rs ∧
    (detectAgentConsensus rs cand thr).voteTally.total = rs.length ∧
    (detectAgentConsensus rs cand thr).voteTally.eligible = (eligibleResponses rs).length ∧
    (detectAgentConsensus rs cand thr).voteTally.votingTotal = yesVotes rs cand + noVotes rs := by
  simp only [detectAgentConsensus]
  repeat' split
  all_goals simp

/-- C1: the `VoteTally` of `detectAgentConsensus` satisfies
`votingTotal = yes + no` and `votingTotal ≤ eligible`, and its `total` is the
full response count — which exceeds `yes + no + abstain` by exactly the error
responses (not counted as abstain: the abstain bucket only counts eligible
responses) plus the eligible yes votes on a non-candidate position. -/
theorem voteTally_invariants_amended (rs : List AgentResponse) (cand : Option String)
    (thr : ℚ) :
    (detectAgentConsensus rs cand thr).voteTally.votingTotal =
        (detectAgentConsensus rs cand thr).voteTally.yes +
          (detectAgentConsensus rs cand thr).voteTally.no ∧
    (detectAgentConsensus rs cand thr).voteTally.votingTotal ≤
        (detectAgentConsensus rs cand thr).voteTally.eligible ∧
    (detectAgentConsensus rs cand thr).voteTally.total =
        (detectAgentConsensus rs cand thr).voteTally.yes +
          (detectAgentConsensus rs cand thr).voteTally.no +
          (detectAgentConsensus rs cand thr).voteTally.abstain +
          errorCount rs + mismatchedYesVotes rs cand := by
  obtain ⟨hy, hn, ha, ht, he, hv⟩ := detectAgentConsensus_voteTally_fields rs cand thr
  refine ⟨by rw [hy, hn, hv], ?_, ?_⟩
  · rw [hv, he, yesVotes, noVotes]
    exact filter_disjoint_length_le _ _ _
      (by
        intro a hp
        cases hva : a.vote <;> simp_all)
  · rw [ht, hy, hn, ha]
    have := responses_length_partition rs cand
    omega

/-- C1, counterexample to the claim as stated: with a single error response
(which carries `vote=abstain`), the tally has `total = 1` but
`yes + no + abstain = 0` — the error abstain is *not* counted in `abstain`. -/
theorem voteTally_error_not_abstain_counterexample :
    (detectAgentConsensus [createErrorAgentResponse "agent-2" 2 "model call timed out"]
          (Option.some "1a2b3c4d5e6f") (67/100)).voteTally.total ≠
      (detectAgentConsensus [createErrorAgentResponse "agent-2" 2 "model call timed out"]
            (Option.some "1a2b3c4d5e6f") (67/100)).voteTally.yes +
        (detectAgentConsensus [createErrorAgentResponse "agent-2" 2 "model call timed out"]
              (Option.some "1a2b3c4d5e6f") (67/100)).voteTally.no +
        (detectAgentConsensus [createErrorAgentResponse "agent-2" 2 "model call timed out"]
              (Option.some "1a2b3c4d5e6f") (67/100)).voteTally.abstain := by
  decide

/-- C2: evaluation of `selectNextCandidate` at the claim's own scenario — an
all-abstain round 1 proposing three distinct positions with confidences
0.8/0.7/0.6.  Every response is eligible and carries a position, yet the
function returns `null` (its filter drops `vote === "abstain"` responses),
not the highest-support position the specification expects. -/
theorem selectNextCandidate_all_abstain_returns_none :
    (∀ r ∈ round1AllAbstain,
        r.status = Status.ok ∧ r.vote = Vote.abstain ∧ r.positionId ≠ Option.none) ∧
    selectNextCandidate round1AllAbstain = Option.none := by
  decide

/-- C3: `detectAgentConsensus` reports consensus exactly when the candidate is
non-null, `votingTotal = yes + no` is positive, and the yes count (eligible
responses voting yes on the candidate) meets `⌈votingTotal · threshold⌉`;
when reached, the method is `unanimous` iff `yes = votingTotal`, and
`supermajority` otherwise — in particular `threshold = 1` forces
unanimity. -/
theorem detectAgentConsensus_reached_iff (rs : List AgentResponse) (cand : Option String)
    (thr : ℚ) :
    ((detectAgentConsensus rs cand thr).reached = true ↔
      cand ≠ Option.none ∧ 0 < yesVotes rs cand + noVotes rs ∧
        (yesVotes rs cand : Int) ≥ ⌈((yesVotes rs cand + noVotes rs : Nat) : ℚ) * thr⌉) ∧
    ((detectAgentConsensus rs cand thr).reached = true →
      ((detectAgentConsensus rs cand thr).method = ConsensusMethod.unanimous ↔
        yesVotes rs cand = yesVotes rs cand + noVotes rs)) ∧
    ((detectAgentConsensus rs cand thr).reached = true →
      yesVotes rs cand ≠ yesVotes rs cand + noVotes rs →
      (detectAgentConsensus rs cand thr).method = ConsensusMethod.supermajority) ∧
    (thr = 1 → (detectAgentConsensus rs cand thr).reached = true →
      (detectAgentConsensus rs cand thr).method = ConsensusMethod.unanimous) := by
  simp only [detectAgentConsensus]
  split
  · rename_i h1
    refine ⟨?_, ?_, ?_, ?_⟩
    · simp only [show (false = true) = False from by simp, false_iff]
      rintro ⟨hc, hv, _⟩
      rcases h1 with h1 | h1
      · exact hc h1
      · omega
    · intro h; simp at h
    · intro h; simp at h
    · intro _ h; simp at h
  · rename_i h1
    rw [not_or] at h1
    split
    · rename_i h2
      refine ⟨?_, ?_, ?_, ?_⟩
      · simp only [true_iff]
        exact ⟨h1.1, by omega, h2⟩
      · intro _
        constructor
        · intro h
          simp at h
          omega
        · intro h
          simp
          omega
      · intro _ hne
        simp
        omega
      · intro hthr _
        have hceil : ⌈((yesVotes rs cand + noVotes rs : Nat) : ℚ) * thr⌉ =
            ((yesVotes rs cand + noVotes rs : Nat) : Int) := by
          rw [hthr, mul_one]
          exact_mod_cast Int.ceil_natCast _
        rw [hceil] at h2
        have hle : (yesVotes rs cand + noVotes rs : Nat) ≤ yesVotes rs cand := by
          exact_mod_cast h2
        simp
        omega
    · rename_i h2
      refine ⟨?_, ?_, ?_, ?_⟩
      · simp only [show (false = true) = False from by simp, false_iff]
        rintro ⟨_, _, hge⟩
        exact h2 hge
      · intro h; simp at h
      · intro h; simp at h
      · intro _ h; simp at h

/-- C3, witness: three eligible yes votes on the candidate at threshold 1
reach consensus with method `unanimous`, via the iff. -/
theorem detectAgentConsensus_reached_iff_witness :
    (detectAgentConsensus
        [sampleVoter "agent-1" Vote.yes (Option.some "1a2b3c4d5e6f") "P1" (9/10),
         sampleVoter "agent-2" Vote.yes (Option.some "1a2b3c4d5e6f") "P1" (8/10),
         sampleVoter "agent-3" Vote.yes (Option.some "1a2b3c4d5e6f") "P1" (7/10)]
        (Option.some "1a2b3c4d5e6f") 1).reached = true ∧
    (detectAgentConsensus
        [sampleVoter "agent-1" Vote.yes (Option.some "1a2b3c4d5e6f") "P1" (9/10),
         sampleVoter "agent-2" Vote.yes (Option.some "1a2b3c4d5e6f") "P1" (8/10),
         sampleVoter "agent-3" Vote.yes (Option.some "1a2b3c4d5e6f") "P1" (7/10)]
        (Option.some "1a2b3c4d5e6f") 1).method = ConsensusMethod.unanimous := by
  have h := detectAgentConsensus_reached_iff
    [sampleVoter "agent-1" Vote.yes (Option.some "1a2b3c4d5e6f") "P1" (9/10),
     sampleVoter "agent-2" Vote.yes (Option.some "1a2b3c4d5e6f") "P1" (8/10),
     sampleVoter "agent-3" Vote.yes (Option.some "1a2b3c4d5e6f") "P1" (7/10)]
    (Option.some "1a2b3c4d5e6f") 1
  have hreached := h.1.mpr (by
    refine ⟨by decide, by decide, ?_⟩
    rw [show yesVotes
        [sampleVoter "agent-1" Vote.yes (Option.some "1a2b3c4d5e6f") "P1" (9/10),
         sampleVoter "agent-2" Vote.yes (Option.some "1a2b3c4d5e6f") "P1" (8/10),
         sampleVoter "agent-3" Vote.yes (Option.some "1a2b3c4d5e6f") "P1" (7/10)]
        (Option.some "1a2b3c4d5e6f") = 3 from by decide,
      show noVotes
        [sampleVoter "agent-1" Vote.yes (Option.some "1a2b3c4d5e6f") "P1" (9/10),
         sampleVoter "agent-2" Vote.yes (Option.some "1a2b3c4d5e6f") "P1" (8/10),
         sampleVoter "agent-3" Vote.yes (Option.some "1a2b3c4d5e6f") "P1" (7/10)] = 0 from by decide]
    norm_num)
  exact ⟨hreached, h.2.2.2 rfl hreached⟩

/-- C7: the phase machine admits exactly the edges `init→agent_debate`,
`agent_debate→{consensus_reached, judge_evaluation, deadlock}` and
`judge_evaluation→{consensus_reached, deadlock}`; every other request (in
particular any transition out of a terminal phase) raises the
invalid-state-transition error without producing a new state, and a
successful transition stamps `completedAt` exactly on entry to a terminal
phase. -/
theorem transitionTo_spec (s : DebateSession) (p : DebatePhase) (now : String) :
    ((transitionTo s p now).isOk = true ↔
      (s.phase, p) ∈
        ([(DebatePhase.init, DebatePhase.agentDebate),
          (DebatePhase.agentDebate, DebatePhase.consensusReached),
          (DebatePhase.agentDebate, DebatePhase.judgeEvaluation),
          (DebatePhase.agentDebate, DebatePhase.deadlock),
          (DebatePhase.judgeEvaluation, DebatePhase.consensusReached),
          (DebatePhase.judgeEvaluation, DebatePhase.deadlock)] :
          List (DebatePhase × DebatePhase))) ∧
    ((transitionTo s p now).isOk = false →
      transitionTo s p now = Except.error ⟨s.phase, p⟩) ∧
    (∀ s', transitionTo s p now = Except.ok s' →
      s'.phase = p ∧
      s'.agentRounds = s.agentRounds ∧
      s'.judgeRounds = s.judgeRounds ∧
      s'.finalVerdict = s.finalVerdict ∧
      (isTerminalPhase p = true → s'.metadata.completedAt = Option.some now) ∧
      (isTerminalPhase p = false → s'.metadata.completedAt = s.metadata.completedAt)) := by
  cases hs : s.phase <;> cases p <;>
    simp only [transitionTo, VALID_TRANSITIONS, isTerminalPhase, hs] <;>
    refine ⟨by simp [hs, Except.isOk, Except.toBool], by simp [Except.isOk, Except.toBool], ?_⟩ <;>
    rintro s' hs' <;>
    first
      | exact Except.noConfusion hs'
      | (injection hs' with hs''
         subst hs''
         simp [hs, isTerminalPhase])

/-- C7, witness: `agent_debate → deadlock` succeeds, and stamps
`completedAt`; applied through `transitionTo_spec`. -/
theorem transitionTo_spec_witness :
    (transitionTo (sampleSession DebatePhase.agentDebate) DebatePhase.deadlock
        "2026-02-01T10:05:00.000Z").isOk = true ∧
    (match transitionTo (sampleSession DebatePhase.agentDebate) DebatePhase.deadlock
        "2026-02-01T10:05:00.000Z" with
      | Except.ok s' => s'.metadata.completedAt = Option.some "2026-02-01T10:05:00.000Z"
      | Except.error _ => False) := by
  have h := transitionTo_spec (sampleSession DebatePhase.agentDebate) DebatePhase.deadlock
    "2026-02-01T10:05:00.000Z"
  refine ⟨h.1.mpr (by decide), ?_⟩
  cases hrun : transitionTo (sampleSession DebatePhase.agentDebate) DebatePhase.deadlock
      "2026-02-01T10:05:00.000Z" with
  | ok s' => exact ((h.2.2 s' hrun).2.2.2.2.1 (by decide))
  | error e =>
    have := h.1.mpr (by decide)
    simp [hrun, Except.isOk, Except.toBool] at this

/-- C9: when a session record carries no final verdict (possible at a
terminal phase: an agent deadlock with no eligible non-abstain response, or a
judge deadlock whose last round has no winner), `buildOutput` emits the fixed
default verdict `{positionId: "", positionText: "", confidence: 0,
source: deadlock}`. -/
theorem buildOutput_default_verdict (s : DebateSession)
    (_hterm : isTerminalPhase s.phase = true) (hnone : s.finalVerdict = Option.none) :
    (buildOutput s).finalVerdict =
      { positionId := "", positionText := "", confidence := 0
        source := VerdictSource.deadlock } := by
  simp [buildOutput, hnone]

/-- C9, witness: a deadlocked session with no verdict set, through
`buildOutput_default_verdict`. -/
theorem buildOutput_default_verdict_witness :
    (buildOutput (sampleSession DebatePhase.deadlock)).finalVerdict =
      { positionId := "", positionText := "", confidence := 0
        source := VerdictSource.deadlock } :=
  buildOutput_default_verdict (sampleSession DebatePhase.deadlock) (by decide) (by decide)

/-- C10: the emitted `judgePanel.final` is non-null exactly when at least one
judge round ran, and whenever it is non-null its `dissents` field is the
empty list — `buildOutput` hard-codes `dissents: []`, discarding the
dissenters `detectJudgeConsensus` computed. -/
theorem judgePanel_final_dissents_empty (s : DebateSession) :
    (((buildOutput s).judgePanel.final).isSome = true ↔ 0 < s.judgeRounds.length) ∧
    (∀ f, (buildOutput s).judgePanel.final = Option.some f → f.dissents = []) := by
  constructor
  · by_cases h : 0 < s.judgeRounds.length <;> simp [buildOutput, h]
  · intro f hf
    by_cases h : 0 < s.judgeRounds.length
    · simp only [buildOutput, if_pos h, Option.some.injEq] at hf
      rw [← hf]
    · simp [buildOutput, h] at hf

/-- C10, witness: a session with one judge round, through
`judgePanel_final_dissents_empty`. -/
theorem judgePanel_final_dissents_empty_witness :
    (buildOutput
        { sampleSession DebatePhase.deadlock with
          judgeRounds := [sampleJudgeRoundResult] }).judgePanel.final.isSome = true ∧
    ({ consensusPositionId := "", consensusPositionText := "", consensusConfidence := 0
       dissents := [] } : JudgePanelFinal).dissents = [] := by
  have h := judgePanel_final_dissents_empty
    { sampleSession DebatePhase.deadlock with judgeRounds := [sampleJudgeRoundResult] }
  exact ⟨h.1.mpr (by decide), h.2 _ (by decide)⟩

/-! ### Judge-consensus helper lemmas (towards the judge-deadlock theorem) -/

/-- Membership through stable insertion. -/
theorem mem_insertSorted {α : Type} (le : α → α → Bool) (x a : α) (l : List α) :
    a ∈ insertSorted le x l ↔ a = x ∨ a ∈ l := by
  induction l with
  | nil => simp [insertSorted]
  | cons y ys ih =>
    simp only [insertSorted]
    split
    · simp
    · simp only [List.mem_cons, ih]
      tauto

/-- Membership through the stable sort. -/
theorem mem_sortListStable {α : Type} (le : α → α → Bool) (a : α) (l : List α) :
    a ∈ sortListStable le l ↔ a ∈ l := by
  induction l with
  | nil => simp [sortListStable]
  | cons y ys ih =>
    simp only [sortListStable, List.foldr_cons] at ih ⊢
    rw [mem_insertSorted, ih, List.mem_cons]

/-- `alistGet` steps over one entry. -/
theorem alistGet_cons {α : Type} (kv : String × α) (rest : List (String × α)) (w : String) :
    alistGet (kv :: rest) w = if kv.1 = w then Option.some kv.2 else alistGet rest w := by
  by_cases h : kv.1 = w
  · have hb : (kv.1 == w) = true := beq_iff_eq.mpr h
    simp [alistGet, List.find?, hb, h]
  · have hb : (kv.1 == w) = false := beq_eq_false_iff_ne.mpr h
    simp [alistGet, List.find?, hb, h]

/-- `bumpVote` updates exactly the bumped key. -/
theorem alistGet_bumpVote (votes : List (String × Nat)) (p w : String) :
    alistGet (bumpVote votes p) w =
      if p = w then Option.some ((alistGet votes w).getD 0 + 1) else alistGet votes w := by
  induction votes with
  | nil =>
    by_cases h : p = w <;> simp [bumpVote, alistGet_cons, alistGet, h]
  | cons kv rest ih =>
    simp only [bumpVote]
    by_cases hk : kv.1 = p
    · rw [if_pos hk, alistGet_cons, alistGet_cons]
      by_cases hw : kv.1 = w
      · have hpw : p = w := hk ▸ hw
        simp [hw, hpw]
      · have hpw : ¬p = w := fun h => hw (by rw [hk, h])
        simp [hw, hpw]
    · rw [if_neg hk, alistGet_cons, alistGet_cons, ih]
      by_cases hw : kv.1 = w
      · have hpw : ¬p = w := fun h => hk (by rw [hw, h])
        simp [hw, hpw]
      · simp [hw]

/-- The vote-count fold computes `votesFor` on top of the accumulator. -/
theorem countJudgeVotes_fold_get (l : List JudgeEvaluation) :
    ∀ (acc : List (String × Nat)) (w : String),
      alistGet
          (l.foldl
            (fun votes e =>
              match e.selectedPositionId with
              | Option.some posId => bumpVote votes posId
              | Option.none => votes)
            acc) w =
        match alistGet acc w with
        | Option.some n => Option.some (n + votesFor l w)
        | Option.none =>
          if votesFor l w = 0 then Option.none else Option.some (votesFor l w) := by
  induction l with
  | nil =>
    intro acc w
    cases h : alistGet acc w <;> simp [votesFor, h]
  | cons e l ih =>
    intro acc w
    simp only [List.foldl_cons]
    rcases he : e.selectedPositionId with _ | p
    · have hv : votesFor (e :: l) w = votesFor l w := by
        simp [votesFor, List.filter_cons, he]
      rw [ih, hv]
    · rw [ih, alistGet_bumpVote]
      by_cases hp : p = w
      · have hsel : (e.selectedPositionId == Option.some w) = true := by
          simp [he, hp]
        have hv : votesFor (e :: l) w = votesFor l w + 1 := by
          simp [votesFor, List.filter_cons, hsel, Nat.add_comm]
        rw [if_pos hp, hv]
        cases h : alistGet acc w <;> simp [h] <;> omega
      · have hv : votesFor (e :: l) w = votesFor l w := by
          have : ¬(e.selectedPositionId == Option.some w) = true := by
            simp [he, hp]
          simp [votesFor, List.filter_cons, this]
        rw [if_neg hp, hv]

/-- The count recorded for a position is exactly its number of voters. -/
theorem alistGet_countJudgeVotes (el : List JudgeEvaluation) (w : String) :
    alistGet (countJudgeVotes el) w =
      if votesFor el w = 0 then Option.none else Option.some (votesFor el w) := by
  have h := countJudgeVotes_fold_get el [] w
  simpa [countJudgeVotes, alistGet] using h

/-- A present key resolves through `alistGet`, given distinct keys. -/
theorem alistGet_of_mem_of_nodup {α : Type} (m : List (String × α))
    (hnd : (m.map Prod.fst).Nodup) (w : String) (a : α) (hm : (w, a) ∈ m) :
    alistGet m w = Option.some a := by
  induction m with
  | nil => cases hm
  | cons kv rest ih =>
    simp only [List.map_cons, List.nodup_cons] at hnd
    rcases List.mem_cons.mp hm with h | h
    · subst h
      simp [alistGet, List.find?]
    · have hk : (kv.1 == w) = false := by
        rw [beq_eq_false_iff_ne]
        intro hkw
        exact hnd.1 (hkw ▸ List.mem_map.mpr ⟨(w, a), h, rfl⟩)
      simp only [alistGet, List.find?, hk] at ih ⊢
      exact ih hnd.2 h

/-- `bumpVote` keeps the key list unchanged when the key is present, and
appends it otherwise. -/
theorem bumpVote_keys (votes : List (String × Nat)) (p : String) :
    (bumpVote votes p).map Prod.fst =
      if p ∈ votes.map Prod.fst then votes.map Prod.fst
      else votes.map Prod.fst ++ [p] := by
  induction votes with
  | nil => simp [bumpVote]
  | cons kv rest ih =>
    simp only [bumpVote]
    by_cases hk : kv.1 = p
    · simp [hk]
    · have hne : ¬p = kv.1 := fun h => hk h.symm
      by_cases hmem : p ∈ rest.map Prod.fst <;>
        simp [hk, hne, hmem, ih]

/-- The vote fold keeps its keys distinct. -/
theorem countJudgeVotes_fold_keys_nodup (l : List JudgeEvaluation) :
    ∀ acc : List (String × Nat), (acc.map Prod.fst).Nodup →
      ((l.foldl
        (fun votes e =>
          match e.selectedPositionId with
          | Option.some posId => bumpVote votes posId
          | Option.none => votes)
        acc).map Prod.fst).Nodup := by
  induction l with
  | nil => intro acc h; simpa using h
  | cons e l ih =>
    intro acc hacc
    simp only [List.foldl_cons]
    rcases e.selectedPositionId with _ | p
    · exact ih acc hacc
    · refine ih _ ?_
      rw [bumpVote_keys]
      by_cases hmem : p ∈ acc.map Prod.fst
      · simpa [hmem] using hacc
      · simp only [hmem, if_false]
        refine List.Nodup.append hacc (List.nodup_singleton p) ?_
        intro a ha hb
        rw [List.mem_singleton] at hb
        exact hmem (hb ▸ ha)

/-- The keys of `countJudgeVotes` are distinct. -/
theorem countJudgeVotes_keys_nodup (el : List JudgeEvaluation) :
    ((countJudgeVotes el).map Prod.fst).Nodup :=
  countJudgeVotes_fold_keys_nodup el [] (by simp)

/-- The winner scan only ever reports an entry of the list (or its seed). -/
theorem scanWinner_fold_mem (entries : List (String × Nat)) :
    ∀ (acc : Option String × Nat) (w : String) (m : Nat),
      entries.foldl (fun acc kv => if kv.2 > acc.2 then (Option.some kv.1, kv.2) else acc) acc =
          (Option.some w, m) →
        (w, m) ∈ entries ∨ acc = (Option.some w, m) := by
  induction entries with
  | nil => intro acc w m h; exact Or.inr h
  | cons kv rest ih =>
    intro acc w m h
    simp only [List.foldl_cons] at h
    rcases ih _ w m h with hmem | hacc
    · exact Or.inl (List.mem_cons_of_mem _ hmem)
    · by_cases hgt : kv.2 > acc.2
      · rw [if_pos hgt, Prod.mk.injEq] at hacc
        obtain ⟨h1, h2⟩ := hacc
        have h1' : kv.1 = w := Option.some.inj h1
        left
        exact List.mem_cons.mpr (Or.inl (by obtain ⟨k1, k2⟩ := kv; simp_all))
      · rw [if_neg hgt] at hacc
        exact Or.inr hacc

/-- `scanWinner` success means the winner/count pair is one of the entries. -/
theorem scanWinner_mem (entries : List (String × Nat)) (w : String) (m : Nat)
    (h : scanWinner entries = (Option.some w, m)) : (w, m) ∈ entries := by
  rcases scanWinner_fold_mem entries (Option.none, 0) w m h with hmem | habs
  · exact hmem
  · exact absurd habs (by simp)

/-- The tie-break loop only ever reports a tied position (or its seed). -/
theorem tieBreak_fold_mem (el : List JudgeEvaluation) (tied : List (String × Nat)) :
    ∀ (acc : Option String × ℚ) (w : String),
      (tied.foldl
          (fun acc kv =>
            let avgConf := meanConfidenceFor el kv.1
            if avgConf > acc.2 then (Option.some kv.1, avgConf) else acc)
          acc).1 = Option.some w →
        (∃ c, (w, c) ∈ tied) ∨ acc.1 = Option.some w := by
  induction tied with
  | nil => intro acc w h; exact Or.inr h
  | cons kv rest ih =>
    intro acc w h
    simp only [List.foldl_cons] at h
    rcases ih _ w h with hmem | hacc
    · rcases hmem with ⟨c, hc⟩
      exact Or.inl ⟨c, List.mem_cons_of_mem _ hc⟩
    · by_cases hgt : meanConfidenceFor el kv.1 > acc.2
      · simp only [if_pos hgt] at hacc
        have h1 : kv.1 = w := Option.some.inj hacc
        exact Or.inl ⟨kv.2, List.mem_cons.mpr (Or.inl (by obtain ⟨k1, k2⟩ := kv; simp_all))⟩
      · simp only [if_neg hgt] at hacc
        exact Or.inr hacc

/-- `tieBreak` reports a tied position or the seed winner. -/
theorem tieBreak_mem (el : List JudgeEvaluation) (tied : List (String × Nat))
    (w0 : Option String) (w : String) (h : tieBreak el tied w0 = Option.some w) :
    (∃ c, (w, c) ∈ tied) ∨ w0 = Option.some w :=
  tieBreak_fold_mem el tied (w0, -1) w h

/-- Whatever winner `winnerIdOf` reports, its recorded vote count is the
scanned maximum. -/
theorem winnerIdOf_count (el : List JudgeEvaluation) (w : String)
    (h : winnerIdOf el = Option.some w) :
    (w, (winnerScanOf el).2) ∈ countJudgeVotes el := by
  have key : (w, (winnerScanOf el).2) ∈ sortedVotesOf el := by
    unfold winnerIdOf at h
    split at h
    · rcases tieBreak_mem el _ _ w h with ⟨c, hc⟩ | hseed
      · have hcc := List.of_mem_filter hc
        have : c = (winnerScanOf el).2 := by simpa using hcc
        exact this ▸ List.mem_of_mem_filter hc
      · have hscan : scanWinner (sortedVotesOf el) = (Option.some w, (winnerScanOf el).2) :=
          Prod.ext_iff.mpr ⟨hseed, rfl⟩
        exact scanWinner_mem _ _ _ hscan
    · have hscan : scanWinner (sortedVotesOf el) = (Option.some w, (winnerScanOf el).2) :=
        Prod.ext_iff.mpr ⟨h, rfl⟩
      exact scanWinner_mem _ _ _ hscan
  exact (mem_sortListStable _ _ _).mp key

/-- The scanned maximum is the winner's actual number of voters. -/
theorem winnerIdOf_votesFor (el : List JudgeEvaluation) (w : String)
    (h : winnerIdOf el = Option.some w) :
    (winnerScanOf el).2 = votesFor el w := by
  have hmem := winnerIdOf_count el w h
  have hget := alistGet_of_mem_of_nodup _ (countJudgeVotes_keys_nodup el) _ _ hmem
  rw [alistGet_countJudgeVotes] at hget
  by_cases hz : votesFor el w = 0
  · rw [if_pos hz] at hget; cases hget
  · rw [if_neg hz] at hget
    exact (Option.some.inj hget).symm

/-- When `detectJudgeConsensus` does not reach consensus yet reports a winner,
the confidence it records is 0 if the winner fell short of `requiredVotes`,
and the mean confidence of the winner's voters otherwise (the
min-confidence-failure case). -/
theorem detectJudgeConsensus_confidence_of_not_reached (evals : List JudgeEvaluation)
    (positions : List (String × String)) (thr minC : ℚ) (w : String)
    (hnr : (detectJudgeConsensus evals positions thr minC).reached = false)
    (hw : (detectJudgeConsensus evals positions thr minC).positionId = Option.some w) :
    (detectJudgeConsensus evals positions thr minC).confidence =
      if (votesFor (evals.filter judgeEligible) w : Int) <
          ⌈((evals.filter judgeEligible).length : ℚ) * thr⌉ then 0
      else meanConfidenceFor (evals.filter judgeEligible) w := by
  simp only [detectJudgeConsensus] at hnr hw ⊢
  by_cases hemp : (evals.filter judgeEligible).isEmpty = true
  · rw [if_pos hemp] at hw
    simp at hw
  · rw [if_neg hemp] at hw hnr ⊢
    cases hwin : winnerIdOf (evals.filter judgeEligible) with
    | none =>
      rw [hwin] at hw
      simp at hw
    | some w' =>
      rw [hwin] at hw hnr
      dsimp only at hw hnr ⊢
      have hvv := winnerIdOf_votesFor (evals.filter judgeEligible) w' hwin
      by_cases hlt : ((winnerScanOf (evals.filter judgeEligible)).2 : Int) <
          ⌈((evals.filter judgeEligible).length : ℚ) * thr⌉
      · rw [if_pos hlt] at hw ⊢
        simp only [Option.some.injEq] at hw
        subst hw
        rw [hvv] at hlt
        rw [if_pos (by exact_mod_cast hlt)]
      · rw [if_neg hlt] at hw hnr ⊢
        by_cases havg : meanConfidenceFor (evals.filter judgeEligible) w' < minC
        · rw [if_pos havg] at hw ⊢
          simp only [Option.some.injEq] at hw
          subst hw
          rw [hvv] at hlt
          rw [if_neg (by exact_mod_cast hlt)]
        · rw [if_neg havg] at hnr
          simp at hnr

/-- A successful transition changes only the phase and (on terminal entry)
`completedAt`. -/
theorem transitionTo_ok_fields {s : DebateSession} {p : DebatePhase} {now : String}
    {s' : DebateSession} (h : transitionTo s p now = Except.ok s') :
    s'.phase = p ∧ s'.judgeRounds = s.judgeRounds ∧ s'.agentRounds = s.agentRounds ∧
      s'.finalVerdict = s.finalVerdict := by
  unfold transitionTo at h
  split at h
  · injection h with h'
    subst h'
    simp
  · exact Except.noConfusion h

/-- From `judge_evaluation`, the deadlock transition succeeds. -/
theorem transitionTo_deadlock_of_judge (s : DebateSession) (now : String)
    (hphase : s.phase = DebatePhase.judgeEvaluation) :
    transitionTo s DebatePhase.deadlock now =
      Except.ok
        { s with
          phase := DebatePhase.deadlock
          metadata := { s.metadata with completedAt := Option.some now } } := by
  unfold transitionTo
  rw [hphase]
  simp [VALID_TRANSITIONS, isTerminalPhase]

/-- What the post-loop code of the judge phase does: enter deadlock and, when
the last judge round names a truthy winner, record the deadlock verdict built
from that round. -/
theorem judgePhaseExit_spec (positions : List (String × String)) (nowAt : Nat → String)
    (s s' : DebateSession) (hrun : judgePhaseExit positions nowAt s = Except.ok s')
    (hphase : s.phase = DebatePhase.judgeEvaluation) :
    s'.phase = DebatePhase.deadlock ∧
    s'.judgeRounds = s.judgeRounds ∧
    (∀ lr cid, s'.judgeRounds.getLast? = Option.some lr →
      lr.consensusPositionId = Option.some cid → cid ≠ "" →
      s'.finalVerdict = Option.some
        { positionId := cid
          positionText := (alistGet positions cid).getD ""
          confidence := lr.avgConfidence
          source := VerdictSource.deadlock }) := by
  unfold judgePhaseExit at hrun
  rw [transitionTo_deadlock_of_judge s _ hphase] at hrun
  simp only [bind, Except.bind] at hrun
  cases hlast : s.judgeRounds.getLast? with
  | none =>
    rw [hlast] at hrun
    dsimp only at hrun
    injection hrun with h'
    subst h'
    refine ⟨rfl, rfl, ?_⟩
    intro lr cid hl
    rw [hlast] at hl
    cases hl
  | some lastJudgeRound =>
    rw [hlast] at hrun
    dsimp only at hrun
    by_cases htr : strOptTruthy lastJudgeRound.consensusPositionId = true
    · rw [if_pos htr] at hrun
      cases hcp : lastJudgeRound.consensusPositionId with
      | none => rw [hcp] at htr; simp [strOptTruthy] at htr
      | some cid0 =>
        rw [hcp] at hrun
        dsimp only at hrun
        injection hrun with h'
        subst h'
        refine ⟨rfl, rfl, ?_⟩
        intro lr cid hl hc _
        dsimp only [setFinalVerdict] at hl
        rw [hlast] at hl
        injection hl with hl'
        subst hl'
        rw [hcp] at hc
        injection hc with hc'
        subst hc'
        rfl
    · rw [if_neg htr] at hrun
      injection hrun with h'
      subst h'
      refine ⟨rfl, rfl, ?_⟩
      intro lr cid hl hc hne
      rw [hlast] at hl
      injection hl with hl'
      subst hl'
      rw [hc] at htr
      simp [strOptTruthy, hne] at htr

/-- From `judge_evaluation`, the consensus transition succeeds. -/
theorem transitionTo_consensus_of_judge (s : DebateSession) (now : String)
    (hphase : s.phase = DebatePhase.judgeEvaluation) :
    transitionTo s DebatePhase.consensusReached now =
      Except.ok
        { s with
          phase := DebatePhase.consensusReached
          metadata := { s.metadata with completedAt := Option.some now } } := by
  unfold transitionTo
  rw [hphase]
  simp [VALID_TRANSITIONS, isTerminalPhase]

/-- The judge loop, run from `judge_evaluation` and ending in `deadlock`,
only appends rounds of the shape `judgeRoundAt`, none of which carried a
truthy consensus, and sets the deadlock verdict from the last round exactly
as `judgePhaseExit` does. -/
theorem judgePhaseLoop_deadlock_spec (cfg : DebateConfig)
    (positions : List (String × String)) (oracle : Nat → List JudgeEvaluation)
    (nowAt : Nat → String) :
    ∀ (fuel : Nat) (s s' : DebateSession),
      judgePhaseLoop cfg positions oracle nowAt fuel s = Except.ok s' →
      s.phase = DebatePhase.judgeEvaluation →
      s'.phase = DebatePhase.deadlock →
      (s.judgeRounds.length ≤ s'.judgeRounds.length ∧
       s'.judgeRounds.take s.judgeRounds.length = s.judgeRounds ∧
       (∀ i, s.judgeRounds.length ≤ i → i < s'.judgeRounds.length →
          s'.judgeRounds[i]? =
              Option.some (judgeRoundAt cfg positions oracle nowAt (i + 1)) ∧
            ¬((judgeRoundAt cfg positions oracle nowAt (i + 1)).consensusReached = true ∧
              strOptTruthy
                (judgeRoundAt cfg positions oracle nowAt (i + 1)).consensusPositionId = true)) ∧
       (∀ lr cid, s'.judgeRounds.getLast? = Option.some lr →
          lr.consensusPositionId = Option.some cid → cid ≠ "" →
          s'.finalVerdict = Option.some
            { positionId := cid
              positionText := (alistGet positions cid).getD ""
              confidence := lr.avgConfidence
              source := VerdictSource.deadlock })) := by
  intro fuel
  induction fuel with
  | zero =>
    intro s s' hrun hphase _
    obtain ⟨_, hjr, hverd⟩ := judgePhaseExit_spec positions nowAt s s' hrun hphase
    refine ⟨by rw [hjr], by rw [hjr, List.take_length], ?_, hverd⟩
    intro i h1 h2
    rw [hjr] at h2
    omega
  | succ fuel ih =>
    intro s s' hrun hphase hdl
    simp only [judgePhaseLoop] at hrun
    by_cases hguard : s.phase = DebatePhase.judgeEvaluation ∧
        s.judgeRounds.length + 1 ≤ cfg.maxJudgeRounds
    · rw [if_pos hguard] at hrun
      by_cases hcons :
          (runJudgeRound (s.judgeRounds.length + 1) positions
              (oracle (s.judgeRounds.length + 1)) cfg
              (nowAt (s.judgeRounds.length + 1))).consensusReached = true ∧
            strOptTruthy
              (runJudgeRound (s.judgeRounds.length + 1) positions
                  (oracle (s.judgeRounds.length + 1)) cfg
                  (nowAt (s.judgeRounds.length + 1))).consensusPositionId = true
      · rw [if_pos hcons] at hrun
        cases hcp :
            (runJudgeRound (s.judgeRounds.length + 1) positions
                (oracle (s.judgeRounds.length + 1)) cfg
                (nowAt (s.judgeRounds.length + 1))).consensusPositionId with
        | none =>
          rw [hcp] at hcons
          simp [strOptTruthy] at hcons
        | some cid =>
          rw [hcp] at hrun
          dsimp only at hrun
          rw [transitionTo_consensus_of_judge _ _
            (by simpa [addJudgeRound] using hphase)] at hrun
          simp only [bind, Except.bind] at hrun
          injection hrun with h'
          rw [← h'] at hdl
          simp [setFinalVerdict, addJudgeRound] at hdl
      · rw [if_neg hcons] at hrun
        have hrec :
            judgePhaseLoop cfg positions oracle nowAt fuel
              (addJudgeRound s
                (runJudgeRound (s.judgeRounds.length + 1) positions
                  (oracle (s.judgeRounds.length + 1)) cfg
                  (nowAt (s.judgeRounds.length + 1)))) = Except.ok s' := hrun
        obtain ⟨ih1, ih2, ih3, ih4⟩ :=
          ih _ s' hrec (by simpa [addJudgeRound] using hphase) hdl
        have hlen1 :
            (addJudgeRound s
              (runJudgeRound (s.judgeRounds.length + 1) positions
                (oracle (s.judgeRounds.length + 1)) cfg
                (nowAt (s.judgeRounds.length + 1)))).judgeRounds.length =
              s.judgeRounds.length + 1 := by
          simp [addJudgeRound]
        have htake1 :
            s'.judgeRounds.take (s.judgeRounds.length + 1) =
              s.judgeRounds ++
                [runJudgeRound (s.judgeRounds.length + 1) positions
                  (oracle (s.judgeRounds.length + 1)) cfg
                  (nowAt (s.judgeRounds.length + 1))] := by
          have := ih2
          rw [hlen1] at this
          simpa [addJudgeRound] using this
        refine ⟨by omega, ?_, ?_, ih4⟩
        · have hstep : s'.judgeRounds.take s.judgeRounds.length =
              (s'.judgeRounds.take (s.judgeRounds.length + 1)).take s.judgeRounds.length := by
            rw [List.take_take]
            congr 1
            omega
          rw [hstep, htake1]
          exact List.take_left _ _
        · intro i hi1 hi2
          by_cases hieq : i = s.judgeRounds.length
          · constructor
            · have hidx : s'.judgeRounds[i]? =
                  (s'.judgeRounds.take (i + 1))[i]? := by
                rw [List.getElem?_take_of_lt]
                omega
              rw [hidx, hieq, htake1]
              exact List.getElem?_concat_length _ _
            · rw [hieq]
              exact hcons
          · have hge : (addJudgeRound s
                (runJudgeRound (s.judgeRounds.length + 1) positions
                  (oracle (s.judgeRounds.length + 1)) cfg
                  (nowAt (s.judgeRounds.length + 1)))).judgeRounds.length ≤ i := by
              rw [hlen1]; omega
            exact ih3 i hge hi2
    · rw [if_neg hguard] at hrun
      obtain ⟨_, hjr, hverd⟩ := judgePhaseExit_spec positions nowAt s s' hrun hphase
      refine ⟨by rw [hjr], by rw [hjr, List.take_length], ?_, hverd⟩
      intro i h1 h2
      rw [hjr] at h2
      omega

/-- C4 (amended): when the judge phase (entered at `judge_evaluation` with no
judge rounds yet) exhausts its rounds without reaching consensus and ends in
`deadlock`, the final verdict is set from the last judge round's plurality
winner with `source = deadlock` and confidence equal to that round's recorded
`avgConfidence` — which is the mean confidence of the winner's voters only
when the winner met `requiredVotes` (failing the min-confidence floor), and
**0** when the winner's vote count fell short of `requiredVotes`. -/
theorem judge_phase_exhaustion_deadlock_verdict
    (cfg : DebateConfig) (oracle : Nat → List JudgeEvaluation) (nowAt : Nat → String)
    (s s' : DebateSession) (lr : JudgeRoundResult) (cid : String)
    (hphase : s.phase = DebatePhase.judgeEvaluation)
    (hstart : s.judgeRounds = [])
    (hrun : runJudgeEvaluationPhase cfg oracle nowAt s = Except.ok s')
    (hdl : s'.phase = DebatePhase.deadlock)
    (hlast : s'.judgeRounds.getLast? = Option.some lr)
    (hcid : lr.consensusPositionId = Option.some cid)
    (hne : cid ≠ "") :
    s'.finalVerdict = Option.some
      { positionId := cid
        positionText :=
          (alistGet (collectPositions s.agentRounds cfg.judgePositionsScope) cid).getD ""
        confidence := lr.avgConfidence
        source := VerdictSource.deadlock } ∧
    lr.consensusReached = false ∧
    lr.avgConfidence =
      (if (votesFor ((oracle s'.judgeRounds.length).filter judgeEligible) cid : Int) <
          ⌈(((oracle s'.judgeRounds.length).filter judgeEligible).length : ℚ) *
            cfg.judgeConsensusThreshold⌉ then 0
       else meanConfidenceFor ((oracle s'.judgeRounds.length).filter judgeEligible) cid) := by
  obtain ⟨h1, h2, h3, h4⟩ := judgePhaseLoop_deadlock_spec cfg
    (collectPositions s.agentRounds cfg.judgePositionsScope) oracle nowAt
    (cfg.maxJudgeRounds + 1 - s.judgeRounds.length) s s' hrun hphase hdl
  have hlen : 0 < s'.judgeRounds.length := by
    by_contra hcon
    have h0 : s'.judgeRounds = [] := List.length_eq_zero.mp (by omega)
    rw [h0] at hlast
    cases hlast
  have hlast' : s'.judgeRounds[s'.judgeRounds.length - 1]? = Option.some lr := by
    rw [← List.getLast?_eq_getElem?]
    exact hlast
  obtain ⟨hgot, hnc⟩ := h3 (s'.judgeRounds.length - 1) (by rw [hstart]; simp) (by omega)
  rw [hlast'] at hgot
  have hlr : lr =
      judgeRoundAt cfg (collectPositions s.agentRounds cfg.judgePositionsScope) oracle nowAt
        (s'.judgeRounds.length - 1 + 1) := Option.some.inj hgot
  have hn1 : s'.judgeRounds.length - 1 + 1 = s'.judgeRounds.length := by omega
  rw [hn1] at hlr hnc
  have hreach : lr.consensusReached = false := by
    rcases hb : lr.consensusReached with _ | _
    · rfl
    · exfalso
      apply hnc
      constructor
      · rw [← hlr]; exact hb
      · rw [← hlr, hcid]
        simp [strOptTruthy, hne]
  have hdet1 :
      (detectJudgeConsensus (oracle s'.judgeRounds.length)
          (collectPositions s.agentRounds cfg.judgePositionsScope)
          cfg.judgeConsensusThreshold cfg.judgeMinConfidence).reached = false := by
    have h := hreach
    rw [hlr] at h
    simpa [judgeRoundAt, runJudgeRound] using h
  have hdet2 :
      (detectJudgeConsensus (oracle s'.judgeRounds.length)
          (collectPositions s.agentRounds cfg.judgePositionsScope)
          cfg.judgeConsensusThreshold cfg.judgeMinConfidence).positionId =
        Option.some cid := by
    have h := hcid
    rw [hlr] at h
    simpa [judgeRoundAt, runJudgeRound] using h
  have hconf := detectJudgeConsensus_confidence_of_not_reached
    (oracle s'.judgeRounds.length)
    (collectPositions s.agentRounds cfg.judgePositionsScope)
    cfg.judgeConsensusThreshold cfg.judgeMinConfidence cid hdet1 hdet2
  refine ⟨h4 lr cid hlast hcid hne, hreach, ?_⟩
  rw [hlr]
  simpa [judgeRoundAt, runJudgeRound] using hconf

/-- C4, counterexample to the claim as stated: in the hard-deadlock run the
plurality winner's vote count (1 of 3, `requiredVotes = 2`) fell short, and
the recorded deadlock verdict carries confidence **0**, not the winner's
voters' mean confidence 0.9. -/
theorem judge_deadlock_confidence_counterexample :
    cxRun.toOption.map (fun st => (st.phase, st.finalVerdict)) =
      Option.some (DebatePhase.deadlock, Option.some
        { positionId := "aaaaaaaaaaaa", positionText := "", confidence := 0
          source := VerdictSource.deadlock }) ∧
    meanConfidenceFor ((cxOracle 1).filter judgeEligible) "aaaaaaaaaaaa" = 9/10 ∧
    ((0 : ℚ) ≠ 9/10) := by
  with_unfolding_all decide

/-- C4, witness: the amended theorem applied to the hard-deadlock run. -/
theorem judge_phase_exhaustion_deadlock_verdict_witness :
    cxFinal.finalVerdict = Option.some
      { positionId := "aaaaaaaaaaaa"
        positionText :=
          (alistGet
            (collectPositions (sampleSession DebatePhase.judgeEvaluation).agentRounds
              sampleConfig.judgePositionsScope) "aaaaaaaaaaaa").getD ""
        confidence := cxLastRound.avgConfidence
        source := VerdictSource.deadlock } ∧
    cxLastRound.consensusReached = false ∧
    cxLastRound.avgConfidence =
      (if (votesFor ((cxOracle cxFinal.judgeRounds.length).filter judgeEligible)
            "aaaaaaaaaaaa" : Int) <
          ⌈(((cxOracle cxFinal.judgeRounds.length).filter judgeEligible).length : ℚ) *
            sampleConfig.judgeConsensusThreshold⌉ then 0
       else meanConfidenceFor ((cxOracle cxFinal.judgeRounds.length).filter judgeEligible)
          "aaaaaaaaaaaa") :=
  judge_phase_exhaustion_deadlock_verdict sampleConfig cxOracle cxNow
    (sampleSession DebatePhase.judgeEvaluation) cxFinal cxLastRound "aaaaaaaaaaaa"
    rfl rfl (by with_unfolding_all rfl) (by with_unfolding_all decide)
    (by with_unfolding_all decide) (by with_unfolding_all decide) (by decide)

/-! ## C8 — round cardinality and local error recovery -/

/-- Whatever the call outcome, `runAgent` answers for its own agent and
round: every branch, including both failure conversions, carries
`agentId = agent.id` and the round number. -/
theorem runAgent_id_round (a : AgentConfig) (round : Nat) (cid ctext : Option String)
    (cfg : DebateConfig) (o : CallOutcome) :
    (runAgent a round cid ctext cfg o).agentId = a.id
      ∧ (runAgent a round cid ctext cfg o).round = round := by
  cases o with
  | threw msg elapsed => exact ⟨rfl, rfl⟩
  | ok content usage latency =>
    unfold runAgent
    dsimp only
    cases hp : parseJsonWithRepair content (!cfg.deterministicMode) with
    | none => exact ⟨rfl, rfl⟩
    | some parsed =>
      dsimp only
      cases hd : decAgentResponseData parsed with
      | none => exact ⟨rfl, rfl⟩
      | some data => exact ⟨rfl, rfl⟩

/-- C8: `runDebateRound` returns exactly one response per configured agent,
positionally in configuration order (each entry answering for its agent's
id and the round), and an agent whose adapter call threw contributes
`createErrorAgentResponse` (status `error`, vote `abstain`, null
`positionId`) with the observed latency — the round is never aborted. -/
theorem runDebateRound_full_cardinality (round : Nat) (cid ctext : Option String)
    (cfg : DebateConfig) (outcome : AgentConfig → CallOutcome) (now : String)
    (i : Nat) (a : AgentConfig) (ha : cfg.agents[i]? = some a)
    (msg : String) (elapsed : Nat)
    (hthrew : outcome a = CallOutcome.threw msg elapsed) :
    (runDebateRound round cid ctext cfg outcome now).responses.length = cfg.agents.length
    ∧ (∀ (k : Nat) (b : AgentConfig), cfg.agents[k]? = some b →
        ((runDebateRound round cid ctext cfg outcome now).responses[k]?).map
          (fun r => (r.agentId, r.round)) = some (b.id, round))
    ∧ (runDebateRound round cid ctext cfg outcome now).responses[i]?
        = some { createErrorAgentResponse a.id round msg with latencyMs := elapsed }
    ∧ ({ createErrorAgentResponse a.id round msg with latencyMs := elapsed }
        : AgentResponse).status = Status.error
    ∧ ({ createErrorAgentResponse a.id round msg with latencyMs := elapsed }
        : AgentResponse).vote = Vote.abstain
    ∧ ({ createErrorAgentResponse a.id round msg with latencyMs := elapsed }
        : AgentResponse).positionId = Option.none := by
  have hresp : (runDebateRound round cid ctext cfg outcome now).responses
      = cfg.agents.map (fun b => runAgent b round cid ctext cfg (outcome b)) := rfl
  refine ⟨?_, ?_, ?_, rfl, rfl, rfl⟩
  · rw [hresp, List.length_map]
  · intro k b hb
    rw [hresp, List.getElem?_map, hb, Option.map_some', Option.map_some']
    have hir := runAgent_id_round b round cid ctext cfg (outcome b)
    rw [hir.1, hir.2]
  · rw [hresp, List.getElem?_map, ha, Option.map_some', hthrew]
    rfl

/-- The cardinality theorem on the three-agent sample configuration where
`agent-2`'s call throws `ECONNRESET` after 43 ms. -/
theorem runDebateRound_full_cardinality_witness :
    sampleConfig.agents[1]? = some (sampleAgentCfg "agent-2")
      ∧ cx8Outcome (sampleAgentCfg "agent-2") = CallOutcome.threw "ECONNRESET" 43
      ∧ (runDebateRound 2 Option.none Option.none sampleConfig cx8Outcome
          "2026-02-01T10:01:00.000Z").responses.length = sampleConfig.agents.length
      ∧ (runDebateRound 2 Option.none Option.none sampleConfig cx8Outcome
          "2026-02-01T10:01:00.000Z").responses[1]?
        = some { createErrorAgentResponse "agent-2" 2 "ECONNRESET" with latencyMs := 43 } := by
  have h := runDebateRound_full_cardinality 2 Option.none Option.none sampleConfig
    cx8Outcome "2026-02-01T10:01:00.000Z" 1 (sampleAgentCfg "agent-2") rfl
    "ECONNRESET" 43 rfl
  exact ⟨rfl, rfl, h.1, h.2.2.1⟩

/-! ## C5 — JSON repair on already-valid JSON

The claim says `JSON.parse(repairJson(x))` succeeds and equals
`JSON.parse(x)` whenever the latter succeeds.  That is false of
`repairJson` itself: the single-quote rewrite corrupts the valid document
`"'a'"` (a JSON string whose content is `'a'`) into `""a""`, which no
longer parses.  What the code does guarantee is the contract one level up:
`parseJsonWithRepair` tries the raw parse first, so on every valid input
it returns exactly `JSON.parse(x)` and the repair pipeline never runs. -/

/-- C5 (amended): `parseJsonWithRepair` is semantics-preserving on valid
JSON — whenever `JSON.parse(raw)` succeeds with value `v`, it returns
`success` with exactly `v`, whether or not repair is allowed. -/
theorem parseJsonWithRepair_valid_passthrough (raw : String) (v : Json)
    (allowRepair : Bool) (h : jparse raw = some v) :
    parseJsonWithRepair raw allowRepair = some v := by
  simp [parseJsonWithRepair, h]

/-- The pass-through theorem at the concrete valid document `[0]`. -/
theorem parseJsonWithRepair_valid_passthrough_witness :
    jparse "[0]" = some (Json.arr [Json.num ⟨0, 0⟩])
      ∧ parseJsonWithRepair "[0]" true = some (Json.arr [Json.num ⟨0, 0⟩]) :=
  ⟨rfl, parseJsonWithRepair_valid_passthrough "[0]" (Json.arr [Json.num ⟨0, 0⟩]) true rfl⟩

/-- C5 counterexample to the claim as stated: `x = "'a'"` (five characters,
a valid JSON document) parses, but `repairJson x = ""a""` does not — the
single-quote-to-double-quote rewrite fires inside an already-quoted
string, so `parse(repair(x))` is not `parse(x)`. -/
theorem repairJson_corrupts_valid_json_counterexample :
    jparse (String.mk ['"', apos, 'a', apos, '"'])
        = some (Json.str (String.mk [apos, 'a', apos]))
      ∧ repairJson (String.mk ['"', apos, 'a', apos, '"'])
        = String.mk ['"', '"', 'a', '"', '"']
      ∧ jparse (repairJson (String.mk ['"', apos, 'a', apos, '"'])) = Option.none :=
  ⟨rfl, rfl, rfl⟩

/-! ## JSON codec round-trip, part 1: digits and numbers -/

/-- `natDigitsGo` at zero is empty for any fuel. -/
theorem natDigitsGo_zero (f : Nat) : natDigitsGo f 0 = [] := by
  cases f <;> simp [natDigitsGo]

/-- The character of a digit value: its code point and digit-hood. -/
theorem digitChar_spec (k : Nat) (h : k < 10) :
    (Char.ofNat (48 + k)).toNat = 48 + k ∧ isDig (Char.ofNat (48 + k)) = true := by
  interval_cases k <;> decide

/-- Every character `natDigitsGo` emits is a digit. -/
theorem natDigitsGo_digits (n : Nat) : ∀ (f : Nat), n ≤ f →
    ∀ c ∈ natDigitsGo f n, isDig c = true := by
  induction n using Nat.strongRecOn with
  | _ n ih =>
    intro f hf c hc
    match f with
    | 0 =>
      have : n = 0 := by omega
      rw [this, natDigitsGo_zero] at hc
      exact absurd hc (List.not_mem_nil c)
    | f + 1 =>
      unfold natDigitsGo at hc
      by_cases h0 : n = 0
      · simp [h0] at hc
      · rw [if_neg h0, List.mem_append] at hc
        cases hc with
        | inl h =>
          have hlt : n / 10 < n := Nat.div_lt_self (by omega) (by omega)
          exact ih (n / 10) hlt f (by omega) c h
        | inr h =>
          rw [List.mem_singleton] at h
          subst h
          exact (digitChar_spec (n % 10) (by omega)).2

/-- A positive number's digit string is non-empty and starts with a
nonzero digit. -/
theorem natDigitsGo_head (n : Nat) : ∀ (f : Nat), 0 < n → n ≤ f →
    ∃ c t, natDigitsGo f n = c :: t ∧ isDig c = true ∧ c ≠ '0' := by
  induction n using Nat.strongRecOn with
  | _ n ih =>
    intro f hn hf
    match f with
    | 0 => omega
    | f + 1 =>
      unfold natDigitsGo
      rw [if_neg (by omega)]
      by_cases h10 : n < 10
      · rw [Nat.div_eq_of_lt h10, natDigitsGo_zero, List.nil_append]
        refine ⟨Char.ofNat (48 + n % 10), [], rfl, (digitChar_spec _ (by omega)).2, ?_⟩
        intro hEq
        have htn := congrArg Char.toNat hEq
        rw [(digitChar_spec (n % 10) (by omega)).1] at htn
        have : n % 10 = n := Nat.mod_eq_of_lt h10
        simp at htn
        omega
      · have hdivpos : 0 < n / 10 := Nat.div_pos (by omega) (by omega)
        have hlt : n / 10 < n := Nat.div_lt_self (by omega) (by omega)
        obtain ⟨c, t, hgo, hd, h0⟩ := ih (n / 10) hlt f hdivpos (by omega)
        exact ⟨c, t ++ [Char.ofNat (48 + n % 10)], by rw [hgo]; rfl, hd, h0⟩

/-- Folding digit accumulation from an arbitrary seed. -/
theorem natOfDigits_acc (l : List Char) : ∀ (a : Nat),
    l.foldl (fun acc c => 10 * acc + (c.toNat - 48)) a
      = a * 10 ^ l.length + natOfDigits l := by
  induction l with
  | nil => intro a; simp [natOfDigits]
  | cons c t ih =>
    intro a
    simp only [List.foldl_cons, List.length_cons, natOfDigits] at ih ⊢
    rw [ih (10 * a + (c.toNat - 48)), ih (10 * 0 + (c.toNat - 48))]
    ring

/-- Digit values compose over append. -/
theorem natOfDigits_append (l1 l2 : List Char) :
    natOfDigits (l1 ++ l2) = natOfDigits l1 * 10 ^ l2.length + natOfDigits l2 := by
  simp only [natOfDigits, List.foldl_append]
  rw [natOfDigits_acc]
  rfl

/-- The digit string of `n` evaluates back to `n`. -/
theorem natOfDigits_go (n : Nat) : ∀ (f : Nat), n ≤ f →
    natOfDigits (natDigitsGo f n) = n := by
  induction n using Nat.strongRecOn with
  | _ n ih =>
    intro f hf
    match f with
    | 0 =>
      have : n = 0 := by omega
      rw [this, natDigitsGo_zero]
      rfl
    | f + 1 =>
      unfold natDigitsGo
      by_cases h0 : n = 0
      · rw [if_pos h0, h0]
        rfl
      · rw [if_neg h0, natOfDigits_append]
        have hlt : n / 10 < n := Nat.div_lt_self (by omega) (by omega)
        rw [ih (n / 10) hlt f (by omega)]
        have hone : natOfDigits [Char.ofNat (48 + n % 10)] = n % 10 := by
          simp [natOfDigits, (digitChar_spec (n % 10) (by omega)).1]
        rw [hone]
        simp only [List.length_singleton]
        omega

/-- `natDigits` evaluates back. -/
theorem natOfDigits_natDigits (n : Nat) : natOfDigits (natDigits n) = n := by
  unfold natDigits
  by_cases h : n = 0
  · rw [if_pos h, h]; rfl
  · rw [if_neg h]; exact natOfDigits_go n n le_rfl

/-- All characters of `natDigits` are digits. -/
theorem natDigits_digits (n : Nat) : ∀ c ∈ natDigits n, isDig c = true := by
  unfold natDigits
  by_cases h : n = 0
  · rw [if_pos h]; intro c hc; rw [List.mem_singleton] at hc; subst hc; decide
  · rw [if_neg h]; exact natDigitsGo_digits n n le_rfl

/-- `natDigits` is a digit headed by `'0'` exactly for zero. -/
theorem natDigits_head (n : Nat) :
    ∃ c t, natDigits n = c :: t ∧ isDig c = true ∧ (0 < n → c ≠ '0') := by
  unfold natDigits
  by_cases h : n = 0
  · rw [if_pos h]
    exact ⟨'0', [], rfl, by decide, fun hpos => absurd h (by omega)⟩
  · rw [if_neg h]
    obtain ⟨c, t, hgo, hd, h0⟩ := natDigitsGo_head n n (by omega) le_rfl
    exact ⟨c, t, hgo, hd, fun _ => h0⟩

/-- `padZeros` is all digits. -/
theorem padZeros_digits (k : Nat) : ∀ c ∈ padZeros k, isDig c = true := by
  intro c hc
  rw [padZeros, List.mem_replicate] at hc
  rw [hc.2]
  decide

/-- A zero-prefix does not change a digit string's value. -/
theorem natOfDigits_padZeros (k : Nat) (l : List Char) :
    natOfDigits (padZeros k ++ l) = natOfDigits l := by
  have hz : natOfDigits (padZeros k) = 0 := by
    induction k with
    | zero => rfl
    | succ k ih =>
      have : padZeros (k + 1) = '0' :: padZeros k := by
        simp [padZeros, List.replicate_succ]
      rw [this]
      have hstep : natOfDigits ('0' :: padZeros k)
          = (padZeros k).foldl (fun acc c => 10 * acc + (c.toNat - 48)) 0 := by
        simp [natOfDigits]
      rw [hstep]
      exact ih
  rw [natOfDigits_append, hz]
  simp

/-- `digitSpan` takes nothing from a non-digit head. -/
theorem digitSpan_not (c : Char) (t : List Char) (h : isDig c = false) :
    digitSpan (c :: t) = ([], c :: t) := by
  simp [digitSpan, h]

/-- `digitSpan` fixes any `numStop` remainder. -/
theorem digitSpan_numStop (cs : List Char) (h : numStop cs = true) :
    digitSpan cs = ([], cs) := by
  cases cs with
  | nil => rfl
  | cons c t =>
    simp only [numStop, Bool.not_eq_true', Bool.or_eq_false_iff] at h
    exact digitSpan_not c t h.1.1.1

/-- `digitSpan` slices a digit run off any stopped remainder. -/
theorem digitSpan_append (ds : List Char) (hds : ∀ c ∈ ds, isDig c = true)
    (rest : List Char) (hrest : digitSpan rest = ([], rest)) :
    digitSpan (ds ++ rest) = (ds, rest) := by
  induction ds with
  | nil => simpa using hrest
  | cons c t ih =>
    have hc : isDig c = true := hds c (by simp)
    have ht := ih (fun x hx => hds x (by simp [hx]))
    simp [digitSpan, hc, ht]

/-- A digit is not one of the number's structural characters. -/
theorem isDig_ne (c : Char) (h : isDig c = true) :
    c ≠ '-' ∧ c ≠ '+' ∧ c ≠ '.' ∧ c ≠ 'e' ∧ c ≠ 'E' := by
  refine ⟨?_, ?_, ?_, ?_, ?_⟩ <;> (intro hEq; subst hEq; exact absurd h (by decide))

/-- `intPart` recognizes a rendered digit string. -/
theorem intPart_render (n : Nat) (rest : List Char)
    (hrest : digitSpan rest = ([], rest)) :
    intPart (natDigits n ++ rest) = some (natDigits n, rest) := by
  obtain ⟨c, t, hnd, hdig, h0⟩ := natDigits_head n
  by_cases hn : n = 0
  · subst hn
    have : natDigits 0 = ['0'] := rfl
    rw [this, List.cons_append, List.nil_append]
    simp [intPart]
  · have hc0 : c ≠ '0' := h0 (by omega)
    have htdig : ∀ x ∈ t, isDig x = true := by
      intro x hx
      exact natDigits_digits n x (by rw [hnd]; exact List.mem_cons_of_mem c hx)
    rw [hnd, List.cons_append]
    simp [intPart, hc0, hdig, digitSpan_append t htdig rest hrest]

/-- `fracPart` on a stopped remainder. -/
theorem fracPart_stop (cs : List Char) (h : numStop cs = true) :
    fracPart cs = some ([], cs) := by
  cases cs with
  | nil => rfl
  | cons c t =>
    simp only [numStop, Bool.not_eq_true', Bool.or_eq_false_iff,
      decide_eq_false_iff_not] at h
    simp [fracPart, h.1.1.2]

/-- `expPart` on a stopped remainder. -/
theorem expPart_stop (cs : List Char) (h : numStop cs = true) :
    expPart cs = some (0, cs) := by
  cases cs with
  | nil => rfl
  | cons c t =>
    simp only [numStop, Bool.not_eq_true', Bool.or_eq_false_iff,
      decide_eq_false_iff_not] at h
    simp [expPart, h.1.2, h.2]

/-- Taking a positive count from a cons keeps the head. -/
theorem take_head {α : Type} (c : α) (t : List α) (j : Nat) (hj : 0 < j) :
    (c :: t).take j = c :: t.take (j - 1) := by
  match j, hj with
  | j + 1, _ => rw [List.take_succ_cons]; rfl

/-- `intPart` recognizes a digit run with a nonzero leading digit. -/
theorem intPart_digit_run (ds : List Char) (c : Char) (t : List Char)
    (hds : ds = c :: t) (hdig : ∀ x ∈ ds, isDig x = true) (hc0 : c ≠ '0')
    (rest : List Char) (hrest : digitSpan rest = ([], rest)) :
    intPart (ds ++ rest) = some (ds, rest) := by
  subst hds
  have hc : isDig c = true := hdig c (by simp)
  have ht : ∀ x ∈ t, isDig x = true := fun x hx => hdig x (by simp [hx])
  rw [List.cons_append]
  simp [intPart, hc0, hc, digitSpan_append t ht rest hrest]

/-- A negative number renders as a minus sign before its absolute value's
rendering. -/
theorem numRender_neg (s e : Int) (hs : s < 0) :
    numRender ⟨s, e⟩ = '-' :: numRender ⟨(s.natAbs : Int), e⟩ := by
  have h1 : ¬((s.natAbs : Int) < 0) := by omega
  have h2 : (s.natAbs : Int).natAbs = s.natAbs := by omega
  simp only [numRender, hs, if_pos, if_neg h1, h2]
  split
  · simp
  · split <;> simp

/-- The head of a non-negative number's rendering is a digit. -/
theorem numRender_head (m : Nat) (e : Int) :
    ∃ c t, numRender ⟨(m : Int), e⟩ = c :: t ∧ isDig c = true := by
  have h1 : ¬((m : Int) < 0) := by omega
  have h2 : (m : Int).natAbs = m := by omega
  simp only [numRender, if_neg h1, h2, List.nil_append]
  by_cases h0 : 0 ≤ e
  · rw [if_pos h0]
    obtain ⟨c, t, hnd, hdig, _⟩ := natDigits_head (m * 10 ^ e.toNat)
    exact ⟨c, t, hnd, hdig⟩
  · rw [if_neg h0]
    by_cases hk : (natDigits m).length ≤ (-e).toNat
    · rw [if_pos hk]
      exact ⟨'0', _, rfl, by decide⟩
    · rw [if_neg hk]
      obtain ⟨c, t, hnd, hdig, _⟩ := natDigits_head m
      have hpos : 0 < (natDigits m).length - (-e).toNat := by omega
      rw [hnd] at hpos
      rw [hnd, take_head c t _ hpos, List.cons_append]
      exact ⟨c, _, rfl, hdig⟩

/-- The number-parser chain on a rendered plain decimal of a non-negative
significand: the integer and fraction parts recombine to the significand,
the fraction is exactly `-exp10` digits long, and no exponent follows. -/
theorem numChain (m : Nat) (e : Int) (he : e ≤ 0) (rest : List Char)
    (hrest : numStop rest = true) :
    ∃ ids fds cs1,
      intPart (numRender ⟨(m : Int), e⟩ ++ rest) = some (ids, cs1)
      ∧ fracPart cs1 = some (fds, rest)
      ∧ natOfDigits (ids ++ fds) = m
      ∧ (fds.length : Int) = -e := by
  have h1 : ¬((m : Int) < 0) := by omega
  have h2 : (m : Int).natAbs = m := by omega
  have hds0 := digitSpan_numStop rest hrest
  by_cases he0 : e = 0
  · subst he0
    have hrender : numRender ⟨(m : Int), 0⟩ = natDigits m := by
      simp [numRender, h1, h2]
    refine ⟨natDigits m, [], rest, ?_, fracPart_stop rest hrest, ?_, rfl⟩
    · rw [hrender]
      exact intPart_render m rest hds0
    · rw [List.append_nil]
      exact natOfDigits_natDigits m
  · have hneg : ¬(0 ≤ e) := by omega
    have hkpos : 1 ≤ (-e).toNat := by omega
    have hkcast : ((-e).toNat : Int) = -e := Int.toNat_of_nonneg (by omega)
    by_cases hk : (natDigits m).length ≤ (-e).toNat
    · -- leading-zero form 0.00…digits
      have hrender : numRender ⟨(m : Int), e⟩
          = '0' :: '.' :: (padZeros ((-e).toNat - (natDigits m).length) ++ natDigits m) := by
        simp [numRender, h1, h2, hneg, hk]
      obtain ⟨c, t, hnd, _, _⟩ := natDigits_head m
      have hfdig : ∀ x ∈ padZeros ((-e).toNat - (natDigits m).length) ++ natDigits m,
          isDig x = true := by
        intro x hx
        rcases List.mem_append.mp hx with h | h
        · exact padZeros_digits _ x h
        · exact natDigits_digits m x h
      have hspan : digitSpan ((padZeros ((-e).toNat - (natDigits m).length)
            ++ natDigits m) ++ rest)
          = (padZeros ((-e).toNat - (natDigits m).length) ++ natDigits m, rest) :=
        digitSpan_append _ hfdig rest hds0
      refine ⟨['0'], padZeros ((-e).toNat - (natDigits m).length) ++ natDigits m,
        '.' :: ((padZeros ((-e).toNat - (natDigits m).length) ++ natDigits m) ++ rest),
        ?_, ?_, ?_, ?_⟩
      · rw [hrender]
        simp [intPart]
      · have hne : padZeros ((-e).toNat - (natDigits m).length) ++ natDigits m ≠ [] := by
          rw [hnd]
          intro hcontra
          exact absurd (List.append_eq_nil.mp hcontra).2 (by simp)
        simp only [fracPart, if_pos rfl, hspan]
        match hsh : padZeros ((-e).toNat - (natDigits m).length) ++ natDigits m with
        | [] => exact absurd hsh hne
        | x :: xs => rfl
      · rw [show (['0'] ++ (padZeros ((-e).toNat - (natDigits m).length) ++ natDigits m))
            = padZeros 1 ++ (padZeros ((-e).toNat - (natDigits m).length) ++ natDigits m)
            from rfl]
        rw [natOfDigits_padZeros, natOfDigits_padZeros]
        exact natOfDigits_natDigits m
      · rw [List.length_append, padZeros, List.length_replicate]
        omega
    · -- digits.digits form
      have hm : m ≠ 0 := by
        intro hm0
        rw [hm0] at hk
        exact hk (by simpa [natDigits] using hkpos)
      obtain ⟨c, t, hnd, hcdig, hc0⟩ := natDigits_head m
      have hlen : (natDigits m).length - (-e).toNat
          = ((natDigits m).length - (-e).toNat - 1) + 1 := by omega
      have hrender : numRender ⟨(m : Int), e⟩
          = (natDigits m).take ((natDigits m).length - (-e).toNat)
            ++ '.' :: (natDigits m).drop ((natDigits m).length - (-e).toNat) := by
        simp [numRender, h1, h2, hneg, hk]
      have htake_digits : ∀ x ∈ (natDigits m).take ((natDigits m).length - (-e).toNat),
          isDig x = true :=
        fun x hx => natDigits_digits m x (List.take_subset _ _ hx)
      have hdrop_digits : ∀ x ∈ (natDigits m).drop ((natDigits m).length - (-e).toNat),
          isDig x = true :=
        fun x hx => natDigits_digits m x (List.drop_subset _ _ hx)
      have hdroplen : ((natDigits m).drop ((natDigits m).length - (-e).toNat)).length
          = (-e).toNat := by
        rw [List.length_drop]
        omega
      have hdropne : (natDigits m).drop ((natDigits m).length - (-e).toNat) ≠ [] := by
        intro hcontra
        rw [hcontra] at hdroplen
        simp at hdroplen
        omega
      refine ⟨(natDigits m).take ((natDigits m).length - (-e).toNat),
        (natDigits m).drop ((natDigits m).length - (-e).toNat),
        '.' :: ((natDigits m).drop ((natDigits m).length - (-e).toNat) ++ rest),
        ?_, ?_, ?_, ?_⟩
      · rw [hrender, List.append_assoc]
        have hposlen : 0 < (natDigits m).length - (-e).toNat := by omega
        refine intPart_digit_run _ c (t.take ((natDigits m).length - (-e).toNat - 1)) ?_
          htake_digits (hc0 (by omega)) _ (digitSpan_not '.' _ (by decide))
        rw [hnd] at hposlen
        rw [hnd, take_head c t _ hposlen]
      · have hspan2 : digitSpan ((natDigits m).drop ((natDigits m).length - (-e).toNat)
              ++ rest)
            = ((natDigits m).drop ((natDigits m).length - (-e).toNat), rest) :=
          digitSpan_append _ hdrop_digits rest hds0
        simp only [fracPart, if_pos rfl, hspan2]
        match hsh : (natDigits m).drop ((natDigits m).length - (-e).toNat) with
        | [] => exact absurd hsh hdropne
        | x :: xs => rfl
      · rw [List.take_append_drop]
        exact natOfDigits_natDigits m
      · rw [hdroplen]
        exact hkcast

/-- `numParse` on a minus sign followed by parseable parts. -/
theorem numParse_minus_eval (r ids fds cs1 rest : List Char)
    (hint : intPart r = some (ids, cs1)) (hfrac : fracPart cs1 = some (fds, rest))
    (hexp : expPart rest = some (0, rest)) :
    numParse ('-' :: r)
      = some (⟨-(natOfDigits (ids ++ fds) : Int), 0 - (fds.length : Int)⟩, rest) := by
  simp [numParse, hint, hfrac, hexp]

/-- `numParse` on an unsigned head followed by parseable parts. -/
theorem numParse_nosign_eval (c : Char) (hc : ¬(c = '-')) (r ids fds cs1 rest : List Char)
    (hint : intPart (c :: r) = some (ids, cs1)) (hfrac : fracPart cs1 = some (fds, rest))
    (hexp : expPart rest = some (0, rest)) :
    numParse (c :: r)
      = some (⟨(natOfDigits (ids ++ fds) : Int), 0 - (fds.length : Int)⟩, rest) := by
  simp [numParse, hc, hint, hfrac, hexp]

/-- The number codec round-trip: `numParse` inverts `numRender` on plain
decimals whenever the remainder cannot extend the number. -/
theorem numParse_render (n : JsonNum) (hwf : n.exp10 ≤ 0) (rest : List Char)
    (hrest : numStop rest = true) :
    numParse (numRender n ++ rest) = some (n, rest) := by
  obtain ⟨s, e⟩ := n
  simp only at hwf
  obtain ⟨ids, fds, cs1, hint, hfrac, hval, hlen⟩ := numChain s.natAbs e hwf rest hrest
  by_cases hs : s < 0
  · rw [numRender_neg s e hs, List.cons_append,
      numParse_minus_eval _ ids fds cs1 rest hint hfrac (expPart_stop rest hrest)]
    simp only [Option.some.injEq, Prod.mk.injEq, JsonNum.mk.injEq]
    refine ⟨⟨?_, ?_⟩, trivial⟩
    · omega
    · omega
  · have hcast : ((s.natAbs : Nat) : Int) = s := by omega
    have hseq : (⟨s, e⟩ : JsonNum) = ⟨((s.natAbs : Nat) : Int), e⟩ := by rw [hcast]
    rw [hseq]
    obtain ⟨c, t, hhead, hcdig⟩ := numRender_head s.natAbs e
    rw [hhead, List.cons_append] at hint ⊢
    rw [numParse_nosign_eval c (isDig_ne c hcdig).1 _ ids fds cs1 rest hint hfrac
      (expPart_stop rest hrest)]
    simp only [Option.some.injEq, Prod.mk.injEq, JsonNum.mk.injEq]
    refine ⟨⟨?_, ?_⟩, trivial⟩
    · omega
    · omega

/-! ## JSON codec round-trip, part 2: strings -/

/-- `hexDigitVal` inverts `hexChar` on one hex digit. -/
theorem hexDigitVal_hexChar (k : Nat) (h : k < 16) :
    hexDigitVal (hexChar k) = some k := by
  interval_cases k <;> decide

/-- Parsing one escaped character undoes the escaping. -/
theorem strBody_escEncode (c : Char) (acc rest : List Char) :
    strBody acc (escEncode c ++ rest) = strBody (c :: acc) rest := by
  by_cases h1 : c = '"'
  · subst h1
    rw [show escEncode '"' = ['\\', '"'] from by decide, List.cons_append,
      List.cons_append, List.nil_append, strBody.eq_def]
    simp [escDecode]
  by_cases h2 : c = '\\'
  · subst h2
    rw [show escEncode '\\' = ['\\', '\\'] from by decide, List.cons_append,
      List.cons_append, List.nil_append, strBody.eq_def]
    simp [escDecode]
  by_cases h3 : c = Char.ofNat 8
  · subst h3
    rw [show escEncode (Char.ofNat 8) = ['\\', 'b'] from by decide, List.cons_append,
      List.cons_append, List.nil_append, strBody.eq_def]
    simp [escDecode]
  by_cases h4 : c = Char.ofNat 12
  · subst h4
    rw [show escEncode (Char.ofNat 12) = ['\\', 'f'] from by decide, List.cons_append,
      List.cons_append, List.nil_append, strBody.eq_def]
    simp [escDecode]
  by_cases h5 : c = '\n'
  · subst h5
    rw [show escEncode '\n' = ['\\', 'n'] from by decide, List.cons_append,
      List.cons_append, List.nil_append, strBody.eq_def]
    simp [escDecode]
  by_cases h6 : c = '\r'
  · subst h6
    rw [show escEncode '\r' = ['\\', 'r'] from by decide, List.cons_append,
      List.cons_append, List.nil_append, strBody.eq_def]
    simp [escDecode]
  by_cases h7 : c = '\t'
  · subst h7
    rw [show escEncode '\t' = ['\\', 't'] from by decide, List.cons_append,
      List.cons_append, List.nil_append, strBody.eq_def]
    simp [escDecode]
  by_cases h8 : c.toNat < 32
  · simp only [escEncode, h1, h2, h3, h4, h5, h6, h7, if_neg, if_pos h8,
      List.cons_append, List.nil_append]
    have hlo : c.toNat % 16 < 16 := Nat.mod_lt _ (by omega)
    have hhi : c.toNat / 16 < 16 := by omega
    have harith : ((0 * 16 + 0) * 16 + c.toNat / 16) * 16 + c.toNat % 16 = c.toNat := by
      omega
    rw [strBody.eq_def]
    simp [hexDigitVal_hexChar _ hlo, hexDigitVal_hexChar _ hhi,
      show hexDigitVal '0' = some 0 from by decide]
    rw [show c.toNat / 16 * 16 + c.toNat % 16 = c.toNat from by omega, Char.ofNat_toNat]
  · simp only [escEncode, h1, h2, h3, h4, h5, h6, h7, if_neg, if_neg h8,
      List.cons_append, List.nil_append]
    rw [strBody.eq_def]
    have h2' : c ≠ '\\' := h2
    have h1' : c ≠ '"' := h1
    simp [h1', h2', h8]

/-- Parsing a rendered string body stops exactly at the closing quote. -/
theorem strBody_bodyRender (cs : List Char) : ∀ (acc rest : List Char),
    strBody acc (strBodyRender cs ++ '"' :: rest)
      = some (String.mk (acc.reverse ++ cs), rest) := by
  induction cs with
  | nil => intro acc rest; simp [strBodyRender, strBody]
  | cons c t ih =>
    intro acc rest
    rw [strBodyRender, List.append_assoc, strBody_escEncode, ih]
    simp

/-- The string codec round-trip, quotes excluded. -/
theorem strParse_render (s : String) (rest : List Char) :
    strBody [] (strBodyRender s.data ++ '"' :: rest) = some (s, rest) := by
  rw [strBody_bodyRender]
  rfl

/-! ## JSON codec round-trip, part 3: whitespace, heads, parser steps -/

/-- `wsSkip` absorbs a whitespace prefix. -/
theorem wsSkip_ws_lead (w : List Char) (hw : ∀ c ∈ w, isJsonWs c = true)
    (x : List Char) : wsSkip (w ++ x) = wsSkip x := by
  induction w with
  | nil => rfl
  | cons c t ih =>
    rw [List.cons_append]
    have hc := hw c (by simp)
    simp only [wsSkip, hc, if_true]
    exact ih (fun d hd => hw d (by simp [hd]))

/-- `wsSkip` fixes a non-whitespace head. -/
theorem wsSkip_not_ws (c : Char) (x : List Char) (hc : isJsonWs c = false) :
    wsSkip (c :: x) = c :: x := by
  simp [wsSkip, hc]

/-- The indent run is all whitespace. -/
theorem nlPad_ws (gap : Option Nat) (d : Nat) : ∀ c ∈ nlPad gap d, isJsonWs c = true := by
  intro c hc
  cases gap with
  | none => simp [nlPad] at hc
  | some w =>
    simp only [nlPad, List.mem_cons, List.mem_replicate] at hc
    rcases hc with rfl | ⟨_, rfl⟩ <;> decide

/-- A digit heads no keyword, bracket, or whitespace. -/
theorem isDig_not_special (c : Char) (h : isDig c = true) :
    isJsonWs c = false ∧ c ≠ 'n' ∧ c ≠ 't' ∧ c ≠ 'f' ∧ c ≠ '"' ∧ c ≠ '['
      ∧ c ≠ '\x7b' ∧ c ≠ ']' ∧ c ≠ '\x7d' := by
  refine ⟨?_, ?_, ?_, ?_, ?_, ?_, ?_, ?_, ?_⟩
  · simp only [isJsonWs, Bool.or_eq_false_iff, decide_eq_false_iff_not]
    refine ⟨⟨⟨?_, ?_⟩, ?_⟩, ?_⟩ <;> (rintro rfl; exact absurd h (by decide))
  all_goals (rintro rfl; exact absurd h (by decide))

/-- Every rendered value starts with a non-whitespace character that closes
no container. -/
theorem jvalR_head (gap : Option Nat) (d : Nat) (j : Json) :
    ∃ c t, jvalR gap d j = c :: t ∧ isJsonWs c = false ∧ c ≠ ']' ∧ c ≠ '\x7d' := by
  cases j with
  | null => refine ⟨'n', _, rfl, ?_, ?_, ?_⟩ <;> decide
  | bool b =>
    cases b with
    | true => refine ⟨'t', _, rfl, ?_, ?_, ?_⟩ <;> decide
    | false => refine ⟨'f', _, rfl, ?_, ?_, ?_⟩ <;> decide
  | str s => refine ⟨'"', _, rfl, ?_, ?_, ?_⟩ <;> decide
  | arr es =>
    cases es with
    | nil => refine ⟨'[', _, rfl, ?_, ?_, ?_⟩ <;> decide
    | cons e es2 => refine ⟨'[', _, rfl, ?_, ?_, ?_⟩ <;> decide
  | obj ms =>
    cases ms with
    | nil => refine ⟨'\x7b', _, rfl, ?_, ?_, ?_⟩ <;> decide
    | cons m ms2 => refine ⟨'\x7b', _, rfl, ?_, ?_, ?_⟩ <;> decide
  | num n =>
    obtain ⟨s, e⟩ := n
    have hrv : jvalR gap d (Json.num ⟨s, e⟩) = numRender ⟨s, e⟩ := rfl
    by_cases hs : s < 0
    · rw [hrv, numRender_neg s e hs]
      refine ⟨'-', _, rfl, ?_, ?_, ?_⟩ <;> decide
    · have hcast : ((s.natAbs : Nat) : Int) = s := by omega
      obtain ⟨c, t, hh, hd⟩ := numRender_head s.natAbs e
      rw [hcast] at hh
      obtain ⟨hws, _, _, _, _, _, _, hbr, hbc⟩ := isDig_not_special c hd
      exact ⟨c, t, by rw [hrv, hh], hws, hbr, hbc⟩

/-- `wsSkip` is the identity on rendered output. -/
theorem wsSkip_jvalR (gap : Option Nat) (d : Nat) (j : Json) (x : List Char) :
    wsSkip (jvalR gap d j ++ x) = jvalR gap d j ++ x := by
  obtain ⟨c, t, hren, hws, _, _⟩ := jvalR_head gap d j
  rw [hren, List.cons_append, wsSkip_not_ws c _ hws]

/-- `numStop` from an explicit head check. -/
theorem numStop_cons (c : Char) (r : List Char)
    (h : (isDig c || c = '.' || c = 'e' || c = 'E') = false) :
    numStop (c :: r) = true := by
  simp [numStop, h]

/-- What follows a value inside an array never extends a number. -/
theorem numStop_arrTail (gap : Option Nat) (dc dp : Nat) (es : List Json)
    (r : List Char) :
    numStop (jarrR gap dc es ++ (nlPad gap dp ++ ']' :: r)) = true := by
  cases es with
  | nil =>
    cases gap with
    | none => exact numStop_cons ']' r (by decide)
    | some w => exact numStop_cons '\n' _ (by decide)
  | cons x xs => exact numStop_cons ',' _ (by decide)

/-- What follows a value inside an object never extends a number. -/
theorem numStop_objTail (gap : Option Nat) (dc dp : Nat) (ms : List (String × Json))
    (r : List Char) :
    numStop (jobjR gap dc ms ++ (nlPad gap dp ++ '\x7d' :: r)) = true := by
  cases ms with
  | nil =>
    cases gap with
    | none => exact numStop_cons '\x7d' r (by decide)
    | some w => exact numStop_cons '\n' _ (by decide)
  | cons x xs => exact numStop_cons ',' _ (by decide)

/-- One-step unfolding of `jvalP` at successor fuel (definitional). -/
theorem jvalP_step (fuel : Nat) (cs : List Char) :
    jvalP (fuel + 1) cs
      = (match wsSkip cs with
         | 'n' :: 'u' :: 'l' :: 'l' :: r => some (Json.null, r)
         | 't' :: 'r' :: 'u' :: 'e' :: r => some (Json.bool true, r)
         | 'f' :: 'a' :: 'l' :: 's' :: 'e' :: r => some (Json.bool false, r)
         | '"' :: r =>
           match strBody [] r with
           | some (s, r1) => some (Json.str s, r1)
           | none => none
         | '[' :: r =>
           match wsSkip r with
           | [] => none
           | c :: r1 =>
             if c = ']' then some (Json.arr [], r1)
             else
               match jarrP fuel (c :: r1) with
               | some (es, r2) => some (Json.arr es, r2)
               | none => none
         | '\x7b' :: r =>
           match wsSkip r with
           | [] => none
           | c :: r1 =>
             if c = '\x7d' then some (Json.obj [], r1)
             else
               match jobjP fuel (c :: r1) with
               | some (ms, r2) => some (Json.obj ms, r2)
               | none => none
         | c :: r =>
           if c = '-' ∨ isDig c then
             match numParse (c :: r) with
             | some (n, r1) => some (Json.num n, r1)
             | none => none
           else none
         | [] => none) := rfl

/-- One-step unfolding of `jarrP` at successor fuel (definitional). -/
theorem jarrP_step (fuel : Nat) (cs : List Char) :
    jarrP (fuel + 1) cs
      = (match jvalP fuel cs with
         | none => none
         | some (v, r) =>
           match wsSkip r with
           | ',' :: r1 =>
             match jarrP fuel r1 with
             | some (vs, r2) => some (v :: vs, r2)
             | none => none
           | ']' :: r1 => some ([v], r1)
           | _ => none) := rfl

/-- One-step unfolding of `jobjP` at successor fuel (definitional). -/
theorem jobjP_step (fuel : Nat) (cs : List Char) :
    jobjP (fuel + 1) cs
      = (match wsSkip cs with
         | '"' :: r =>
           match strBody [] r with
           | none => none
           | some (k, r1) =>
             match wsSkip r1 with
             | ':' :: r2 =>
               match jvalP fuel r2 with
               | none => none
               | some (v, r3) =>
                 match wsSkip r3 with
                 | ',' :: r4 =>
                   match jobjP fuel r4 with
                   | some (ms, r5) => some ((k, v) :: ms, r5)
                   | none => none
                 | '\x7d' :: r4 => some ([(k, v)], r4)
                 | _ => none
             | _ => none
         | _ => none) := rfl

/-- The value parser ignores leading whitespace. -/
theorem jvalP_ws (fuel : Nat) (w : List Char) (hw : ∀ c ∈ w, isJsonWs c = true)
    (cs : List Char) : jvalP fuel (w ++ cs) = jvalP fuel cs := by
  cases fuel with
  | zero => rfl
  | succ f => rw [jvalP_step, jvalP_step, wsSkip_ws_lead w hw cs]

/-- The array-tail parser ignores leading whitespace. -/
theorem jarrP_ws (fuel : Nat) (w : List Char) (hw : ∀ c ∈ w, isJsonWs c = true)
    (cs : List Char) : jarrP fuel (w ++ cs) = jarrP fuel cs := by
  cases fuel with
  | zero => rfl
  | succ f => rw [jarrP_step, jarrP_step, jvalP_ws f w hw cs]

/-- The object-tail parser ignores leading whitespace. -/
theorem jobjP_ws (fuel : Nat) (w : List Char) (hw : ∀ c ∈ w, isJsonWs c = true)
    (cs : List Char) : jobjP fuel (w ++ cs) = jobjP fuel cs := by
  cases fuel with
  | zero => rfl
  | succ f => rw [jobjP_step, jobjP_step, wsSkip_ws_lead w hw cs]

/-- A value whose input starts like a number parses through `numParse`. -/
theorem jvalP_to_numParse (fuel : Nat) (c : Char) (t : List Char)
    (hws : isJsonWs c = false) (hn : c ≠ 'n') (ht : c ≠ 't') (hf : c ≠ 'f')
    (hq : c ≠ '"') (hbk : c ≠ '[') (hbc : c ≠ '\x7b')
    (hg : c = '-' ∨ isDig c = true) :
    jvalP (fuel + 1) (c :: t)
      = (match numParse (c :: t) with
         | some (n, r1) => some (Json.num n, r1)
         | none => none) := by
  rw [jvalP_step, wsSkip_not_ws c t hws]
  simp [hn, ht, hf, hq, hbk, hbc, hg]

/-! ## JSON codec round-trip, part 4: the grammar -/

/-- Rendering an array head. -/
theorem jvalR_arr_cons (gap : Option Nat) (d : Nat) (e : Json) (es : List Json) :
    jvalR gap d (Json.arr (e :: es))
      = '[' :: (nlPad gap (d + 1) ++ jvalR gap (d + 1) e ++ jarrR gap (d + 1) es
        ++ nlPad gap d ++ [']']) := rfl

/-- Rendering an object head. -/
theorem jvalR_obj_cons (gap : Option Nat) (d : Nat) (m : String × Json)
    (ms : List (String × Json)) :
    jvalR gap d (Json.obj (m :: ms))
      = '\x7b' :: (nlPad gap (d + 1) ++ memberR gap (d + 1) m ++ jobjR gap (d + 1) ms
        ++ nlPad gap d ++ ['\x7d']) := rfl

/-- Rendering an empty array tail. -/
theorem jarrR_nil (gap : Option Nat) (d : Nat) : jarrR gap d ([] : List Json) = [] := rfl

/-- Rendering an empty object tail. -/
theorem jobjR_nil (gap : Option Nat) (d : Nat) :
    jobjR gap d ([] : List (String × Json)) = [] := rfl

/-- The member separator starts with its colon. -/
theorem colPad_cons (gap : Option Nat) (x : List Char) :
    colPad gap ++ x = ':' :: (colTail gap ++ x) := by
  cases gap <;> simp [colPad, colTail]

/-- Rendering an array tail. -/
theorem jarrR_cons (gap : Option Nat) (d : Nat) (e : Json) (es : List Json) :
    jarrR gap d (e :: es) = ',' :: (nlPad gap d ++ jvalR gap d e ++ jarrR gap d es) := rfl

/-- Rendering an object tail. -/
theorem jobjR_cons (gap : Option Nat) (d : Nat) (m : String × Json)
    (ms : List (String × Json)) :
    jobjR gap d (m :: ms) = ',' :: (nlPad gap d ++ memberR gap d m ++ jobjR gap d ms) := rfl

/-- Rendering one member. -/
theorem memberR_eq (gap : Option Nat) (d : Nat) (k : String) (v : Json) :
    memberR gap d (k, v) = strRender k ++ (colPad gap ++ jvalR gap d v) := rfl

/-- The post-colon spacing is all whitespace. -/
theorem colTail_ws (gap : Option Nat) : ∀ c ∈ colTail gap, isJsonWs c = true := by
  intro c hc
  cases gap with
  | none => simp [colTail] at hc
  | some w =>
    simp only [colTail, List.mem_singleton] at hc
    subst hc
    decide

mutual

/-- Round-trip of one rendered value at any depth and gap. -/
theorem rtV : ∀ (j : Json) (gap : Option Nat) (d fuel : Nat) (rest : List Char),
    jsonNumsWf j = true → (jvalR gap d j).length < fuel → numStop rest = true →
    jvalP fuel (jvalR gap d j ++ rest) = some (j, rest)
  | Json.null, gap, d, fuel, rest, _, hf, _ => by
    cases fuel with
    | zero => exact absurd hf (Nat.not_lt_zero _)
    | succ f =>
      rw [show jvalR gap d Json.null ++ rest = 'n' :: 'u' :: 'l' :: 'l' :: rest from rfl,
        jvalP_step, wsSkip_not_ws _ _ (by decide)]
      rfl
  | Json.bool true, gap, d, fuel, rest, _, hf, _ => by
    cases fuel with
    | zero => exact absurd hf (Nat.not_lt_zero _)
    | succ f =>
      rw [show jvalR gap d (Json.bool true) ++ rest = 't' :: 'r' :: 'u' :: 'e' :: rest
          from rfl,
        jvalP_step, wsSkip_not_ws _ _ (by decide)]
      rfl
  | Json.bool false, gap, d, fuel, rest, _, hf, _ => by
    cases fuel with
    | zero => exact absurd hf (Nat.not_lt_zero _)
    | succ f =>
      rw [show jvalR gap d (Json.bool false) ++ rest
            = 'f' :: 'a' :: 'l' :: 's' :: 'e' :: rest from rfl,
        jvalP_step, wsSkip_not_ws _ _ (by decide)]
      rfl
  | Json.str s, gap, d, fuel, rest, _, hf, _ => by
    cases fuel with
    | zero => exact absurd hf (Nat.not_lt_zero _)
    | succ f =>
      rw [show jvalR gap d (Json.str s) ++ rest
            = '"' :: (strBodyRender s.data ++ '"' :: rest) from by
          simp [jvalR, strRender],
        jvalP_step, wsSkip_not_ws '"' _ (by decide)]
      simp [strParse_render s rest]
  | Json.num n, gap, d, fuel, rest, hwf, hf, hr => by
    cases fuel with
    | zero => exact absurd hf (Nat.not_lt_zero _)
    | succ f =>
      have hwf' : n.exp10 ≤ 0 := by
        simpa [jsonNumsWf] using hwf
      have hrender : jvalR gap d (Json.num n) = numRender n := rfl
      rw [hrender]
      obtain ⟨s, e⟩ := n
      by_cases hs : s < 0
      · rw [numRender_neg s e hs, List.cons_append,
          jvalP_to_numParse f '-' _ (by decide) (by decide) (by decide) (by decide)
            (by decide) (by decide) (by decide) (Or.inl rfl),
          ← List.cons_append, ← numRender_neg s e hs,
          numParse_render ⟨s, e⟩ hwf' rest hr]
      · have hcast : ((s.natAbs : Nat) : Int) = s := by omega
        obtain ⟨c, t, hh, hd⟩ := numRender_head s.natAbs e
        rw [hcast] at hh
        obtain ⟨hws, hn, ht, hfc, hq, hbk, hbc, _, _⟩ := isDig_not_special c hd
        rw [hh, List.cons_append,
          jvalP_to_numParse f c _ hws hn ht hfc hq hbk hbc (Or.inr hd),
          ← List.cons_append, ← hh, numParse_render ⟨s, e⟩ hwf' rest hr]
  | Json.arr [], gap, d, fuel, rest, _, hf, _ => by
    cases fuel with
    | zero => exact absurd hf (Nat.not_lt_zero _)
    | succ f =>
      rw [show jvalR gap d (Json.arr []) ++ rest = '[' :: (']' :: rest) from rfl,
        jvalP_step, wsSkip_not_ws '[' _ (by decide)]
      simp [wsSkip_not_ws ']' rest (by decide)]
  | Json.arr (e :: es), gap, d, fuel, rest, hwf, hf, hr => by
    cases fuel with
    | zero => exact absurd hf (Nat.not_lt_zero _)
    | succ f =>
      have hwf' : jsonNumsWf e = true ∧ jsonNumsWfArr es = true := by
        simpa [jsonNumsWf, jsonNumsWfArr, Bool.and_eq_true] using hwf
      have hb : (jvalR gap (d + 1) e).length + (jarrR gap (d + 1) es).length + 1 < f := by
        rw [jvalR_arr_cons] at hf
        simp only [List.length_cons, List.length_append, List.length_singleton] at hf
        omega
      obtain ⟨c, t, hh, hws, hbr, _⟩ := jvalR_head gap (d + 1) e
      have harr := rtA e es gap (d + 1) d f rest hwf'.1 hwf'.2 hb hr
      rw [hh, List.cons_append] at harr
      rw [jvalR_arr_cons, List.cons_append, jvalP_step, wsSkip_not_ws '[' _ (by decide)]
      simp only [List.append_assoc, List.cons_append, List.singleton_append]
      simp [wsSkip_ws_lead (nlPad gap (d + 1)) (nlPad_ws gap (d + 1)), hh,
        wsSkip_not_ws c _ hws, hbr, harr]
  | Json.obj [], gap, d, fuel, rest, _, hf, _ => by
    cases fuel with
    | zero => exact absurd hf (Nat.not_lt_zero _)
    | succ f =>
      rw [show jvalR gap d (Json.obj []) ++ rest = '\x7b' :: ('\x7d' :: rest) from rfl,
        jvalP_step, wsSkip_not_ws '\x7b' _ (by decide)]
      simp [wsSkip_not_ws '\x7d' rest (by decide)]
  | Json.obj (m :: ms), gap, d, fuel, rest, hwf, hf, hr => by
    cases fuel with
    | zero => exact absurd hf (Nat.not_lt_zero _)
    | succ f =>
      have hwf' : jsonNumsWf m.2 = true ∧ jsonNumsWfObj ms = true := by
        obtain ⟨k, v⟩ := m
        simpa [jsonNumsWf, jsonNumsWfObj, Bool.and_eq_true] using hwf
      have hb : (memberR gap (d + 1) m).length + (jobjR gap (d + 1) ms).length + 1 < f := by
        rw [jvalR_obj_cons] at hf
        simp only [List.length_cons, List.length_append, List.length_singleton] at hf
        omega
      have hobj := rtO m ms gap (d + 1) d f rest hwf'.1 hwf'.2 hb hr
      have hmh : memberR gap (d + 1) m
          = '"' :: (strBodyRender m.1.data
            ++ ('"' :: (colPad gap ++ jvalR gap (d + 1) m.2))) := by
        obtain ⟨k, v⟩ := m
        simp [memberR_eq, strRender]
      rw [hmh, List.cons_append] at hobj
      simp only [List.cons_append, List.append_assoc] at hobj
      rw [jvalR_obj_cons, List.cons_append, jvalP_step, wsSkip_not_ws '\x7b' _ (by decide)]
      simp only [List.append_assoc, List.cons_append, List.singleton_append]
      simp [wsSkip_ws_lead (nlPad gap (d + 1)) (nlPad_ws gap (d + 1)), hmh,
        wsSkip_not_ws '"' _ (by decide), hobj]
termination_by j _ _ _ _ _ _ _ => sizeOf j

/-- Round-trip of a rendered non-empty array tail. -/
theorem rtA : ∀ (e : Json) (es : List Json) (gap : Option Nat) (dc dp fuel : Nat)
    (rest : List Char),
    jsonNumsWf e = true → jsonNumsWfArr es = true →
    (jvalR gap dc e).length + (jarrR gap dc es).length + 1 < fuel →
    numStop rest = true →
    jarrP fuel (jvalR gap dc e ++ (jarrR gap dc es ++ (nlPad gap dp ++ ']' :: rest)))
      = some (e :: es, rest)
  | e, es, gap, dc, dp, fuel, rest, hwe, hwes, hb, hr => by
    cases fuel with
    | zero => omega
    | succ f =>
      have hstop : numStop (jarrR gap dc es ++ (nlPad gap dp ++ ']' :: rest)) = true :=
        numStop_arrTail gap dc dp es rest
      have hv := rtV e gap dc f (jarrR gap dc es ++ (nlPad gap dp ++ ']' :: rest))
        hwe (by omega) hstop
      rw [jarrP_step, hv]
      dsimp only
      cases es with
      | nil =>
        rw [jarrR_nil, List.nil_append,
          wsSkip_ws_lead (nlPad gap dp) (nlPad_ws gap dp) (']' :: rest),
          wsSkip_not_ws ']' rest (by decide)]
        rfl
      | cons x xs =>
        have hwes' : jsonNumsWf x = true ∧ jsonNumsWfArr xs = true := by
          simpa [jsonNumsWfArr, Bool.and_eq_true] using hwes
        have hb' : (jvalR gap dc x).length + (jarrR gap dc xs).length + 1 < f := by
          rw [jarrR_cons] at hb
          simp only [List.length_cons, List.length_append] at hb
          omega
        have hrec := rtA x xs gap dc dp f rest hwes'.1 hwes'.2 hb' hr
        rw [jarrR_cons]
        rw [show (',' :: (nlPad gap dc ++ jvalR gap dc x ++ jarrR gap dc xs))
              ++ (nlPad gap dp ++ ']' :: rest)
            = ',' :: (nlPad gap dc ++ (jvalR gap dc x ++ (jarrR gap dc xs
              ++ (nlPad gap dp ++ ']' :: rest)))) from by simp [List.append_assoc],
          wsSkip_not_ws ',' _ (by decide)]
        simp [jarrP_ws f (nlPad gap dc) (nlPad_ws gap dc), hrec]
termination_by e es _ _ _ _ _ _ _ _ _ => sizeOf (e :: es)

/-- Round-trip of a rendered non-empty object tail. -/
theorem rtO : ∀ (m : String × Json) (ms : List (String × Json)) (gap : Option Nat)
    (dc dp fuel : Nat) (rest : List Char),
    jsonNumsWf m.2 = true → jsonNumsWfObj ms = true →
    (memberR gap dc m).length + (jobjR gap dc ms).length + 1 < fuel →
    numStop rest = true →
    jobjP fuel (memberR gap dc m ++ (jobjR gap dc ms ++ (nlPad gap dp ++ '\x7d' :: rest)))
      = some (m :: ms, rest)
  | (k, v), ms, gap, dc, dp, fuel, rest, hwm, hwms, hb, hr => by
    cases fuel with
    | zero => omega
    | succ f =>
      have hstop : numStop (jobjR gap dc ms ++ (nlPad gap dp ++ '\x7d' :: rest)) = true :=
        numStop_objTail gap dc dp ms rest
      have hbv : (jvalR gap dc v).length < f := by
        rw [memberR_eq] at hb
        simp only [List.length_append] at hb
        omega
      have hv := rtV v gap dc f (jobjR gap dc ms ++ (nlPad gap dp ++ '\x7d' :: rest))
        hwm hbv hstop
      rw [jobjP_step, memberR_eq]
      rw [show (strRender k ++ (colPad gap ++ jvalR gap dc v))
            ++ (jobjR gap dc ms ++ (nlPad gap dp ++ '\x7d' :: rest))
          = '"' :: (strBodyRender k.data ++ ('"' :: (colPad gap ++ (jvalR gap dc v
            ++ (jobjR gap dc ms ++ (nlPad gap dp ++ '\x7d' :: rest)))))) from by
          simp [strRender],
        wsSkip_not_ws '"' _ (by decide)]
      cases ms with
      | nil =>
        rw [jobjR_nil, List.nil_append] at hv
        simp [strParse_render, colPad_cons, wsSkip_not_ws ':' _ (by decide),
          jvalP_ws f (colTail gap) (colTail_ws gap), hv, jobjR_nil,
          wsSkip_ws_lead (nlPad gap dp) (nlPad_ws gap dp),
          wsSkip_not_ws '\x7d' rest (by decide)]
      | cons m2 ms2 =>
        have hwms' : jsonNumsWf m2.2 = true ∧ jsonNumsWfObj ms2 = true := by
          obtain ⟨k2, v2⟩ := m2
          simpa [jsonNumsWfObj, Bool.and_eq_true] using hwms
        have hb' : (memberR gap dc m2).length + (jobjR gap dc ms2).length + 1 < f := by
          rw [memberR_eq, jobjR_cons] at hb
          simp only [List.length_cons, List.length_append] at hb
          omega
        have hrec := rtO m2 ms2 gap dc dp f rest hwms'.1 hwms'.2 hb' hr
        simp only [jobjR_cons, List.cons_append, List.append_assoc] at hv
        simp [strParse_render, colPad_cons, wsSkip_not_ws ':' _ (by decide),
          jvalP_ws f (colTail gap) (colTail_ws gap), hv, jobjR_cons,
          wsSkip_not_ws ',' _ (by decide),
          jobjP_ws f (nlPad gap dc) (nlPad_ws gap dc), hrec]
termination_by m ms _ _ _ _ _ _ _ _ _ => sizeOf (m :: ms)

end

/-- The JSON codec round-trip at the document level: parsing a stringified
value (compact or indented) recovers it exactly, whenever every number in
it is a plain decimal. -/
theorem jparse_jstringify (gap : Option Nat) (j : Json) (hwf : jsonNumsWf j = true) :
    jparse (jstringify gap j) = some j := by
  have hv := rtV j gap 0 ((jvalR gap 0 j).length + 1) [] hwf (by omega) rfl
  rw [List.append_nil] at hv
  unfold jparse jstringify
  rw [show (String.mk (jvalR gap 0 j)).data = jvalR gap 0 j from rfl, hv]
  rfl

/-! # Checkpoint round-trip (C6)

First the algebra of `jGetP`, then one decode-of-encode lemma per schema,
then the round-trip of `loadCheckpoint` after `saveCheckpoint`. -/

theorem oSomeOr {α : Type} (a : α) (b : Option α) : (some a).or b = some a := rfl

theorem oNoneOr {α : Type} (b : Option α) : (Option.none).or b = b := rfl

theorem oOrNone {α : Type} (a : Option α) : a.or Option.none = a := by
  cases a <;> rfl

theorem oOrAssoc {α : Type} (a b c : Option α) :
    (a.or b).or c = a.or (b.or c) := by
  cases a <;> rfl

theorem obind_some {α β : Type} (a : α) (f : α → Option β) :
    obind (some a) f = f a := rfl

theorem jGetP_fold (ms : List (String × Json)) (k : String) (init : Option Json) :
    ms.foldl (fun acc kv => if kv.1 == k then some kv.2 else acc) init
      = (jGetP ms k).or init := by
  induction ms generalizing init with
  | nil => simp [jGetP, oNoneOr]
  | cons m ms ih =>
    rw [List.foldl_cons, ih]
    have h2 : jGetP (m :: ms) k
        = (jGetP ms k).or (if m.1 == k then some m.2 else Option.none) := by
      show (m :: ms).foldl (fun acc kv => if kv.1 == k then some kv.2 else acc)
          Option.none
        = (jGetP ms k).or (if m.1 == k then some m.2 else Option.none)
      rw [List.foldl_cons, ih]
    rw [h2]
    cases h : (m.1 == k)
    · simp [h, oOrAssoc, oOrNone]
    · simp [h, oOrAssoc, oSomeOr]

theorem jGetP_nil (k : String) : jGetP [] k = Option.none := rfl

theorem jGetP_cons (m : String × Json) (ms : List (String × Json)) (k : String) :
    jGetP (m :: ms) k
      = (jGetP ms k).or (if m.1 == k then some m.2 else Option.none) := by
  show (m :: ms).foldl (fun acc kv => if kv.1 == k then some kv.2 else acc)
      Option.none
    = (jGetP ms k).or (if m.1 == k then some m.2 else Option.none)
  rw [List.foldl_cons, jGetP_fold]

theorem jGetP_append (a b : List (String × Json)) (k : String) :
    jGetP (a ++ b) k = (jGetP b k).or (jGetP a k) := by
  show (a ++ b).foldl (fun acc kv => if kv.1 == k then some kv.2 else acc)
      Option.none
    = (jGetP b k).or (jGetP a k)
  rw [List.foldl_append, jGetP_fold]
  rfl

theorem jGetP_not_mem (ms : List (String × Json)) (k : String)
    (h : ∀ kv ∈ ms, kv.1 ≠ k) : jGetP ms k = Option.none := by
  induction ms with
  | nil => rfl
  | cons m ms ih =>
    rw [jGetP_cons, ih (fun kv hkv => h kv (List.mem_cons_of_mem m hkv))]
    have hm : (m.1 == k) = false :=
      beq_eq_false_iff_ne.mpr (h m (List.mem_cons_self m ms))
    simp [hm]

theorem jGetP_optField_self (k : String) (o : Option Json) :
    jGetP (optField k o) k = o := by
  cases o <;> simp [optField, jGetP]

theorem jGetP_optField_ne (q k : String) (o : Option Json) (h : ¬ q = k) :
    jGetP (optField q o) k = Option.none := by
  cases o <;> simp [optField, jGetP, h]

theorem jnumToRat_int (i : Int) : jnumToRat ⟨i, 0⟩ = (i : ℚ) := by
  simp [jnumToRat]

theorem ratDecimal_eq (q : ℚ) (h : ratDecimal q = true) :
    jnumToRat (ratToJnum q) = q := by
  unfold ratDecimal at h
  exact eq_of_beq h

theorem zNatRange_jNat (lo : Nat) (hi : Option Nat) (n : Nat) (hlo : lo ≤ n)
    (hhi : ∀ h, hi = some h → n ≤ h) : zNatRange lo hi (jNat n) = some n := by
  unfold zNatRange jNat
  dsimp only
  have hq : jnumToRat ⟨(n : Int), 0⟩ = (n : ℚ) := by
    rw [jnumToRat_int]
    simp
  rw [hq]
  have h1 : ((n : ℚ)).den = 1 := Rat.den_natCast n
  have h2 : ((n : ℚ)).num = (n : Int) := Rat.num_natCast n
  have h3 : ((lo : ℚ) ≤ (n : ℚ)) := by exact_mod_cast hlo
  cases hi with
  | none => simp [h1, h2, h3]
  | some h =>
    have h4 : ((n : ℚ) ≤ (h : ℚ)) := by exact_mod_cast hhi h rfl
    simp [h1, h2, h3, h4]

theorem zNatMin_jNat (lo n : Nat) (hlo : lo ≤ n) :
    zNatRange lo Option.none (jNat n) = some n :=
  zNatRange_jNat lo Option.none n hlo (fun _ hh => nomatch hh)

theorem zIntMin0_jInt (i : Int) (h : 0 ≤ i) : zIntMin0 (jInt i) = some i := by
  unfold zIntMin0 jInt
  dsimp only
  rw [jnumToRat_int]
  have h1 : ((i : ℚ)).den = 1 := Rat.den_intCast i
  have h2 : ((i : ℚ)).num = i := Rat.num_intCast i
  have h3 : (0 : ℚ) ≤ (i : ℚ) := by exact_mod_cast h
  simp [h1, h2, h3]

theorem zNumRange_jRat (lo hi q : ℚ) (h1 : lo ≤ q) (h2 : q ≤ hi)
    (hd : ratDecimal q = true) : zNumRange lo hi (jRat q) = some q := by
  unfold zNumRange jRat
  dsimp only
  rw [ratDecimal_eq q hd]
  simp [h1, h2]

theorem zStr_enc (s : String) : zStr (Json.str s) = some s := rfl

theorem zBool_enc (b : Bool) : zBool (Json.bool b) = some b := rfl

theorem zStrLen_of (lo hi : Nat) (s : String) (h1 : lo ≤ s.length)
    (h2 : s.length ≤ hi) : zStrLen lo hi (Json.str s) = some s := by
  simp [zStrLen, h1, h2]

theorem zStrExact_of (n : Nat) (s : String) (h : s.length = n) :
    zStrExact n (Json.str s) = some s := by
  simp [zStrExact, h]

theorem zStrMin_of (lo : Nat) (s : String) (h : lo ≤ s.length) :
    zStrMin lo (Json.str s) = some s := by
  simp [zStrMin, h]

theorem zLiteral_self (lit : String) : zLiteral lit (Json.str lit) = some lit := by
  simp [zLiteral]

theorem zDatetimeStr_of (s : String) (h : isZodDatetime s = true) :
    zDatetimeStr (Json.str s) = some s := by
  simp [zDatetimeStr, zStr, h]

theorem zNullable_jNullableStr (dec : Json → Option String) (o : Option String)
    (hdec : ∀ s, o = some s → dec (Json.str s) = some s) :
    zNullable dec (jNullableStr o) = some o := by
  cases o with
  | none => rfl
  | some s =>
    show zNullable dec (Json.str s) = some (some s)
    unfold zNullable
    rw [hdec s rfl]
    rfl

theorem zVote_enc (v : Vote) : zVote (Json.str (voteToStr v)) = some v := by
  cases v <;> decide

theorem zStatus_enc (st : Status) : zStatus (Json.str (statusToStr st)) = some st := by
  cases st <;> decide

theorem zPhase_enc (p : DebatePhase) : zPhase (Json.str (phaseToStr p)) = some p := by
  cases p <;> decide

theorem zProvider_enc (p : Provider) :
    zProvider (Json.str (providerToStr p)) = some p := by
  cases p <;> decide

theorem zChatTemplate_enc (t : ChatTemplate) :
    zChatTemplate (Json.str (chatTemplateToStr t)) = some t := by
  cases t <;> decide

theorem zReasoningEffort_enc (t : ReasoningEffort) :
    zReasoningEffort (Json.str (reasoningEffortToStr t)) = some t := by
  cases t <;> decide

theorem zScope_enc (s : PositionsScope) :
    zScope (Json.str (scopeToStr s)) = some s := by
  cases s <;> decide

theorem zTopology_enc (t : ContextTopology) :
    zTopology (Json.str (topologyToStr t)) = some t := by
  cases t <;> decide

theorem zList_enc {α : Type} (dec : Json → Option α) (enc : α → Json)
    (l : List α) (h : ∀ x ∈ l, dec (enc x) = some x) :
    zList dec (l.map enc) = some l := by
  induction l with
  | nil => rfl
  | cons x xs ih =>
    have h1 := h x (List.mem_cons_self x xs)
    have h2 := ih (fun y hy => h y (List.mem_cons_of_mem x hy))
    simp [zList, h1, h2]

theorem zArr_enc {α : Type} (dec : Json → Option α) (enc : α → Json)
    (lo : Nat) (hi : Option Nat) (l : List α)
    (hlo : lo ≤ l.length) (hhi : ∀ h, hi = some h → l.length ≤ h)
    (h : ∀ x ∈ l, dec (enc x) = some x) :
    zArr dec lo hi (Json.arr (l.map enc)) = some l := by
  unfold zArr
  dsimp only
  cases hi with
  | none => simp [List.length_map, hlo, zList_enc dec enc l h]
  | some hh =>
    have hle := hhi hh rfl
    simp [List.length_map, hlo, hle, zList_enc dec enc l h]

theorem word32Hex_length (w : Nat) : (word32Hex w).length = 8 := rfl

theorem hexOfState_length (l : List Nat) : (hexOfState l).length = 64 := by
  unfold hexOfState
  split
  · simp [word32Hex]
  · simp

theorem sha256_length (s : String) : (sha256 s).length = 64 :=
  hexOfState_length (sha256Words (strBytes s))

theorem hmacSha256_length (d k : String) : (hmacSha256 d k).length = 64 :=
  hexOfState_length (hmacSha256Words (strBytes k) (strBytes d))

theorem hmacSha256_ne_empty (d k : String) : ¬ hmacSha256 d k = "" := by
  intro h
  have hl := hmacSha256_length d k
  rw [h] at hl
  exact absurd hl (by decide)

theorem strOptTruthy_some_of_ne (s : String) (h : ¬ s = "") :
    strOptTruthy (some s) = true := by
  simp [strOptTruthy, h]

theorem optOk_some {α : Type} (p : α → Bool) (o : Option α) (h : optOk p o = true)
    (a : α) (ha : o = some a) : p a = true := by
  subst ha
  exact h

theorem zOpt_map_enc {α : Type} (ms : List (String × Json)) (k : String)
    (dec : Json → Option α) (f : α → Json) (o : Option α)
    (hg : jGetP ms k = o.map f) (hd : ∀ a, o = some a → dec (f a) = some a) :
    zOpt ms k dec = some o := by
  unfold zOpt
  rw [hg]
  cases o with
  | none => rfl
  | some a =>
    rw [Option.map_some']
    dsimp only
    rw [hd a rfl]
    rfl

theorem zDefault_present {α : Type} (ms : List (String × Json)) (k : String)
    (dec : Json → Option α) (dflt : α) (j : Json) (a : α)
    (hg : jGetP ms k = some j) (hd : dec j = some a) :
    zDefault ms k dec dflt = some a := by
  unfold zDefault
  rw [hg]
  exact hd

theorem zNullable_zStr_jNullableStr (o : Option String) :
    zNullable zStr (jNullableStr o) = some o :=
  zNullable_jNullableStr zStr o (fun _ _ => rfl)

theorem zNatBounds_jNat (lo hb n : Nat) (hlo : lo ≤ n) (hhi : n ≤ hb) :
    zNatRange lo (some hb) (jNat n) = some n :=
  zNatRange_jNat lo (some hb) n hlo (fun h hh => by cases hh; exact hhi)

theorem decTokenUsage_enc (t : TokenUsage) :
    decTokenUsage (tokenUsageToJson t) = some t := by
  unfold decTokenUsage tokenUsageToJson
  simp [zReq, jGetP_cons, jGetP_nil, oSomeOr, oNoneOr, oOrNone, obind_some,
    Option.bind, zNatMin_jNat, zBool_enc]

theorem decVoteTally_enc (v : VoteTally) (h : voteTallyWf v = true) :
    decVoteTally (voteTallyToJson v) = some v := by
  have hs : zIntMin0 (jInt v.supermajorityThreshold)
      = some v.supermajorityThreshold :=
    zIntMin0_jInt v.supermajorityThreshold (of_decide_eq_true h)
  unfold decVoteTally voteTallyToJson
  simp [zReq, jGetP_cons, jGetP_nil, oSomeOr, oNoneOr, oOrNone, obind_some,
    Option.bind, zNatMin_jNat, zBool_enc, hs]

theorem decFullAgentResponse_enc (r : AgentResponse)
    (h : agentResponseWf r = true) :
    decFullAgentResponse (agentResponseToJson r) = some r := by
  unfold agentResponseWf at h
  simp only [Bool.and_eq_true] at h
  obtain ⟨⟨⟨⟨⟨hid, hrnd⟩, hpid⟩, hpt⟩, hrsn⟩, hconf⟩ := h
  unfold strLenOk at hid hpt hrsn
  simp only [Bool.and_eq_true, decide_eq_true_eq] at hid hpt hrsn
  unfold confOk at hconf
  simp only [Bool.and_eq_true, decide_eq_true_eq] at hconf
  have h1 := zStrLen_of 1 64 r.agentId hid.1 hid.2
  have h2 := zNatMin_jNat 1 r.round (of_decide_eq_true hrnd)
  have h3 : zNullable (zStrExact 12) (jNullableStr r.positionId)
      = some r.positionId :=
    zNullable_jNullableStr _ _ (fun s hs =>
      zStrExact_of 12 s (of_decide_eq_true (optOk_some len12 r.positionId hpid s hs)))
  have h4 := zStrLen_of 0 4000 r.positionText hpt.1 hpt.2
  have h5 := zStrLen_of 0 8000 r.reasoning hrsn.1 hrsn.2
  have h6 := zVote_enc r.vote
  have h7 := zNumRange_jRat 0 1 r.confidence hconf.1.1 hconf.1.2 hconf.2
  have h8 := decTokenUsage_enc r.tokenUsage
  have h9 := zNatMin_jNat 0 r.latencyMs (Nat.zero_le _)
  have h10 := zStatus_enc r.status
  have h11 := zNullable_zStr_jNullableStr r.error
  unfold decFullAgentResponse agentResponseToJson
  simp [zReq, jGetP_cons, jGetP_nil, oSomeOr, oNoneOr, oOrNone, obind_some,
    Option.bind, h1, h2, h3, h4, h5, h6, h7, h8, h9, h10, h11]

theorem zScorePairs_enc (l : List (String × Nat)) (h : ∀ kv ∈ l, kv.2 ≤ 100) :
    zScorePairs (l.map (fun kv => (kv.1, jNat kv.2))) = some l := by
  induction l with
  | nil => rfl
  | cons kv l ih =>
    obtain ⟨k, v⟩ := kv
    have h1 : zNatRange 0 (some 100) (jNat v) = some v :=
      zNatBounds_jNat 0 100 v (Nat.zero_le v) (h (k, v) (List.mem_cons_self _ _))
    have h2 := ih (fun kv hkv => h kv (List.mem_cons_of_mem _ hkv))
    simp [zScorePairs, h1, h2]

theorem recDedupF_nodup (ms : List (String × Json))
    (h : (ms.map Prod.fst).Nodup) : recDedupF ms.length ms = ms := by
  induction ms with
  | nil => rfl
  | cons m ms ih =>
    obtain ⟨k, v⟩ := m
    simp only [List.map_cons, List.nodup_cons] at h
    obtain ⟨hk, hms⟩ := h
    have hget : jGetP ms k = Option.none :=
      jGetP_not_mem ms k
        (fun kv hkv hkeq => hk (hkeq ▸ List.mem_map_of_mem Prod.fst hkv))
    have hfil : ms.filter (fun kv => !(kv.1 == k)) = ms := by
      apply List.filter_eq_self.mpr
      intro kv hkv
      simp only [Bool.not_eq_true', beq_eq_false_iff_ne]
      intro hkeq
      exact hk (hkeq ▸ List.mem_map_of_mem Prod.fst hkv)
    simp only [List.length_cons, recDedupF, hget, hfil, Option.getD_none, ih hms]

theorem zRecordScores_enc (l : List (String × Nat))
    (hnd : (l.map Prod.fst).Nodup) (h : ∀ kv ∈ l, kv.2 ≤ 100) :
    zRecordScores (Json.obj (l.map (fun kv => (kv.1, jNat kv.2)))) = some l := by
  have hkeys : ∀ (l2 : List (String × Nat)),
      ((l2.map (fun kv => (kv.1, jNat kv.2))).map Prod.fst) = l2.map Prod.fst := by
    intro l2
    induction l2 with
    | nil => rfl
    | cons kv l2 ih => simp [ih]
  unfold zRecordScores
  dsimp only
  have hdd := recDedupF_nodup (l.map (fun kv => (kv.1, jNat kv.2)))
    (by rw [hkeys]; exact hnd)
  rw [hdd]
  exact zScorePairs_enc l h

theorem decRoundResult_enc (r : RoundResult) (h : roundResultWf r = true) :
    decRoundResult (roundResultToJson r) = some r := by
  unfold roundResultWf at h
  simp only [Bool.and_eq_true] at h
  obtain ⟨⟨⟨⟨⟨⟨⟨hrn, hcpi⟩, hcpt⟩, hresp⟩, hcoi⟩, hcot⟩, hvt⟩, hts⟩ := h
  have h1 := zNatMin_jNat 1 r.roundNumber (of_decide_eq_true hrn)
  have h2 : zNullable (zStrExact 12) (jNullableStr r.candidatePositionId)
      = some r.candidatePositionId :=
    zNullable_jNullableStr _ _ (fun s hs =>
      zStrExact_of 12 s (of_decide_eq_true (optOk_some len12 _ hcpi s hs)))
  have h3 : zNullable (zStrLen 0 4000) (jNullableStr r.candidatePositionText)
      = some r.candidatePositionText :=
    zNullable_jNullableStr _ _ (fun s hs => by
      have hl := optOk_some (strLenOk 0 4000) _ hcpt s hs
      unfold strLenOk at hl
      simp only [Bool.and_eq_true, decide_eq_true_eq] at hl
      exact zStrLen_of 0 4000 s hl.1 hl.2)
  have h4 : zArr decFullAgentResponse 0 Option.none
      (Json.arr (r.responses.map agentResponseToJson)) = some r.responses :=
    zArr_enc _ _ 0 Option.none r.responses (Nat.zero_le _) (fun _ hh => nomatch hh)
      (fun x hx => decFullAgentResponse_enc x ((List.all_eq_true.mp hresp) x hx))
  have h5 : zNullable (zStrExact 12) (jNullableStr r.consensusPositionId)
      = some r.consensusPositionId :=
    zNullable_jNullableStr _ _ (fun s hs =>
      zStrExact_of 12 s (of_decide_eq_true (optOk_some len12 _ hcoi s hs)))
  have h6 : zNullable (zStrLen 0 4000) (jNullableStr r.consensusPositionText)
      = some r.consensusPositionText :=
    zNullable_jNullableStr _ _ (fun s hs => by
      have hl := optOk_some (strLenOk 0 4000) _ hcot s hs
      unfold strLenOk at hl
      simp only [Bool.and_eq_true, decide_eq_true_eq] at hl
      exact zStrLen_of 0 4000 s hl.1 hl.2)
  have h7 := decVoteTally_enc r.voteTally hvt
  have h8 := zDatetimeStr_of r.timestamp hts
  unfold decRoundResult roundResultToJson
  simp [zReq, jGetP_cons, jGetP_nil, oSomeOr, oNoneOr, oOrNone, obind_some,
    Option.bind, h1, h2, h3, h4, h5, h6, h7, h8, zBool_enc]

theorem decFullJudgeEvaluation_enc (e : JudgeEvaluation)
    (h : judgeEvalWf e = true) :
    decFullJudgeEvaluation (judgeEvalToJson e) = some e := by
  unfold judgeEvalWf at h
  simp only [Bool.and_eq_true] at h
  obtain ⟨⟨⟨⟨⟨⟨hjid, hrnd⟩, hspi⟩, hsc⟩, hnd⟩, hrsn⟩, hconf⟩ := h
  unfold strLenOk at hjid hrsn
  simp only [Bool.and_eq_true, decide_eq_true_eq] at hjid hrsn
  unfold confOk at hconf
  simp only [Bool.and_eq_true, decide_eq_true_eq] at hconf
  have h1 := zStrLen_of 1 64 e.judgeId hjid.1 hjid.2
  have h2 := zNatMin_jNat 1 e.round (of_decide_eq_true hrnd)
  have h3 : zNullable (zStrExact 12) (jNullableStr e.selectedPositionId)
      = some e.selectedPositionId :=
    zNullable_jNullableStr _ _ (fun s hs =>
      zStrExact_of 12 s (of_decide_eq_true (optOk_some len12 _ hspi s hs)))
  have h4 : zRecordScores
      (Json.obj (e.scoresByPositionId.map (fun kv => (kv.1, jNat kv.2))))
      = some e.scoresByPositionId :=
    zRecordScores_enc _ (of_decide_eq_true hnd)
      (fun kv hkv => of_decide_eq_true ((List.all_eq_true.mp hsc) kv hkv))
  have h5 := zStrLen_of 0 8000 e.reasoning hrsn.1 hrsn.2
  have h6 := zNumRange_jRat 0 1 e.confidence hconf.1.1 hconf.1.2 hconf.2
  have h7 := decTokenUsage_enc e.tokenUsage
  have h8 := zNatMin_jNat 0 e.latencyMs (Nat.zero_le _)
  have h9 := zStatus_enc e.status
  have h10 := zNullable_zStr_jNullableStr e.error
  unfold decFullJudgeEvaluation judgeEvalToJson
  simp [zReq, jGetP_cons, jGetP_nil, oSomeOr, oNoneOr, oOrNone, obind_some,
    Option.bind, h1, h2, h3, h4, h5, h6, h7, h8, h9, h10]

theorem decJudgeRoundResult_enc (jr : JudgeRoundResult)
    (h : judgeRoundWf jr = true) :
    decJudgeRoundResult (judgeRoundToJson jr) = some jr := by
  unfold judgeRoundWf at h
  simp only [Bool.and_eq_true] at h
  obtain ⟨⟨⟨⟨⟨hrn, hpids⟩, hevs⟩, hcoi⟩, hconf⟩, hts⟩ := h
  unfold confOk at hconf
  simp only [Bool.and_eq_true, decide_eq_true_eq] at hconf
  have h1 := zNatMin_jNat 1 jr.roundNumber (of_decide_eq_true hrn)
  have h2 : zArr (zStrExact 12) 0 Option.none
      (Json.arr (jr.positionIds.map Json.str)) = some jr.positionIds :=
    zArr_enc _ _ 0 Option.none _ (Nat.zero_le _) (fun _ hh => nomatch hh)
      (fun s hs =>
        zStrExact_of 12 s (of_decide_eq_true ((List.all_eq_true.mp hpids) s hs)))
  have h3 : zArr decFullJudgeEvaluation 0 Option.none
      (Json.arr (jr.evaluations.map judgeEvalToJson)) = some jr.evaluations :=
    zArr_enc _ _ 0 Option.none _ (Nat.zero_le _) (fun _ hh => nomatch hh)
      (fun x hx => decFullJudgeEvaluation_enc x ((List.all_eq_true.mp hevs) x hx))
  have h4 : zNullable (zStrExact 12) (jNullableStr jr.consensusPositionId)
      = some jr.consensusPositionId :=
    zNullable_jNullableStr _ _ (fun s hs =>
      zStrExact_of 12 s (of_decide_eq_true (optOk_some len12 _ hcoi s hs)))
  have h5 := zNumRange_jRat 0 1 jr.avgConfidence hconf.1.1 hconf.1.2 hconf.2
  have h6 := zDatetimeStr_of jr.timestamp hts
  unfold decJudgeRoundResult judgeRoundToJson
  simp [zReq, jGetP_cons, jGetP_nil, oSomeOr, oNoneOr, oOrNone, obind_some,
    Option.bind, h1, h2, h3, h4, h5, h6, zBool_enc]

theorem decModelConfig_enc (m : ModelConfig) (h : modelConfigWf m = true) :
    decModelConfig (modelConfigToJson m) = some m := by
  unfold modelConfigWf at h
  simp only [Bool.and_eq_true] at h
  obtain ⟨⟨⟨hmod, hcli⟩, hcod⟩, hgem⟩ := h
  have gProv : jGetP (modelConfigMembers m) "provider"
      = some (Json.str (providerToStr m.provider)) := by
    unfold modelConfigMembers
    simp [jGetP_append, jGetP_optField_self, jGetP_optField_ne, jGetP_cons,
      jGetP_nil, oSomeOr, oNoneOr, oOrNone]
  have gMod : jGetP (modelConfigMembers m) "model" = some (Json.str m.model) := by
    unfold modelConfigMembers
    simp [jGetP_append, jGetP_optField_self, jGetP_optField_ne, jGetP_cons,
      jGetP_nil, oSomeOr, oNoneOr, oOrNone]
  have gAk : jGetP (modelConfigMembers m) "apiKeyEnv"
      = m.apiKeyEnv.map Json.str := by
    unfold modelConfigMembers
    simp [jGetP_append, jGetP_optField_self, jGetP_optField_ne, jGetP_cons,
      jGetP_nil, oSomeOr, oNoneOr, oOrNone]
  have gCp : jGetP (modelConfigMembers m) "cliPath" = m.cliPath.map Json.str := by
    unfold modelConfigMembers
    simp [jGetP_append, jGetP_optField_self, jGetP_optField_ne, jGetP_cons,
      jGetP_nil, oSomeOr, oNoneOr, oOrNone]
  have gCa : jGetP (modelConfigMembers m) "cliArgs"
      = m.cliArgs.map (fun l => Json.arr (l.map Json.str)) := by
    unfold modelConfigMembers
    simp [jGetP_append, jGetP_optField_self, jGetP_optField_ne, jGetP_cons,
      jGetP_nil, oSomeOr, oNoneOr, oOrNone]
  have gCt : jGetP (modelConfigMembers m) "chatTemplate"
      = m.chatTemplate.map (fun t => Json.str (chatTemplateToStr t)) := by
    unfold modelConfigMembers
    simp [jGetP_append, jGetP_optField_self, jGetP_optField_ne, jGetP_cons,
      jGetP_nil, oSomeOr, oNoneOr, oOrNone]
  have gRe : jGetP (modelConfigMembers m) "reasoningEffort"
      = m.reasoningEffort.map (fun t => Json.str (reasoningEffortToStr t)) := by
    unfold modelConfigMembers
    simp [jGetP_append, jGetP_optField_self, jGetP_optField_ne, jGetP_cons,
      jGetP_nil, oSomeOr, oNoneOr, oOrNone]
  have gEs : jGetP (modelConfigMembers m) "enableSearch"
      = m.enableSearch.map Json.bool := by
    unfold modelConfigMembers
    simp [jGetP_append, jGetP_optField_self, jGetP_optField_ne, jGetP_cons,
      jGetP_nil, oSomeOr, oNoneOr, oOrNone]
  have z1 : zReq (modelConfigMembers m) "provider" zProvider = some m.provider := by
    unfold zReq
    rw [gProv]
    exact zProvider_enc m.provider
  have z2 : zReq (modelConfigMembers m) "model" (zStrMin 1) = some m.model := by
    unfold zReq
    rw [gMod]
    exact zStrMin_of 1 m.model (of_decide_eq_true hmod)
  have z3 := zOpt_map_enc _ "apiKeyEnv" zStr Json.str m.apiKeyEnv gAk
    (fun _ _ => rfl)
  have z4 := zOpt_map_enc _ "cliPath" zStr Json.str m.cliPath gCp (fun _ _ => rfl)
  have z5 := zOpt_map_enc _ "cliArgs" (zArr zStr 0 Option.none)
    (fun l => Json.arr (l.map Json.str)) m.cliArgs gCa
    (fun l _ => zArr_enc zStr Json.str 0 Option.none l (Nat.zero_le _)
      (fun _ hh => nomatch hh) (fun _ _ => rfl))
  have z6 := zOpt_map_enc _ "chatTemplate" zChatTemplate
    (fun t => Json.str (chatTemplateToStr t)) m.chatTemplate gCt
    (fun t _ => zChatTemplate_enc t)
  have z7 := zOpt_map_enc _ "reasoningEffort" zReasoningEffort
    (fun t => Json.str (reasoningEffortToStr t)) m.reasoningEffort gRe
    (fun t _ => zReasoningEffort_enc t)
  have z8 := zOpt_map_enc _ "enableSearch" zBool Json.bool m.enableSearch gEs
    (fun _ _ => rfl)
  have hn : ¬ ((m.provider = Provider.cli
        ∧ ¬ (strOptTruthy m.cliPath ∧ m.chatTemplate.isSome = true))
      ∨ (m.provider = Provider.codex ∧ ¬ strOptTruthy m.cliPath)
      ∨ (m.provider = Provider.geminiCli ∧ ¬ strOptTruthy m.cliPath)) := by
    rintro (⟨hp, hnc⟩ | ⟨hp, hnc⟩ | ⟨hp, hnc⟩)
    · rw [hp] at hcli
      simp only [beq_self_eq_true, Bool.not_true, Bool.false_or,
        Bool.and_eq_true] at hcli
      exact hnc ⟨hcli.1, hcli.2⟩
    · rw [hp] at hcod
      simp only [beq_self_eq_true, Bool.not_true, Bool.false_or] at hcod
      exact hnc hcod
    · rw [hp] at hgem
      simp only [beq_self_eq_true, Bool.not_true, Bool.false_or] at hgem
      exact hnc hgem
  show decModelConfig (Json.obj (modelConfigMembers m)) = some m
  unfold decModelConfig
  dsimp only
  simp only [z1, z2, z3, z4, z5, z6, z7, z8, obind_some]
  rw [if_neg hn]

theorem decAgentConfig_enc (a : AgentConfig) (h : agentConfigWf a = true) :
    decAgentConfig (agentConfigToJson a) = some a := by
  unfold agentConfigWf at h
  simp only [Bool.and_eq_true] at h
  obtain ⟨⟨⟨hid, hmc⟩, hsp⟩, htp⟩ := h
  unfold strLenOk at hid
  simp only [Bool.and_eq_true, decide_eq_true_eq] at hid
  have gid : jGetP (agentConfigMembers a) "id" = some (Json.str a.id) := by
    unfold agentConfigMembers
    simp [jGetP_append, jGetP_optField_self, jGetP_optField_ne, jGetP_cons,
      jGetP_nil, oSomeOr, oNoneOr, oOrNone]
  have gmodel : jGetP (agentConfigMembers a) "model"
      = some (modelConfigToJson a.model) := by
    unfold agentConfigMembers
    simp [jGetP_append, jGetP_optField_self, jGetP_optField_ne, jGetP_cons,
      jGetP_nil, oSomeOr, oNoneOr, oOrNone]
  have gsp : jGetP (agentConfigMembers a) "systemPrompt"
      = a.systemPrompt.map Json.str := by
    unfold agentConfigMembers
    simp [jGetP_append, jGetP_optField_self, jGetP_optField_ne, jGetP_cons,
      jGetP_nil, oSomeOr, oNoneOr, oOrNone]
  have gtp : jGetP (agentConfigMembers a) "temperature"
      = a.temperature.map jRat := by
    unfold agentConfigMembers
    simp [jGetP_append, jGetP_optField_self, jGetP_optField_ne, jGetP_cons,
      jGetP_nil, oSomeOr, oNoneOr, oOrNone]
  have z1 : zReq (agentConfigMembers a) "id" (zStrLen 1 64) = some a.id := by
    unfold zReq
    rw [gid]
    exact zStrLen_of 1 64 a.id hid.1 hid.2
  have z2 : zReq (agentConfigMembers a) "model" decModelConfig = some a.model := by
    unfold zReq
    rw [gmodel]
    exact decModelConfig_enc a.model hmc
  have z3 := zOpt_map_enc _ "systemPrompt" (zStrLen 0 4000) Json.str
    a.systemPrompt gsp
    (fun s hs => by
      have hl := optOk_some (strLenOk 0 4000) _ hsp s hs
      unfold strLenOk at hl
      simp only [Bool.and_eq_true, decide_eq_true_eq] at hl
      exact zStrLen_of 0 4000 s hl.1 hl.2)
  have z4 := zOpt_map_enc _ "temperature" (zNumRange 0 2) jRat a.temperature gtp
    (fun q hq => by
      have hl := optOk_some tempOk _ htp q hq
      unfold tempOk at hl
      simp only [Bool.and_eq_true, decide_eq_true_eq] at hl
      exact zNumRange_jRat 0 2 q hl.1.1 hl.1.2 hl.2)
  show decAgentConfig (Json.obj (agentConfigMembers a)) = some a
  unfold decAgentConfig
  dsimp only
  simp [z1, z2, z3, z4, obind_some]

theorem decTimeoutConfig_enc (t : TimeoutConfig) (h : timeoutConfigWf t = true) :
    decTimeoutConfig (timeoutConfigToJson t) = some t := by
  unfold timeoutConfigWf at h
  simp only [Bool.and_eq_true, decide_eq_true_eq] at h
  obtain ⟨⟨⟨⟨⟨h1, h2⟩, h3⟩, h4⟩, h5⟩, h6⟩ := h
  unfold decTimeoutConfig timeoutConfigToJson
  simp [zDefault, jGetP_cons, jGetP_nil, oSomeOr, oNoneOr, oOrNone, obind_some,
    zNatBounds_jNat 1000 600000 t.modelMs h1 h2,
    zNatBounds_jNat 10000 1800000 t.roundMs h3 h4,
    zNatBounds_jNat 60000 7200000 t.sessionMs h5 h6]

theorem decRetryConfig_enc (r : RetryConfig) (h : retryConfigWf r = true) :
    decRetryConfig (retryConfigToJson r) = some r := by
  unfold retryConfigWf at h
  simp only [Bool.and_eq_true, decide_eq_true_eq] at h
  obtain ⟨⟨⟨⟨h1, h2⟩, h3⟩, h4⟩, h5⟩ := h
  unfold decRetryConfig retryConfigToJson
  simp [zDefault, jGetP_cons, jGetP_nil, oSomeOr, oNoneOr, oOrNone, obind_some,
    zNatBounds_jNat 0 5 r.maxAttempts (Nat.zero_le _) h1,
    zNatBounds_jNat 100 10000 r.baseDelayMs h2 h3,
    zNatBounds_jNat 1000 60000 r.maxDelayMs h4 h5]

theorem decConcurrencyConfig_enc (c : ConcurrencyConfig)
    (h : concurrencyConfigWf c = true) :
    decConcurrencyConfig (concurrencyConfigToJson c) = some c := by
  unfold concurrencyConfigWf at h
  simp only [Bool.and_eq_true, decide_eq_true_eq] at h
  obtain ⟨h1, h2⟩ := h
  unfold decConcurrencyConfig concurrencyConfigToJson
  simp [zDefault, jGetP_cons, jGetP_nil, oSomeOr, oNoneOr, oOrNone, obind_some,
    zNatBounds_jNat 1 20 c.maxConcurrentRequests h1 h2]

theorem decLimitConfig_enc (l : LimitConfig) (h : limitConfigWf l = true) :
    decLimitConfig (limitConfigToJson l) = some l := by
  unfold limitConfigWf at h
  simp only [Bool.and_eq_true, decide_eq_true_eq] at h
  obtain ⟨⟨⟨⟨⟨⟨h1, h2⟩, h3⟩, h4⟩, hc⟩, h5⟩, h6⟩ := h
  unfold costOk at hc
  simp only [Bool.and_eq_true, decide_eq_true_eq] at hc
  have hcost := zNumRange_jRat (1 / 100) 1000 l.maxTotalCostUsd hc.1.1 hc.1.2 hc.2
  rw [one_div] at hcost
  unfold decLimitConfig limitConfigToJson
  simp [zDefault, jGetP_cons, jGetP_nil, oSomeOr, oNoneOr, oOrNone, obind_some,
    zNatBounds_jNat 256 16384 l.maxTokensPerResponse h1 h2,
    zNatBounds_jNat 1000 1000000 l.maxTotalTokens h3 h4, hcost,
    zNatBounds_jNat 1000 128000 l.maxContextTokens h5 h6]

theorem decDebateConfig_enc (c : DebateConfig) (h : debateConfigWf c = true) :
    decDebateConfig (debateConfigToJson c) = some c := by
  unfold debateConfigWf at h
  simp only [Bool.and_eq_true, decide_eq_true_eq] at h
  obtain ⟨⟨⟨⟨⟨⟨⟨⟨⟨⟨⟨⟨⟨⟨⟨⟨⟨⟨h1, h2⟩, h3⟩, h4⟩, h5⟩, h6⟩, h7⟩, h8⟩, h9⟩, h10⟩,
    h11⟩, h12⟩, h13⟩, h14⟩, h15⟩, h16⟩, h17⟩, h18⟩, h19⟩ := h
  unfold strLenOk at h1
  simp only [Bool.and_eq_true, decide_eq_true_eq] at h1
  unfold thresholdOk at h12 h13
  simp only [Bool.and_eq_true, decide_eq_true_eq] at h12 h13
  unfold confOk at h14
  simp only [Bool.and_eq_true, decide_eq_true_eq] at h14
  have gtopic : jGetP (debateConfigMembers c) "topic" = some (Json.str c.topic) := by
    unfold debateConfigMembers
    simp [jGetP_append, jGetP_optField_self, jGetP_optField_ne, jGetP_cons,
      jGetP_nil, oSomeOr, oNoneOr, oOrNone]
  have giq : jGetP (debateConfigMembers c) "initialQuery"
      = c.initialQuery.map Json.str := by
    unfold debateConfigMembers
    simp [jGetP_append, jGetP_optField_self, jGetP_optField_ne, jGetP_cons,
      jGetP_nil, oSomeOr, oNoneOr, oOrNone]
  have gag : jGetP (debateConfigMembers c) "agents"
      = some (Json.arr (c.agents.map agentConfigToJson)) := by
    unfold debateConfigMembers
    simp [jGetP_append, jGetP_optField_self, jGetP_optField_ne, jGetP_cons,
      jGetP_nil, oSomeOr, oNoneOr, oOrNone]
  have gjd : jGetP (debateConfigMembers c) "judges"
      = some (Json.arr (c.judges.map agentConfigToJson)) := by
    unfold debateConfigMembers
    simp [jGetP_append, jGetP_optField_self, jGetP_optField_ne, jGetP_cons,
      jGetP_nil, oSomeOr, oNoneOr, oOrNone]
  have gjpe : jGetP (debateConfigMembers c) "judgePanelEnabled"
      = some (Json.bool c.judgePanelEnabled) := by
    unfold debateConfigMembers
    simp [jGetP_append, jGetP_optField_self, jGetP_optField_ne, jGetP_cons,
      jGetP_nil, oSomeOr, oNoneOr, oOrNone]
  have gmar : jGetP (debateConfigMembers c) "maxAgentRounds"
      = some (jNat c.maxAgentRounds) := by
    unfold debateConfigMembers
    simp [jGetP_append, jGetP_optField_self, jGetP_optField_ne, jGetP_cons,
      jGetP_nil, oSomeOr, oNoneOr, oOrNone]
  have gmjr : jGetP (debateConfigMembers c) "maxJudgeRounds"
      = some (jNat c.maxJudgeRounds) := by
    unfold debateConfigMembers
    simp [jGetP_append, jGetP_optField_self, jGetP_optField_ne, jGetP_cons,
      jGetP_nil, oSomeOr, oNoneOr, oOrNone]
  have gct : jGetP (debateConfigMembers c) "consensusThreshold"
      = some (jRat c.consensusThreshold) := by
    unfold debateConfigMembers
    simp [jGetP_append, jGetP_optField_self, jGetP_optField_ne, jGetP_cons,
      jGetP_nil, oSomeOr, oNoneOr, oOrNone]
  have gjct : jGetP (debateConfigMembers c) "judgeConsensusThreshold"
      = some (jRat c.judgeConsensusThreshold) := by
    unfold debateConfigMembers
    simp [jGetP_append, jGetP_optField_self, jGetP_optField_ne, jGetP_cons,
      jGetP_nil, oSomeOr, oNoneOr, oOrNone]
  have gjmc : jGetP (debateConfigMembers c) "judgeMinConfidence"
      = some (jRat c.judgeMinConfidence) := by
    unfold debateConfigMembers
    simp [jGetP_append, jGetP_optField_self, jGetP_optField_ne, jGetP_cons,
      jGetP_nil, oSomeOr, oNoneOr, oOrNone]
  have gsc : jGetP (debateConfigMembers c) "judgePositionsScope"
      = some (Json.str (scopeToStr c.judgePositionsScope)) := by
    unfold debateConfigMembers
    simp [jGetP_append, jGetP_optField_self, jGetP_optField_ne, jGetP_cons,
      jGetP_nil, oSomeOr, oNoneOr, oOrNone]
  have gtp : jGetP (debateConfigMembers c) "contextTopology"
      = some (Json.str (topologyToStr c.contextTopology)) := by
    unfold debateConfigMembers
    simp [jGetP_append, jGetP_optField_self, jGetP_optField_ne, jGetP_cons,
      jGetP_nil, oSomeOr, oNoneOr, oOrNone]
  have gcd : jGetP (debateConfigMembers c) "checkpointDir"
      = some (jNullableStr c.checkpointDir) := by
    unfold debateConfigMembers
    simp [jGetP_append, jGetP_optField_self, jGetP_optField_ne, jGetP_cons,
      jGetP_nil, oSomeOr, oNoneOr, oOrNone]
  have gtim : jGetP (debateConfigMembers c) "timeouts"
      = some (timeoutConfigToJson c.timeouts) := by
    unfold debateConfigMembers
    simp [jGetP_append, jGetP_optField_self, jGetP_optField_ne, jGetP_cons,
      jGetP_nil, oSomeOr, oNoneOr, oOrNone]
  have gret : jGetP (debateConfigMembers c) "retries"
      = some (retryConfigToJson c.retries) := by
    unfold debateConfigMembers
    simp [jGetP_append, jGetP_optField_self, jGetP_optField_ne, jGetP_cons,
      jGetP_nil, oSomeOr, oNoneOr, oOrNone]
  have gcon : jGetP (debateConfigMembers c) "concurrency"
      = some (concurrencyConfigToJson c.concurrency) := by
    unfold debateConfigMembers
    simp [jGetP_append, jGetP_optField_self, jGetP_optField_ne, jGetP_cons,
      jGetP_nil, oSomeOr, oNoneOr, oOrNone]
  have glim : jGetP (debateConfigMembers c) "limits"
      = some (limitConfigToJson c.limits) := by
    unfold debateConfigMembers
    simp [jGetP_append, jGetP_optField_self, jGetP_optField_ne, jGetP_cons,
      jGetP_nil, oSomeOr, oNoneOr, oOrNone]
  have gdm : jGetP (debateConfigMembers c) "deterministicMode"
      = some (Json.bool c.deterministicMode) := by
    unfold debateConfigMembers
    simp [jGetP_append, jGetP_optField_self, jGetP_optField_ne, jGetP_cons,
      jGetP_nil, oSomeOr, oNoneOr, oOrNone]
  have gaep : jGetP (debateConfigMembers c) "allowExternalPaths"
      = some (Json.bool c.allowExternalPaths) := by
    unfold debateConfigMembers
    simp [jGetP_append, jGetP_optField_self, jGetP_optField_ne, jGetP_cons,
      jGetP_nil, oSomeOr, oNoneOr, oOrNone]
  have z1 : zReq (debateConfigMembers c) "topic" (zStrLen 1 1000) = some c.topic := by
    unfold zReq
    rw [gtopic]
    exact zStrLen_of 1 1000 c.topic h1.1 h1.2
  have z2 := zOpt_map_enc _ "initialQuery" (zStrLen 0 2000) Json.str
    c.initialQuery giq
    (fun s hs => by
      have hl := optOk_some (strLenOk 0 2000) _ h2 s hs
      unfold strLenOk at hl
      simp only [Bool.and_eq_true, decide_eq_true_eq] at hl
      exact zStrLen_of 0 2000 s hl.1 hl.2)
  have z3 : zReq (debateConfigMembers c) "agents" (zArr decAgentConfig 2 (some 10))
      = some c.agents := by
    unfold zReq
    rw [gag]
    exact zArr_enc _ _ 2 (some 10) c.agents h3 (fun hh heq => by cases heq; exact h4)
      (fun x hx => decAgentConfig_enc x ((List.all_eq_true.mp h5) x hx))
  have z4 : zReq (debateConfigMembers c) "judges" (zArr decAgentConfig 0 (some 15))
      = some c.judges := by
    unfold zReq
    rw [gjd]
    exact zArr_enc _ _ 0 (some 15) c.judges (Nat.zero_le _)
      (fun hh heq => by cases heq; exact h6)
      (fun x hx => decAgentConfig_enc x ((List.all_eq_true.mp h7) x hx))
  have z5 := zDefault_present _ "judgePanelEnabled" zBool true _
    c.judgePanelEnabled gjpe rfl
  have z6 := zDefault_present _ "maxAgentRounds" (zNatRange 1 (some 10)) 4 _
    c.maxAgentRounds gmar (zNatBounds_jNat 1 10 c.maxAgentRounds h8 h9)
  have z7 := zDefault_present _ "maxJudgeRounds" (zNatRange 1 (some 5)) 3 _
    c.maxJudgeRounds gmjr (zNatBounds_jNat 1 5 c.maxJudgeRounds h10 h11)
  have z8 := zDefault_present _ "consensusThreshold" (zNumRange (1 / 2) 1)
    (67 / 100) _ c.consensusThreshold gct
    (zNumRange_jRat (1 / 2) 1 c.consensusThreshold h12.1.1 h12.1.2 h12.2)
  have z9 := zDefault_present _ "judgeConsensusThreshold" (zNumRange (1 / 2) 1)
    (3 / 5) _ c.judgeConsensusThreshold gjct
    (zNumRange_jRat (1 / 2) 1 c.judgeConsensusThreshold h13.1.1 h13.1.2 h13.2)
  have z10 := zDefault_present _ "judgeMinConfidence" (zNumRange 0 1) (7 / 10) _
    c.judgeMinConfidence gjmc
    (zNumRange_jRat 0 1 c.judgeMinConfidence h14.1.1 h14.1.2 h14.2)
  have z11 := zDefault_present _ "judgePositionsScope" zScope
    PositionsScope.allRounds _ c.judgePositionsScope gsc
    (zScope_enc c.judgePositionsScope)
  have z12 := zDefault_present _ "contextTopology" zTopology
    ContextTopology.lastRoundWithSelf _ c.contextTopology gtp
    (zTopology_enc c.contextTopology)
  have z13 := zDefault_present _ "checkpointDir" (zNullable zStr) Option.none _
    c.checkpointDir gcd (zNullable_zStr_jNullableStr c.checkpointDir)
  have z14 := zDefault_present _ "timeouts" decTimeoutConfig
    ⟨120000, 300000, 1200000⟩ _ c.timeouts gtim (decTimeoutConfig_enc c.timeouts h15)
  have z15 := zDefault_present _ "retries" decRetryConfig ⟨2, 1000, 8000⟩ _
    c.retries gret (decRetryConfig_enc c.retries h16)
  have z16 := zDefault_present _ "concurrency" decConcurrencyConfig ⟨4⟩ _
    c.concurrency gcon (decConcurrencyConfig_enc c.concurrency h17)
  have z17 := zDefault_present _ "limits" decLimitConfig ⟨2048, 200000, 25, 12000⟩ _
    c.limits glim (decLimitConfig_enc c.limits h18)
  have z18 := zDefault_present _ "deterministicMode" zBool false _
    c.deterministicMode gdm rfl
  have z19 := zDefault_present _ "allowExternalPaths" zBool false _
    c.allowExternalPaths gaep rfl
  have hn : ¬ (c.judgePanelEnabled = true ∧ c.judges.length < 3) := by
    rintro ⟨hp, hlt⟩
    rw [hp] at h19
    simp only [Bool.not_true, Bool.false_or, decide_eq_true_eq] at h19
    omega
  show decDebateConfig (Json.obj (debateConfigMembers c)) = some c
  unfold decDebateConfig
  dsimp only
  simp only [z1, z2, z3, z4, z5, z6, z7, z8, z9, z10, z11, z12, z13, z14, z15,
    z16, z17, z18, z19, obind_some]
  rw [if_neg hn]

theorem decIntegrity_enc (sh : String) (hm : Option String) (hsh : sh.length = 64)
    (hhm : optOk (fun s => decide (s.length = 64)) hm = true) :
    decIntegrity (Json.obj [("sha256", Json.str sh), ("hmac", jNullableStr hm)])
      = some ⟨sh, hm⟩ := by
  have h1 := zStrExact_of 64 sh hsh
  have h2 : zNullable (zStrExact 64) (jNullableStr hm) = some hm :=
    zNullable_jNullableStr _ _ (fun s hs =>
      zStrExact_of 64 s (of_decide_eq_true (optOk_some _ hm hhm s hs)))
  unfold decIntegrity
  simp [zReq, jGetP_cons, jGetP_nil, oSomeOr, oNoneOr, oOrNone, obind_some,
    Option.bind, h1, h2]

theorem decCheckpoint_enc (ev sid ts : String) (ph : DebatePhase)
    (cfg : DebateConfig) (ch : String) (ars : List RoundResult)
    (jrs : List JudgeRoundResult) (sh : String) (hm : Option String)
    (hts : isZodDatetime ts = true) (hcfg : debateConfigWf cfg = true)
    (hch : ch.length = 64) (hars : ars.all roundResultWf = true)
    (hjrs : jrs.all judgeRoundWf = true) (hsh : sh.length = 64)
    (hhm : optOk (fun s => decide (s.length = 64)) hm = true) :
    decCheckpoint (Json.obj (checkpointBodyFields SPEC_VERSION ev sid ts ph cfg
        ch ars jrs
      ++ [("integrity", Json.obj [("sha256", Json.str sh),
            ("hmac", jNullableStr hm)])]))
      = some ⟨SPEC_VERSION, ev, sid, ts, ph, cfg, ch, ars, jrs, ⟨sh, hm⟩⟩ := by
  have gv : jGetP (checkpointBodyFields SPEC_VERSION ev sid ts ph cfg ch ars jrs
      ++ [("integrity", Json.obj [("sha256", Json.str sh),
        ("hmac", jNullableStr hm)])]) "version" = some (Json.str SPEC_VERSION) := by
    unfold checkpointBodyFields
    simp [jGetP_append, jGetP_cons, jGetP_nil, oSomeOr, oNoneOr, oOrNone]
  have gev : jGetP (checkpointBodyFields SPEC_VERSION ev sid ts ph cfg ch ars jrs
      ++ [("integrity", Json.obj [("sha256", Json.str sh),
        ("hmac", jNullableStr hm)])]) "engineVersion" = some (Json.str ev) := by
    unfold checkpointBodyFields
    simp [jGetP_append, jGetP_cons, jGetP_nil, oSomeOr, oNoneOr, oOrNone]
  have gsid : jGetP (checkpointBodyFields SPEC_VERSION ev sid ts ph cfg ch ars jrs
      ++ [("integrity", Json.obj [("sha256", Json.str sh),
        ("hmac", jNullableStr hm)])]) "sessionId" = some (Json.str sid) := by
    unfold checkpointBodyFields
    simp [jGetP_append, jGetP_cons, jGetP_nil, oSomeOr, oNoneOr, oOrNone]
  have gts : jGetP (checkpointBodyFields SPEC_VERSION ev sid ts ph cfg ch ars jrs
      ++ [("integrity", Json.obj [("sha256", Json.str sh),
        ("hmac", jNullableStr hm)])]) "timestamp" = some (Json.str ts) := by
    unfold checkpointBodyFields
    simp [jGetP_append, jGetP_cons, jGetP_nil, oSomeOr, oNoneOr, oOrNone]
  have gph : jGetP (checkpointBodyFields SPEC_VERSION ev sid ts ph cfg ch ars jrs
      ++ [("integrity", Json.obj [("sha256", Json.str sh),
        ("hmac", jNullableStr hm)])]) "phase"
      = some (Json.str (phaseToStr ph)) := by
    unfold checkpointBodyFields
    simp [jGetP_append, jGetP_cons, jGetP_nil, oSomeOr, oNoneOr, oOrNone]
  have gcfg : jGetP (checkpointBodyFields SPEC_VERSION ev sid ts ph cfg ch ars jrs
      ++ [("integrity", Json.obj [("sha256", Json.str sh),
        ("hmac", jNullableStr hm)])]) "config"
      = some (debateConfigToJson cfg) := by
    unfold checkpointBodyFields
    simp [jGetP_append, jGetP_cons, jGetP_nil, oSomeOr, oNoneOr, oOrNone]
  have gch : jGetP (checkpointBodyFields SPEC_VERSION ev sid ts ph cfg ch ars jrs
      ++ [("integrity", Json.obj [("sha256", Json.str sh),
        ("hmac", jNullableStr hm)])]) "configHash" = some (Json.str ch) := by
    unfold checkpointBodyFields
    simp [jGetP_append, jGetP_cons, jGetP_nil, oSomeOr, oNoneOr, oOrNone]
  have gars : jGetP (checkpointBodyFields SPEC_VERSION ev sid ts ph cfg ch ars jrs
      ++ [("integrity", Json.obj [("sha256", Json.str sh),
        ("hmac", jNullableStr hm)])]) "agentRounds"
      = some (Json.arr (ars.map roundResultToJson)) := by
    unfold checkpointBodyFields
    simp [jGetP_append, jGetP_cons, jGetP_nil, oSomeOr, oNoneOr, oOrNone]
  have gjrs : jGetP (checkpointBodyFields SPEC_VERSION ev sid ts ph cfg ch ars jrs
      ++ [("integrity", Json.obj [("sha256", Json.str sh),
        ("hmac", jNullableStr hm)])]) "judgeRounds"
      = some (Json.arr (jrs.map judgeRoundToJson)) := by
    unfold checkpointBodyFields
    simp [jGetP_append, jGetP_cons, jGetP_nil, oSomeOr, oNoneOr, oOrNone]
  have gig : jGetP (checkpointBodyFields SPEC_VERSION ev sid ts ph cfg ch ars jrs
      ++ [("integrity", Json.obj [("sha256", Json.str sh),
        ("hmac", jNullableStr hm)])]) "integrity"
      = some (Json.obj [("sha256", Json.str sh), ("hmac", jNullableStr hm)]) := by
    unfold checkpointBodyFields
    simp [jGetP_append, jGetP_cons, jGetP_nil, oSomeOr, oNoneOr, oOrNone]
  have z1 : zReq (checkpointBodyFields SPEC_VERSION ev sid ts ph cfg ch ars jrs
      ++ [("integrity", Json.obj [("sha256", Json.str sh),
        ("hmac", jNullableStr hm)])]) "version" (zLiteral "2.3.0")
      = some SPEC_VERSION := by
    unfold zReq
    rw [gv]
    decide
  have z2 : zReq (checkpointBodyFields SPEC_VERSION ev sid ts ph cfg ch ars jrs
      ++ [("integrity", Json.obj [("sha256", Json.str sh),
        ("hmac", jNullableStr hm)])]) "engineVersion" zStr = some ev := by
    unfold zReq
    rw [gev]
    rfl
  have z3 : zReq (checkpointBodyFields SPEC_VERSION ev sid ts ph cfg ch ars jrs
      ++ [("integrity", Json.obj [("sha256", Json.str sh),
        ("hmac", jNullableStr hm)])]) "sessionId" zStr = some sid := by
    unfold zReq
    rw [gsid]
    rfl
  have z4 : zReq (checkpointBodyFields SPEC_VERSION ev sid ts ph cfg ch ars jrs
      ++ [("integrity", Json.obj [("sha256", Json.str sh),
        ("hmac", jNullableStr hm)])]) "timestamp" zDatetimeStr = some ts := by
    unfold zReq
    rw [gts]
    exact zDatetimeStr_of ts hts
  have z5 : zReq (checkpointBodyFields SPEC_VERSION ev sid ts ph cfg ch ars jrs
      ++ [("integrity", Json.obj [("sha256", Json.str sh),
        ("hmac", jNullableStr hm)])]) "phase" zPhase = some ph := by
    unfold zReq
    rw [gph]
    exact zPhase_enc ph
  have z6 : zReq (checkpointBodyFields SPEC_VERSION ev sid ts ph cfg ch ars jrs
      ++ [("integrity", Json.obj [("sha256", Json.str sh),
        ("hmac", jNullableStr hm)])]) "config" decDebateConfig = some cfg := by
    unfold zReq
    rw [gcfg]
    exact decDebateConfig_enc cfg hcfg
  have z7 : zReq (checkpointBodyFields SPEC_VERSION ev sid ts ph cfg ch ars jrs
      ++ [("integrity", Json.obj [("sha256", Json.str sh),
        ("hmac", jNullableStr hm)])]) "configHash" (zStrExact 64) = some ch := by
    unfold zReq
    rw [gch]
    exact zStrExact_of 64 ch hch
  have z8 : zReq (checkpointBodyFields SPEC_VERSION ev sid ts ph cfg ch ars jrs
      ++ [("integrity", Json.obj [("sha256", Json.str sh),
        ("hmac", jNullableStr hm)])]) "agentRounds"
      (zArr decRoundResult 0 Option.none) = some ars := by
    unfold zReq
    rw [gars]
    exact zArr_enc _ _ 0 Option.none ars (Nat.zero_le _) (fun _ hh => nomatch hh)
      (fun x hx => decRoundResult_enc x ((List.all_eq_true.mp hars) x hx))
  have z9 : zDefault (checkpointBodyFields SPEC_VERSION ev sid ts ph cfg ch ars jrs
      ++ [("integrity", Json.obj [("sha256", Json.str sh),
        ("hmac", jNullableStr hm)])]) "judgeRounds"
      (zArr decJudgeRoundResult 0 Option.none) [] = some jrs :=
    zDefault_present _ _ _ _ _ jrs gjrs
      (zArr_enc _ _ 0 Option.none jrs (Nat.zero_le _) (fun _ hh => nomatch hh)
        (fun x hx => decJudgeRoundResult_enc x ((List.all_eq_true.mp hjrs) x hx)))
  have z10 : zReq (checkpointBodyFields SPEC_VERSION ev sid ts ph cfg ch ars jrs
      ++ [("integrity", Json.obj [("sha256", Json.str sh),
        ("hmac", jNullableStr hm)])]) "integrity" decIntegrity
      = some ⟨sh, hm⟩ := by
    unfold zReq
    rw [gig]
    exact decIntegrity_enc sh hm hsh hhm
  unfold decCheckpoint
  dsimp only
  simp only [z1, z2, z3, z4, z5, z6, z7, z8, z9, z10, obind_some]

theorem jsonNumsWf_str (s : String) : jsonNumsWf (Json.str s) = true := rfl

theorem jsonNumsWf_bool (b : Bool) : jsonNumsWf (Json.bool b) = true := rfl

theorem jsonNumsWf_arr (es : List Json) :
    jsonNumsWf (Json.arr es) = jsonNumsWfArr es := rfl

theorem jsonNumsWf_objE (ms : List (String × Json)) :
    jsonNumsWf (Json.obj ms) = jsonNumsWfObj ms := rfl

theorem jsonNumsWfObj_nil : jsonNumsWfObj [] = true := rfl

theorem jsonNumsWfObj_cons (k : String) (v : Json) (ms : List (String × Json)) :
    jsonNumsWfObj ((k, v) :: ms) = (jsonNumsWf v && jsonNumsWfObj ms) := rfl

theorem jsonNumsWfArr_nil : jsonNumsWfArr [] = true := rfl

theorem jsonNumsWfArr_cons (e : Json) (es : List Json) :
    jsonNumsWfArr (e :: es) = (jsonNumsWf e && jsonNumsWfArr es) := rfl

theorem jsonNumsWf_jNat (n : Nat) : jsonNumsWf (jNat n) = true := by
  simp [jNat, jsonNumsWf]

theorem jsonNumsWf_jInt (i : Int) : jsonNumsWf (jInt i) = true := by
  simp [jInt, jsonNumsWf]

theorem jsonNumsWf_jRat (q : ℚ) : jsonNumsWf (jRat q) = true := by
  unfold jRat ratToJnum
  cases hd : decScale q.den with
  | none => simp [jsonNumsWf]
  | some e =>
    simp only [jsonNumsWf, decide_eq_true_eq]
    omega

theorem jsonNumsWf_jNullableStr (o : Option String) :
    jsonNumsWf (jNullableStr o) = true := by
  cases o <;> simp [jNullableStr, jsonNumsWf]

theorem jsonNumsWfObj_append (a b : List (String × Json)) :
    jsonNumsWfObj (a ++ b) = (jsonNumsWfObj a && jsonNumsWfObj b) := by
  induction a with
  | nil => simp [jsonNumsWfObj]
  | cons m a ih =>
    obtain ⟨k, v⟩ := m
    simp [jsonNumsWfObj, ih, Bool.and_assoc]

theorem jsonNumsWfArr_map {α : Type} (f : α → Json) (l : List α)
    (h : ∀ x ∈ l, jsonNumsWf (f x) = true) : jsonNumsWfArr (l.map f) = true := by
  induction l with
  | nil => rfl
  | cons x xs ih =>
    simp [jsonNumsWfArr, h x (List.mem_cons_self x xs),
      ih (fun y hy => h y (List.mem_cons_of_mem x hy))]

theorem jsonNumsWfObj_optField_map {α : Type} (k : String) (f : α → Json)
    (o : Option α) (h : ∀ a, jsonNumsWf (f a) = true) :
    jsonNumsWfObj (optField k (o.map f)) = true := by
  cases o with
  | none => rfl
  | some a => simp [optField, jsonNumsWfObj, h a]

theorem jsonNumsWfObj_map_jNat (l : List (String × Nat)) :
    jsonNumsWfObj (l.map (fun kv => (kv.1, jNat kv.2))) = true := by
  induction l with
  | nil => rfl
  | cons kv l ih => simp [jsonNumsWfObj, jsonNumsWf_jNat, ih]

theorem tokenUsageToJson_numsWf (t : TokenUsage) :
    jsonNumsWf (tokenUsageToJson t) = true := by
  simp [tokenUsageToJson, jsonNumsWf_objE, jsonNumsWfObj_cons, jsonNumsWfObj_nil, jsonNumsWf_str, jsonNumsWf_bool, jsonNumsWf_arr, jsonNumsWf_jNat]

theorem voteTallyToJson_numsWf (v : VoteTally) :
    jsonNumsWf (voteTallyToJson v) = true := by
  simp [voteTallyToJson, jsonNumsWf_objE, jsonNumsWfObj_cons, jsonNumsWfObj_nil, jsonNumsWf_str, jsonNumsWf_bool, jsonNumsWf_arr, jsonNumsWf_jNat,
    jsonNumsWf_jInt]

theorem agentResponseToJson_numsWf (r : AgentResponse) :
    jsonNumsWf (agentResponseToJson r) = true := by
  simp [agentResponseToJson, jsonNumsWf_objE, jsonNumsWfObj_cons, jsonNumsWfObj_nil, jsonNumsWf_str, jsonNumsWf_bool, jsonNumsWf_arr, jsonNumsWf_jNat,
    jsonNumsWf_jRat, jsonNumsWf_jNullableStr, tokenUsageToJson_numsWf]

theorem roundResultToJson_numsWf (r : RoundResult) :
    jsonNumsWf (roundResultToJson r) = true := by
  simp [roundResultToJson, jsonNumsWf_objE, jsonNumsWfObj_cons, jsonNumsWfObj_nil, jsonNumsWf_str, jsonNumsWf_bool, jsonNumsWf_arr, jsonNumsWf_jNat,
    jsonNumsWf_jNullableStr, voteTallyToJson_numsWf,
    jsonNumsWfArr_map agentResponseToJson r.responses
      (fun x _ => agentResponseToJson_numsWf x)]

theorem judgeEvalToJson_numsWf (e : JudgeEvaluation) :
    jsonNumsWf (judgeEvalToJson e) = true := by
  simp [judgeEvalToJson, jsonNumsWf_objE, jsonNumsWfObj_cons, jsonNumsWfObj_nil, jsonNumsWf_str, jsonNumsWf_bool, jsonNumsWf_arr, jsonNumsWf_jNat,
    jsonNumsWf_jRat, jsonNumsWf_jNullableStr, tokenUsageToJson_numsWf,
    jsonNumsWfObj_map_jNat]

theorem judgeRoundToJson_numsWf (jr : JudgeRoundResult) :
    jsonNumsWf (judgeRoundToJson jr) = true := by
  simp [judgeRoundToJson, jsonNumsWf_objE, jsonNumsWfObj_cons, jsonNumsWfObj_nil, jsonNumsWf_str, jsonNumsWf_bool, jsonNumsWf_arr, jsonNumsWf_jNat,
    jsonNumsWf_jRat, jsonNumsWf_jNullableStr,
    jsonNumsWfArr_map Json.str jr.positionIds (fun _ _ => rfl),
    jsonNumsWfArr_map judgeEvalToJson jr.evaluations
      (fun x _ => judgeEvalToJson_numsWf x)]

theorem modelConfigToJson_numsWf (m : ModelConfig) :
    jsonNumsWf (modelConfigToJson m) = true := by
  unfold modelConfigToJson modelConfigMembers
  simp [jsonNumsWf_objE, jsonNumsWfObj_cons, jsonNumsWfObj_nil, jsonNumsWf_str, jsonNumsWf_bool, jsonNumsWf_arr, jsonNumsWfObj_append,
    jsonNumsWfObj_optField_map "apiKeyEnv" Json.str m.apiKeyEnv (fun _ => rfl),
    jsonNumsWfObj_optField_map "cliPath" Json.str m.cliPath (fun _ => rfl),
    jsonNumsWfObj_optField_map "cliArgs" (fun l => Json.arr (l.map Json.str))
      m.cliArgs (fun l => by
        simp [jsonNumsWf_arr, jsonNumsWfArr_map Json.str l (fun _ _ => rfl)]),
    jsonNumsWfObj_optField_map "chatTemplate"
      (fun t => Json.str (chatTemplateToStr t)) m.chatTemplate (fun _ => rfl),
    jsonNumsWfObj_optField_map "reasoningEffort"
      (fun t => Json.str (reasoningEffortToStr t)) m.reasoningEffort (fun _ => rfl),
    jsonNumsWfObj_optField_map "enableSearch" Json.bool m.enableSearch
      (fun _ => rfl)]

theorem agentConfigToJson_numsWf (a : AgentConfig) :
    jsonNumsWf (agentConfigToJson a) = true := by
  unfold agentConfigToJson agentConfigMembers
  simp [jsonNumsWf_objE, jsonNumsWfObj_cons, jsonNumsWfObj_nil, jsonNumsWf_str, jsonNumsWf_bool, jsonNumsWf_arr, jsonNumsWfObj_append, modelConfigToJson_numsWf,
    jsonNumsWfObj_optField_map "systemPrompt" Json.str a.systemPrompt
      (fun _ => rfl),
    jsonNumsWfObj_optField_map "temperature" jRat a.temperature
      (fun q => jsonNumsWf_jRat q)]

theorem timeoutConfigToJson_numsWf (t : TimeoutConfig) :
    jsonNumsWf (timeoutConfigToJson t) = true := by
  simp [timeoutConfigToJson, jsonNumsWf_objE, jsonNumsWfObj_cons, jsonNumsWfObj_nil, jsonNumsWf_str, jsonNumsWf_bool, jsonNumsWf_arr, jsonNumsWf_jNat]

theorem retryConfigToJson_numsWf (r : RetryConfig) :
    jsonNumsWf (retryConfigToJson r) = true := by
  simp [retryConfigToJson, jsonNumsWf_objE, jsonNumsWfObj_cons, jsonNumsWfObj_nil, jsonNumsWf_str, jsonNumsWf_bool, jsonNumsWf_arr, jsonNumsWf_jNat]

theorem concurrencyConfigToJson_numsWf (c : ConcurrencyConfig) :
    jsonNumsWf (concurrencyConfigToJson c) = true := by
  simp [concurrencyConfigToJson, jsonNumsWf_objE, jsonNumsWfObj_cons, jsonNumsWfObj_nil, jsonNumsWf_str, jsonNumsWf_bool, jsonNumsWf_arr, jsonNumsWf_jNat]

theorem limitConfigToJson_numsWf (l : LimitConfig) :
    jsonNumsWf (limitConfigToJson l) = true := by
  simp [limitConfigToJson, jsonNumsWf_objE, jsonNumsWfObj_cons, jsonNumsWfObj_nil, jsonNumsWf_str, jsonNumsWf_bool, jsonNumsWf_arr, jsonNumsWf_jNat,
    jsonNumsWf_jRat]

theorem debateConfigToJson_numsWf (c : DebateConfig) :
    jsonNumsWf (debateConfigToJson c) = true := by
  unfold debateConfigToJson debateConfigMembers
  simp [jsonNumsWf_objE, jsonNumsWfObj_cons, jsonNumsWfObj_nil, jsonNumsWf_str, jsonNumsWf_bool, jsonNumsWf_arr, jsonNumsWfObj_append, jsonNumsWf_jNat,
    jsonNumsWf_jRat, jsonNumsWf_jNullableStr, timeoutConfigToJson_numsWf,
    retryConfigToJson_numsWf, concurrencyConfigToJson_numsWf,
    limitConfigToJson_numsWf,
    jsonNumsWfObj_optField_map "initialQuery" Json.str c.initialQuery
      (fun _ => rfl),
    jsonNumsWfArr_map agentConfigToJson c.agents
      (fun x _ => agentConfigToJson_numsWf x),
    jsonNumsWfArr_map agentConfigToJson c.judges
      (fun x _ => agentConfigToJson_numsWf x)]

theorem checkpointBody_numsWf (v ev sid ts : String) (ph : DebatePhase)
    (cfg : DebateConfig) (ch : String) (ars : List RoundResult)
    (jrs : List JudgeRoundResult) :
    jsonNumsWfObj (checkpointBodyFields v ev sid ts ph cfg ch ars jrs) = true := by
  unfold checkpointBodyFields
  simp [jsonNumsWf_objE, jsonNumsWfObj_cons, jsonNumsWfObj_nil, jsonNumsWf_str, jsonNumsWf_bool, jsonNumsWf_arr, debateConfigToJson_numsWf,
    jsonNumsWfArr_map roundResultToJson ars (fun x _ => roundResultToJson_numsWf x),
    jsonNumsWfArr_map judgeRoundToJson jrs (fun x _ => judgeRoundToJson_numsWf x)]

theorem checkpointFull_numsWf (v ev sid ts : String) (ph : DebatePhase)
    (cfg : DebateConfig) (ch : String) (ars : List RoundResult)
    (jrs : List JudgeRoundResult) (sh : String) (hm : Option String) :
    jsonNumsWf (Json.obj (checkpointBodyFields v ev sid ts ph cfg ch ars jrs
      ++ [("integrity", Json.obj [("sha256", Json.str sh),
        ("hmac", jNullableStr hm)])])) = true := by
  simp [jsonNumsWf, jsonNumsWfObj_append, checkpointBody_numsWf, jsonNumsWf_objE, jsonNumsWfObj_cons, jsonNumsWfObj_nil, jsonNumsWf_str, jsonNumsWf_bool, jsonNumsWf_arr,
    jsonNumsWf_jNullableStr]

theorem optOk_len64_hmacOpt (b : Bool) (d k : String) :
    optOk (fun s => decide (s.length = 64))
      (if b then some (hmacSha256 d k) else Option.none) = true := by
  cases b <;> simp [optOk, hmacSha256_length]

theorem strOptTruthy_hmac (d k : String) :
    strOptTruthy (some (hmacSha256 d k)) = true :=
  strOptTruthy_some_of_ne _ (hmacSha256_ne_empty d k)

/-- C6: checkpoint round-trip — for every schema-valid checkpoint state
`S = (sessionId, phase, config, agentRounds, judgeRounds)` (the engine's
values satisfy every `CheckpointSchema` range/length constraint, stated by
`checkpointDataWf`, with each rational an exact decimal and each stored
timestamp in zod datetime shape), `loadCheckpoint` applied to the file
content `saveCheckpoint` writes — with any HMAC-key environment, the same
on both sides — passes schema validation, the exact version check, the
recomputed-SHA-256-equals-stored check, and the HMAC check when a secret
is configured, and returns data equal to `S`. -/
theorem checkpoint_roundtrip (data : CheckpointData) (now : String)
    (hmacKey : Option String) (hwf : checkpointDataWf data = true)
    (hnow : isZodDatetime now = true) :
    loadCheckpoint (saveCheckpoint data now hmacKey) hmacKey
      = Except.ok data := by
  unfold checkpointDataWf at hwf
  simp only [Bool.and_eq_true] at hwf
  obtain ⟨⟨hcfg, hars⟩, hjrs⟩ := hwf
  unfold saveCheckpoint loadCheckpoint
  dsimp only
  rw [jparse_jstringify _ _ (checkpointFull_numsWf _ _ _ _ _ _ _ _ _ _ _)]
  dsimp only
  rw [decCheckpoint_enc _ _ _ _ _ _ _ _ _ _ hnow hcfg (sha256_length _) hars hjrs
    (sha256_length _) (optOk_len64_hmacOpt _ _ _)]
  dsimp only
  rw [if_neg (fun hne => hne rfl)]
  rw [if_neg (fun hne => hne rfl)]
  cases hk : strOptTruthy hmacKey with
  | false => simp [hk]
  | true => simp [hk, strOptTruthy_hmac]

/-- C6 witness: a concrete schema-valid checkpoint state (two agents,
panel disabled, defaulted limits) round-trips through the file content
with no HMAC key configured. -/
theorem checkpoint_roundtrip_witness :
    checkpointDataWf cpFix = true
      ∧ isZodDatetime "2026-01-01T00:00:00Z" = true
      ∧ loadCheckpoint (saveCheckpoint cpFix "2026-01-01T00:00:00Z" Option.none)
          Option.none = Except.ok cpFix :=
  ⟨by with_unfolding_all decide, by decide,
    checkpoint_roundtrip cpFix "2026-01-01T00:00:00Z" Option.none
      (by with_unfolding_all decide) (by decide)⟩

end LLMCourt
